import Mathlib

/-!
Verification of movit's `ResampleEffect` / `SingleResamplePassEffect` (resample_effect.cpp).

A shallow embedding of the separable Lanczos resampler.

Modelling conventions

* C++ `int` members are `Int`; `unsigned` arguments are `Nat`, converted to `int`
  with an explicit wrap modulo `2^32`.
* `float` / `double` values are modelled exactly: rational arithmetic (`ℚ`) where the
  code only uses `+ - * /`, `min` and `lrintf`, and real arithmetic (`ℝ`) where it calls
  `sin` and uses `M_PI`.  No rounding of intermediate results and no IEEE infinities or
  NaNs are represented, so the numeric functions describe the code for positive sizes.
* Lines 212-214 decide an integer, so there rounding matters: besides the exact reading
  they are given as the machine evaluates them (`round_binary`, `int_radius_binary32`,
  `src_samples_binary32`), and the member `src_samples` of a pass holds the machine value.
* `assert(c)` is modelled as failure: a function containing asserts returns `Option`,
  and `none` stands for the aborted process.
* Members left uninitialised by a constructor are parameters of the constructor model.
-/

namespace Movit

/-! ## Data model -/

/-- Modelled from the spec: the enumerator `SingleResamplePassEffect::HORIZONTAL` of the
missing header resample_effect.h.  The member `direction` is registered through
`(int *)&direction`, hence it is kept as an integer. -/
def HORIZONTAL : Int := 0

/-- Modelled from the spec: the enumerator `SingleResamplePassEffect::VERTICAL` of the
missing header resample_effect.h. -/
def VERTICAL : Int := 1

/-- The data members of `SingleResamplePassEffect` that the size logic reads or writes
(`parent` and the GL texture name `texnum` carry no size information). -/
structure SingleResamplePassEffect where
  direction : Int
  input_width : Int
  input_height : Int
  output_width : Int
  output_height : Int
  last_input_width : Int
  last_input_height : Int
  last_output_width : Int
  last_output_height : Int
  src_samples : Int
  deriving DecidableEq, Repr

/-- The data members of `ResampleEffect`; the two owned passes are held by value. -/
structure ResampleEffect where
  input_width : Int
  input_height : Int
  output_width : Int
  output_height : Int
  hpass : SingleResamplePassEffect
  vpass : SingleResamplePassEffect
  deriving DecidableEq, Repr

/-- The members of a `SingleResamplePassEffect` that its constructor does not
initialise (lines 102-119 give values to `direction`, `input_*` and `last_*` only). -/
structure Indeterminate where
  output_width : Int
  output_height : Int
  src_samples : Int
  deriving DecidableEq, Repr

/-- Constructor `SingleResamplePassEffect::SingleResamplePassEffect` (lines 102-119). -/
def SingleResamplePassEffect.new (u : Indeterminate) : SingleResamplePassEffect :=
  { direction := HORIZONTAL
    input_width := 1280
    input_height := 720
    output_width := u.output_width
    output_height := u.output_height
    last_input_width := -1
    last_input_height := -1
    last_output_width := -1
    last_output_height := -1
    src_samples := u.src_samples }

/-- Modelled from the spec: `Effect::set_int` (effect.cpp is not among the sources) on a
`SingleResamplePassEffect`, whose constructor registers exactly the keys `direction`,
`input_width`, `input_height`, `output_width` and `output_height`.  A recognised key
stores the value in the registered member and reports success; any other key reports
failure and stores nothing. -/
def SingleResamplePassEffect.set_int (p : SingleResamplePassEffect) (key : String)
    (value : Int) : Bool × SingleResamplePassEffect :=
  if key = "direction" then (true, { p with direction := value })
  else if key = "input_width" then (true, { p with input_width := value })
  else if key = "input_height" then (true, { p with input_height := value })
  else if key = "output_width" then (true, { p with output_width := value })
  else if key = "output_height" then (true, { p with output_height := value })
  else (false, p)

/-- Conversion `unsigned -> int` (the assignments of lines 67-68): the value is reduced
modulo `2^32` into the range of a 32-bit `int`. -/
def unsigned_to_int (n : Nat) : Int :=
  if n % 2 ^ 32 < 2 ^ 31 then ((n % 2 ^ 32 : Nat) : Int)
  else ((n % 2 ^ 32 : Nat) : Int) - 2 ^ 32

/-- Conversion `float -> int` (the assignments of lines 90 and 95): truncation towards
zero. -/
def float_to_int (v : ℚ) : Int :=
  if 0 ≤ v then ⌊v⌋ else ⌈v⌉

/-! ## `ResampleEffect` -/

/-- Method `ResampleEffect::update_size` (lines 72-86).  The eight setter results are
accumulated with `|=` into `ok`, which starts out `true`; `assert(ok)` closes the
function. -/
def ResampleEffect.update_size (e : ResampleEffect) : Option ResampleEffect :=
  let ok := true
  let r1 := e.hpass.set_int "input_width" e.input_width
  let ok := ok || r1.1
  let r2 := r1.2.set_int "input_height" e.input_height
  let ok := ok || r2.1
  let r3 := r2.2.set_int "output_width" e.output_width
  let ok := ok || r3.1
  let r4 := r3.2.set_int "output_height" e.input_height
  let ok := ok || r4.1
  let s1 := e.vpass.set_int "input_width" e.output_width
  let ok := ok || s1.1
  let s2 := s1.2.set_int "input_height" e.input_height
  let ok := ok || s2.1
  let s3 := s2.2.set_int "output_width" e.output_width
  let ok := ok || s3.1
  let s4 := s3.2.set_int "output_height" e.output_height
  let ok := ok || s4.1
  if ok then some { e with hpass := r4.2, vpass := s4.2 } else none

/-- Constructor `ResampleEffect::ResampleEffect` (lines 34-48).  `output_width` and `output_height`
are only registered, not initialised, so their initial values are parameters, as are the
uninitialised members of the two passes. -/
def ResampleEffect.new (output_width output_height : Int) (uh uv : Indeterminate) :
    Option ResampleEffect :=
  let hpass := ((SingleResamplePassEffect.new uh).set_int "direction" HORIZONTAL).2
  let vpass := ((SingleResamplePassEffect.new uv).set_int "direction" VERTICAL).2
  ResampleEffect.update_size
    { input_width := 1280
      input_height := 720
      output_width := output_width
      output_height := output_height
      hpass := hpass
      vpass := vpass }

/-- Method `ResampleEffect::inform_input_size` (lines 62-70). -/
def ResampleEffect.inform_input_size (e : ResampleEffect) (input_num width height : Nat) :
    Option ResampleEffect :=
  if input_num ≠ 0 then none
  else if width = 0 then none
  else if height = 0 then none
  else
    ResampleEffect.update_size
      { e with input_width := unsigned_to_int width, input_height := unsigned_to_int height }

/-- Method `ResampleEffect::set_float` (lines 88-100): the returned flag together with the new
state, or `none` when the assertion inside `update_size` fails. -/
def ResampleEffect.set_float (e : ResampleEffect) (key : String) (value : ℚ) :
    Option (Bool × ResampleEffect) :=
  if key = "width" then
    (ResampleEffect.update_size { e with output_width := float_to_int value }).map
      (fun e1 => (true, e1))
  else if key = "height" then
    (ResampleEffect.update_size { e with output_height := float_to_int value }).map
      (fun e1 => (true, e1))
  else some (false, e)

/-- One call made by the host on a `ResampleEffect`. -/
inductive Call where
  | set_float (key : String) (value : ℚ)
  | inform_input_size (input_num width height : Nat)

/-- The state after one call, `none` when an assertion aborted it. -/
def ResampleEffect.call (e : ResampleEffect) : Call → Option ResampleEffect
  | .set_float key value => (e.set_float key value).map Prod.snd
  | .inform_input_size input_num width height => e.inform_input_size input_num width height

/-- The state after a finite sequence of calls. -/
def ResampleEffect.run (e : ResampleEffect) : List Call → Option ResampleEffect
  | [] => some e
  | c :: cs => (e.call c).bind (fun e1 => e1.run cs)

/-- The calls considered by the size-propagation property: `set_float` on `"width"` or
`"height"`, and `inform_input_size(0, Wi, Hi)` with `Wi, Hi > 0`. -/
def Call.admissible : Call → Prop
  | .set_float key _ => key = "width" ∨ key = "height"
  | .inform_input_size input_num width height => input_num = 0 ∧ 0 < width ∧ 0 < height

/-- The four size-propagation equations between a `ResampleEffect` and its passes. -/
def size_propagated (e : ResampleEffect) : Prop :=
  (e.hpass.input_width = e.input_width ∧ e.hpass.input_height = e.input_height) ∧
  (e.hpass.output_width = e.output_width ∧ e.hpass.output_height = e.input_height) ∧
  (e.vpass.input_width = e.output_width ∧ e.vpass.input_height = e.input_height) ∧
  (e.vpass.output_width = e.output_width ∧ e.vpass.output_height = e.output_height)

/-! ## Kernel (lines 14-30) -/

/-- The macro `LANCZOS_RADIUS` (line 2). -/
def LANCZOS_RADIUS : ℚ := 3

/-- The function `sinc` (lines 14-21), with `sin` the real sine. -/
noncomputable def sinc (x : ℝ) : ℝ :=
  if |x| < 1e-6 then 1 - |x| else Real.sin x / x

/-- The function `lanczos_weight` (lines 23-30), with `M_PI` the real number π. -/
noncomputable def lanczos_weight (x a : ℝ) : ℝ :=
  if |x| > a then 0 else sinc (Real.pi * x) * sinc (Real.pi * x / a)

/-! ## Weight table (lines 212-229) -/

/-- The C library function `lrintf` in the default rounding mode (the program never
changes the floating-point environment): the nearest integer, a tie going to the even
neighbour. -/
def lrintf (x : ℚ) : Int :=
  if x - ⌊x⌋ < 1 / 2 then ⌊x⌋
  else if 1 / 2 < x - ⌊x⌋ then ⌊x⌋ + 1
  else if ⌊x⌋ % 2 = 0 then ⌊x⌋ else ⌊x⌋ + 1

/-- Line 212 in exact arithmetic: `std::min(float(dst_size) / float(src_size), 1.0f)`
without the rounding of the quotient to `float`.  The machine value is
`radius_scaling_factor_binary32`. -/
def radius_scaling_factor (src_size dst_size : Nat) : ℚ :=
  min ((dst_size : ℚ) / (src_size : ℚ)) 1

/-- Line 213 in exact arithmetic: `lrintf(LANCZOS_RADIUS / radius_scaling_factor)` on the
exact quotient.  The machine value is `int_radius_binary32`; the two agree for
`src_size < 2^20`, `dst_size < 2^24` unless the exact quotient lies halfway between two
integers (`int_radius_binary32_eq_int_radius`), where the rounding of the `float`
quotient decides the neighbour taken (`43 -> 6` gives 21 on the machine, 22 here). -/
def int_radius (src_size dst_size : Nat) : Int :=
  lrintf (LANCZOS_RADIUS / radius_scaling_factor src_size dst_size)

/-- Line 214 on the exact-arithmetic `int_radius`: `src_samples = int_radius * 2 + 1`. -/
def src_samples (src_size dst_size : Nat) : Int :=
  int_radius src_size dst_size * 2 + 1

/-- Line 219: `(y + 0.5f) * float(src_size) / float(dst_size) - 0.5f`. -/
def center_src_y (src_size dst_size y : Nat) : ℚ :=
  ((y : ℚ) + 1 / 2) * (src_size : ℚ) / (dst_size : ℚ) - 1 / 2

/-- Line 220: `lrintf(center_src_y)`. -/
def base_src_y (src_size dst_size y : Nat) : Int :=
  lrintf (center_src_y src_size dst_size y)

/-- Line 224: `base_src_y + i - int_radius`; the loop counter `i` runs over
`0 <= i < src_samples`. -/
def src_y (src_size dst_size y i : Nat) : Int :=
  base_src_y src_size dst_size y + (i : Int) - int_radius src_size dst_size

/-- Line 225: the local `weight`, the kernel sampled at
`radius_scaling_factor * (src_y - center_src_y)`. -/
noncomputable def weight (src_size dst_size y i : Nat) : ℝ :=
  lanczos_weight
    (((radius_scaling_factor src_size dst_size *
        ((src_y src_size dst_size y i : ℚ) - center_src_y src_size dst_size y) : ℚ)) : ℝ)
    ((LANCZOS_RADIUS : ℚ) : ℝ)

/-- Line 226: the stored weight `weights[(y * src_samples + i) * 2 + 0]`. -/
noncomputable def weights_w (src_size dst_size y i : Nat) : ℝ :=
  weight src_size dst_size y i * ((radius_scaling_factor src_size dst_size : ℚ) : ℝ)

/-- Line 227: the stored normalised source coordinate
`weights[(y * src_samples + i) * 2 + 1]`. -/
def weights_u (src_size dst_size y i : Nat) : ℚ :=
  ((src_y src_size dst_size y i : ℚ) + 1 / 2) / (src_size : ℚ)

/-- The sum of the stored weights of destination row `y`. -/
noncomputable def row_weight_sum (src_size dst_size y : Nat) : ℝ :=
  ∑ i in Finset.range (src_samples src_size dst_size).toNat, weights_w src_size dst_size y i

/-- The row applied to the linear ramp whose source pixel `s` has value `s`: the sum of
`weight * source index` over the samples of destination row `y`. -/
noncomputable def row_ramp_sum (src_size dst_size y : Nat) : ℝ :=
  ∑ i in Finset.range (src_samples src_size dst_size).toNat,
    weights_w src_size dst_size y i * ((src_y src_size dst_size y i : ℤ) : ℝ)

/-! ## Lines 212-214 evaluated in binary floating point -/

/-- IEEE 754 rounding to nearest, ties to even, onto the binary format with `p`
significand bits: the value is scaled so that its significand is an integer of `p` bits,
rounded by `lrintf`, and scaled back.  The exponent range is not limited (the values
rounded in this file stay in the normal range). -/
def round_binary (p : Nat) (x : ℚ) : ℚ :=
  if x = 0 then 0
  else
    (lrintf (x / 2 ^ (Int.log 2 |x| - ((p : Int) - 1))) : ℚ)
      * 2 ^ (Int.log 2 |x| - ((p : Int) - 1))

/-- Rounding to `float` (binary32, 24 significand bits): the conversions `float(...)` and
every arithmetic result of type `float`. -/
def to_float (x : ℚ) : ℚ :=
  round_binary 24 x

/-- Rounding to `double` (binary64, 53 significand bits). -/
def to_double (x : ℚ) : ℚ :=
  round_binary 53 x

/-- Line 212 as the machine evaluates it: `float(dst_size) / float(src_size)` is a `float`
division, then `std::min` with `1.0f`. -/
def radius_scaling_factor_binary32 (src_size dst_size : Nat) : ℚ :=
  min (to_float (to_float (dst_size : ℚ) / to_float (src_size : ℚ))) 1

/-- Line 213 as the machine evaluates it: `LANCZOS_RADIUS` is the `double` 3.0, so the
division is done in `double`; `lrintf` takes a `float`, so the quotient is converted to
`float` before it is rounded to an integer.  The conversion of the `long` result to `int`
is the identity for the sizes considered here. -/
def int_radius_binary32 (src_size dst_size : Nat) : Int :=
  lrintf (to_float (to_double
    (LANCZOS_RADIUS / radius_scaling_factor_binary32 src_size dst_size)))

/-- Line 214 on the machine value of `int_radius`. -/
def src_samples_binary32 (src_size dst_size : Nat) : Int :=
  int_radius_binary32 src_size dst_size * 2 + 1

/-! ## `SingleResamplePassEffect` and the GL state it drives -/

/-- What the resampler leaves in the GL context: the number of `glTexImage2D` uploads of
the weight texture so far, the dimensions of the last upload, and the four uniforms. -/
structure GLState where
  tex_uploads : Nat
  tex_width : Int
  tex_height : Nat
  sample_tex : Nat
  num_samples : Int
  sample_x_scale : ℚ
  sample_x_offset : ℚ
  deriving DecidableEq

/-- Conversion `int -> unsigned` (the assignments of lines 153-158). -/
def int_to_unsigned (i : Int) : Nat :=
  (i % 2 ^ 32).toNat

/-- Lines 150-161 of `update_texture`: the choice of `(src_size, dst_size)` by direction,
with the three assertions. -/
def SingleResamplePassEffect.resample_sizes (p : SingleResamplePassEffect) :
    Option (Nat × Nat) :=
  if p.direction = HORIZONTAL then
    if p.input_height = p.output_height then
      some (int_to_unsigned p.input_width, int_to_unsigned p.output_width)
    else none
  else if p.direction = VERTICAL then
    if p.input_width = p.output_width then
      some (int_to_unsigned p.input_height, int_to_unsigned p.output_height)
    else none
  else none

/-- Method `SingleResamplePassEffect::update_texture` (lines 148-248): after the assertions the
member `src_samples` is set (to its machine value, `src_samples_binary32`) and a texture
of `src_samples x dst_size` texels is uploaded.  The function contains no assertion
besides those of lines 150-161. -/
def SingleResamplePassEffect.update_texture (p : SingleResamplePassEffect) (gl : GLState) :
    Option (SingleResamplePassEffect × GLState) :=
  p.resample_sizes.map fun sz =>
    ({ p with src_samples := src_samples_binary32 sz.1 sz.2 },
     { gl with
        tex_uploads := gl.tex_uploads + 1
        tex_width := src_samples_binary32 sz.1 sz.2
        tex_height := sz.2 })

/-- The outcome of one `set_gl_state` call: the pass, the GL state, the memory holding
the caller's sampler counter, and the final value of the local pointer `sampler_num`. -/
structure GLCall where
  pass : SingleResamplePassEffect
  gl : GLState
  mem : Nat → Nat
  sampler_num : Nat

/-- Lines 265-283 of `set_gl_state`: bind the texture to unit `*sampler_num`, publish
`sample_tex` with `*sampler_num`, advance the local pointer (`++sampler_num`), and publish
`num_samples`, `sample_x_scale` and `sample_x_offset`.  `mem` is the memory of `unsigned`
cells and `sampler_num` the address passed by the caller, so `*sampler_num` is
`mem sampler_num`; no cell is written. -/
def SingleResamplePassEffect.publish (p : SingleResamplePassEffect) (gl : GLState)
    (mem : Nat → Nat) (sampler_num : Nat) : GLCall :=
  let gl1 := { gl with sample_tex := mem sampler_num }
  let sampler_num := sampler_num + 1
  let gl2 := { gl1 with num_samples := p.src_samples }
  let gl3 := { gl2 with sample_x_scale := 1 / (p.src_samples : ℚ) }
  let gl4 := { gl3 with sample_x_offset := (1 / 2) / (p.src_samples : ℚ) }
  { pass := p, gl := gl4, mem := mem, sampler_num := sampler_num }

/-- Method `SingleResamplePassEffect::set_gl_state` (lines 250-284).  Line 252 calls the
inherited `Effect::set_gl_state`, which is not among the sources; the model starts from
the state that call leaves behind. -/
def SingleResamplePassEffect.set_gl_state (p : SingleResamplePassEffect) (gl : GLState)
    (mem : Nat → Nat) (sampler_num : Nat) : Option GLCall :=
  let rebuilt : Option (SingleResamplePassEffect × GLState) :=
    if p.input_width ≠ p.last_input_width ∨
        p.input_height ≠ p.last_input_height ∨
        p.output_width ≠ p.last_output_width ∨
        p.output_height ≠ p.last_output_height then
      (p.update_texture gl).map fun r =>
        ({ r.1 with
            last_input_width := r.1.input_width
            last_input_height := r.1.input_height
            last_output_width := r.1.output_width
            last_output_height := r.1.output_height }, r.2)
    else some (p, gl)
  rebuilt.map fun r => r.1.publish r.2 mem sampler_num

/-- The direction invariant of a pass, as asserted on lines 152 and 156: a horizontal
pass keeps the height, a vertical pass keeps the width. -/
def direction_invariant (p : SingleResamplePassEffect) : Prop :=
  (p.direction = HORIZONTAL ∧ p.input_height = p.output_height) ∨
  (p.direction = VERTICAL ∧ p.input_width = p.output_width)

instance (p : SingleResamplePassEffect) : Decidable (direction_invariant p) := by
  unfold direction_invariant
  exact inferInstance

/-- The four sizes of `q` replaced, everything else (direction, cache, `src_samples`)
kept: the effect of `set_int` calls on the size keys. -/
def SingleResamplePassEffect.with_sizes (q : SingleResamplePassEffect)
    (input_width input_height output_width output_height : Int) : SingleResamplePassEffect :=
  { q with
    input_width := input_width
    input_height := input_height
    output_width := output_width
    output_height := output_height }

/-- The cache `last_*` holds the current sizes. -/
def cache_current (p : SingleResamplePassEffect) : Prop :=
  p.last_input_width = p.input_width ∧ p.last_input_height = p.input_height ∧
  p.last_output_width = p.output_width ∧ p.last_output_height = p.output_height

instance (p : SingleResamplePassEffect) : Decidable (cache_current p) := by
  unfold cache_current
  exact inferInstance

/-- A horizontal pass as constructed and then sized 1280x720 -> 640x720, used as a
concrete input. -/
def hpass_fixture : SingleResamplePassEffect :=
  { direction := HORIZONTAL, input_width := 1280, input_height := 720,
    output_width := 640, output_height := 720,
    last_input_width := -1, last_input_height := -1,
    last_output_width := -1, last_output_height := -1, src_samples := 0 }

/-- A GL state in which nothing has been uploaded or published yet. -/
def gl_fixture : GLState :=
  { tex_uploads := 0, tex_width := 0, tex_height := 0, sample_tex := 0,
    num_samples := 0, sample_x_scale := 0, sample_x_offset := 0 }

/-! ## Definitions for the host graph, the shader contract and the setter results -/

/-- Lines 72-86 of `ResampleEffect::update_size` with the setter of the passes abstracted:
`setter` stands for `set_int`, whose eight boolean results are accumulated with `|=` into
`ok` (initially `true`) and checked by `assert(ok)`. -/
def ResampleEffect.update_size_with
    (setter : SingleResamplePassEffect → String → Int → Bool × SingleResamplePassEffect)
    (e : ResampleEffect) : Option ResampleEffect :=
  let ok := true
  let r1 := setter e.hpass "input_width" e.input_width
  let ok := ok || r1.1
  let r2 := setter r1.2 "input_height" e.input_height
  let ok := ok || r2.1
  let r3 := setter r2.2 "output_width" e.output_width
  let ok := ok || r3.1
  let r4 := setter r3.2 "output_height" e.input_height
  let ok := ok || r4.1
  let s1 := setter e.vpass "input_width" e.output_width
  let ok := ok || s1.1
  let s2 := setter s1.2 "input_height" e.input_height
  let ok := ok || s2.1
  let s3 := setter s2.2 "output_width" e.output_width
  let ok := ok || s3.1
  let s4 := setter s3.2 "output_height" e.output_height
  let ok := ok || s4.1
  if ok then some { e with hpass := r4.2, vpass := s4.2 } else none

/-- The effect wrapped by a graph node, as far as `rewrite_graph` tells effects apart:
the two passes owned by the `ResampleEffect`, or any other effect. -/
inductive EffectRef where
  | hpass
  | vpass
  | other (id : Nat)
  deriving DecidableEq, Repr

/-- Modelled from the spec: the host graph `EffectChain` (effect_chain.cpp and
effect_chain.h are not among the sources).  Nodes are numbered in creation order and
`nodes` lists the effect each one wraps; `edges` holds the (sender, receiver) pairs;
`disabled` lists the nodes whose `disabled` flag is set. -/
structure EffectChain where
  nodes : List EffectRef
  edges : List (Nat × Nat)
  disabled : List Nat
  deriving DecidableEq, Repr

/-- Modelled from the spec: `add_node(effect)` creates a node wrapping `effect` and
returns its handle. -/
def EffectChain.add_node (g : EffectChain) (effect : EffectRef) : EffectChain × Nat :=
  ({ g with nodes := g.nodes ++ [effect] }, g.nodes.length)

/-- Modelled from the spec: `connect_nodes(from, to)` adds the edge `from -> to`. -/
def EffectChain.connect_nodes (g : EffectChain) (sender receiver : Nat) : EffectChain :=
  { g with edges := g.edges ++ [(sender, receiver)] }

/-- Modelled from the spec: `replace_receiver(old, new)` rewires all edges targeting
`old` to `new`. -/
def EffectChain.replace_receiver (g : EffectChain) (old_receiver new_receiver : Nat) :
    EffectChain :=
  { g with
    edges := g.edges.map fun e => (e.1, if e.2 = old_receiver then new_receiver else e.2) }

/-- Modelled from the spec: `replace_sender(old, new)` rewires all edges sourced from
`old` to `new`. -/
def EffectChain.replace_sender (g : EffectChain) (old_sender new_sender : Nat) :
    EffectChain :=
  { g with
    edges := g.edges.map fun e => (if e.1 = old_sender then new_sender else e.1, e.2) }

/-- The graph after `rewrite_graph`, together with the two node handles it created. -/
structure Rewritten where
  graph : EffectChain
  hpass_node : Nat
  vpass_node : Nat
  deriving DecidableEq, Repr

/-- Method `ResampleEffect::rewrite_graph` (lines 50-58); `self` is the handle of the
node wrapping the `ResampleEffect`. -/
def ResampleEffect.rewrite_graph (graph : EffectChain) (self : Nat) : Rewritten :=
  let a := graph.add_node EffectRef.hpass
  let hpass_node := a.2
  let b := a.1.add_node EffectRef.vpass
  let vpass_node := b.2
  let g1 := b.1.connect_nodes hpass_node vpass_node
  let g2 := g1.replace_receiver self hpass_node
  let g3 := g2.replace_sender self vpass_node
  { graph := { g3 with disabled := self :: g3.disabled }
    hpass_node := hpass_node
    vpass_node := vpass_node }

/-- What `rewrite_graph` does to the two ends of an edge that existed before the call. -/
def retarget (self hpass_node vpass_node : Nat) (e : Nat × Nat) : Nat × Nat :=
  (if e.1 = self then vpass_node else e.1, if e.2 = self then hpass_node else e.2)

/-- Modelled from the spec: the conversion the fragment shader (resample_effect.frag is
not among the sources) applies to sample index `i` to address the weight texture,
`i * sample_x_scale + sample_x_offset`, on the published uniforms. -/
def sample_x (gl : GLState) (i : Nat) : ℚ :=
  (i : ℚ) * gl.sample_x_scale + gl.sample_x_offset

/-- Line 225 for an arbitrary integer source index `s` in place of `src_y`: the kernel
sampled at `radius_scaling_factor * (s - center_src_y)`. -/
noncomputable def weight_of_src (src_size dst_size y : Nat) (s : Int) : ℝ :=
  lanczos_weight
    (((radius_scaling_factor src_size dst_size *
        ((s : ℚ) - center_src_y src_size dst_size y) : ℚ)) : ℝ)
    ((LANCZOS_RADIUS : ℚ) : ℝ)

/-- The invariant of the states a constructed `ResampleEffect` can reach: the size
equations together with the directions given to the two passes by the constructor. -/
def owned_passes_consistent (e : ResampleEffect) : Prop :=
  size_propagated e ∧ e.hpass.direction = HORIZONTAL ∧ e.vpass.direction = VERTICAL

/-! ## Helper lemmas -/

theorem update_size_eq (e : ResampleEffect) :
    e.update_size = some
      { e with
        hpass := { e.hpass with
          input_width := e.input_width, input_height := e.input_height,
          output_width := e.output_width, output_height := e.input_height }
        vpass := { e.vpass with
          input_width := e.output_width, input_height := e.input_height,
          output_width := e.output_width, output_height := e.output_height } } := by
  simp [ResampleEffect.update_size, SingleResamplePassEffect.set_int]

theorem update_size_propagated (e e1 : ResampleEffect) (h : e.update_size = some e1) :
    size_propagated e1 := by
  rw [update_size_eq] at h
  cases h
  simp [size_propagated]

theorem call_admissible_propagated (e : ResampleEffect) (c : Call) (hc : c.admissible) :
    ∃ e1, e.call c = some e1 ∧ size_propagated e1 := by
  cases c with
  | set_float key value =>
    rcases hc with hk | hk
    · subst hk
      have h := update_size_eq { e with output_width := float_to_int value }
      exact ⟨_, by simp [ResampleEffect.call, ResampleEffect.set_float, h],
        update_size_propagated _ _ h⟩
    · subst hk
      have h := update_size_eq { e with output_height := float_to_int value }
      exact ⟨_, by simp [ResampleEffect.call, ResampleEffect.set_float, h],
        update_size_propagated _ _ h⟩
  | inform_input_size input_num width height =>
    obtain ⟨h0, hw, hh⟩ := hc
    subst h0
    have h := update_size_eq
      { e with input_width := unsigned_to_int width, input_height := unsigned_to_int height }
    exact ⟨_, by simp [ResampleEffect.call, ResampleEffect.inform_input_size, h,
        Nat.pos_iff_ne_zero.mp hw, Nat.pos_iff_ne_zero.mp hh],
      update_size_propagated _ _ h⟩

theorem run_admissible_propagated (calls : List Call) :
    ∀ e : ResampleEffect, size_propagated e → (∀ c ∈ calls, c.admissible) →
      ∃ e1, e.run calls = some e1 ∧ size_propagated e1 := by
  induction calls with
  | nil => intro e he _; exact ⟨e, rfl, he⟩
  | cons c cs ih =>
    intro e _ hall
    obtain ⟨e1, h1, hp1⟩ := call_admissible_propagated e c (hall c (List.mem_cons_self _ _))
    obtain ⟨e2, h2, hp2⟩ := ih e1 hp1 (fun d hd => hall d (List.mem_cons_of_mem _ hd))
    exact ⟨e2, by simp [ResampleEffect.run, h1, h2], hp2⟩

theorem lrintf_of_lt (x : ℚ) (n : Int) (h1 : (n : ℚ) - 1 / 2 < x) (h2 : x < (n : ℚ) + 1 / 2) :
    lrintf x = n := by
  unfold lrintf
  have hfl : (⌊x⌋ : ℚ) ≤ x := Int.floor_le x
  have hfu : x < (⌊x⌋ : ℚ) + 1 := Int.lt_floor_add_one x
  split_ifs with ha hb hc
  · have h3 : (n : ℚ) - 1 < (⌊x⌋ : ℚ) := by linarith
    have h4 : (⌊x⌋ : ℚ) < (n : ℚ) + 1 := by linarith
    have h5 : n - 1 < ⌊x⌋ := by exact_mod_cast h3
    have h6 : ⌊x⌋ < n + 1 := by exact_mod_cast h4
    omega
  · have h3 : (n : ℚ) - 1 < (⌊x⌋ : ℚ) + 1 := by linarith
    have h4 : (⌊x⌋ : ℚ) + 1 < (n : ℚ) + 1 := by linarith
    have h5 : n - 1 < ⌊x⌋ + 1 := by exact_mod_cast h3
    have h6 : ⌊x⌋ + 1 < n + 1 := by exact_mod_cast h4
    omega
  · have : x - ⌊x⌋ = 1 / 2 := le_antisymm (not_lt.mp hb) (not_lt.mp ha)
    have h3 : (n : ℚ) - 1 < (⌊x⌋ : ℚ) := by linarith
    have h4 : (⌊x⌋ : ℚ) < (n : ℚ) := by linarith
    have h5 : n - 1 < ⌊x⌋ := by exact_mod_cast h3
    have h6 : ⌊x⌋ < n := by exact_mod_cast h4
    omega
  · have : x - ⌊x⌋ = 1 / 2 := le_antisymm (not_lt.mp hb) (not_lt.mp ha)
    have h3 : (n : ℚ) - 1 < (⌊x⌋ : ℚ) := by linarith
    have h4 : (⌊x⌋ : ℚ) < (n : ℚ) := by linarith
    have h5 : n - 1 < ⌊x⌋ := by exact_mod_cast h3
    have h6 : ⌊x⌋ < n := by exact_mod_cast h4
    omega

theorem lrintf_intCast (n : Int) : lrintf (n : ℚ) = n :=
  lrintf_of_lt _ n (by linarith) (by linarith)

theorem floor_of_tie (x : ℚ) (n : Int) (h : x = (n : ℚ) + 1 / 2) : ⌊x⌋ = n := by
  rw [Int.floor_eq_iff]
  constructor <;> linarith

theorem lrintf_tie_even (x : ℚ) (n : Int) (h : x = (n : ℚ) + 1 / 2) (hn : n % 2 = 0) :
    lrintf x = n := by
  have hf := floor_of_tie x n h
  unfold lrintf
  rw [hf]
  have e : x - (n : ℚ) = 1 / 2 := by linarith
  simp [e, hn]

theorem lrintf_tie_odd (x : ℚ) (n : Int) (h : x = (n : ℚ) + 1 / 2) (hn : n % 2 = 1) :
    lrintf x = n + 1 := by
  have hf := floor_of_tie x n h
  unfold lrintf
  rw [hf]
  have e : x - (n : ℚ) = 1 / 2 := by linarith
  simp [e, hn]

theorem lrintf_nearest (x : ℚ) : |(lrintf x : ℚ) - x| ≤ 1 / 2 := by
  unfold lrintf
  have hfl : (⌊x⌋ : ℚ) ≤ x := Int.floor_le x
  have hfu : x < (⌊x⌋ : ℚ) + 1 := Int.lt_floor_add_one x
  rw [abs_le]
  split_ifs with ha hb hc
  · constructor <;> linarith
  · push_cast; constructor <;> linarith
  · have : x - ⌊x⌋ = 1 / 2 := le_antisymm (not_lt.mp hb) (not_lt.mp ha)
    constructor <;> linarith
  · have : x - ⌊x⌋ = 1 / 2 := le_antisymm (not_lt.mp hb) (not_lt.mp ha)
    push_cast; constructor <;> linarith

theorem radius_scaling_factor_pos (src_size dst_size : Nat) (hs : 0 < src_size)
    (hd : 0 < dst_size) : 0 < radius_scaling_factor src_size dst_size := by
  unfold radius_scaling_factor
  have h1 : (0 : ℚ) < src_size := by exact_mod_cast hs
  have h2 : (0 : ℚ) < dst_size := by exact_mod_cast hd
  exact lt_min (div_pos h2 h1) one_pos

theorem radius_scaling_factor_upsample (src_size dst_size : Nat) (hs : 0 < src_size)
    (h : src_size ≤ dst_size) : radius_scaling_factor src_size dst_size = 1 := by
  unfold radius_scaling_factor
  have h1 : (0 : ℚ) < src_size := by exact_mod_cast hs
  have h2 : (src_size : ℚ) ≤ dst_size := by exact_mod_cast h
  exact min_eq_right ((one_le_div h1).mpr h2)

theorem radius_scaling_factor_downsample (dst_size k : Nat) (hd : 0 < dst_size) (hk : 0 < k) :
    radius_scaling_factor (k * dst_size) dst_size = 1 / (k : ℚ) := by
  unfold radius_scaling_factor
  have h1 : (0 : ℚ) < dst_size := by exact_mod_cast hd
  have h2 : (1 : ℚ) ≤ k := by exact_mod_cast hk
  have e : (dst_size : ℚ) / ((k * dst_size : ℕ) : ℚ) = 1 / (k : ℚ) := by
    push_cast
    field_simp
    ring
  rw [e]
  exact min_eq_left (by rw [div_le_one (by linarith)]; exact h2)

theorem int_radius_upsample (src_size dst_size : Nat) (hs : 0 < src_size)
    (h : src_size ≤ dst_size) : int_radius src_size dst_size = 3 := by
  unfold int_radius
  rw [radius_scaling_factor_upsample src_size dst_size hs h]
  exact lrintf_of_lt _ 3 (by norm_num [LANCZOS_RADIUS]) (by norm_num [LANCZOS_RADIUS])

theorem int_radius_downsample (dst_size k : Nat) (hd : 0 < dst_size) (hk : 0 < k) :
    int_radius (k * dst_size) dst_size = 3 * (k : Int) := by
  unfold int_radius
  rw [radius_scaling_factor_downsample dst_size k hd hk]
  have h2 : (0 : ℚ) < k := by exact_mod_cast hk
  have e : LANCZOS_RADIUS / (1 / (k : ℚ)) = ((3 * (k : Int) : Int) : ℚ) := by
    unfold LANCZOS_RADIUS
    push_cast
    field_simp
  rw [e]
  exact lrintf_intCast _

theorem sinc_zero : sinc 0 = 1 := by
  unfold sinc
  norm_num

theorem sinc_int_mul_pi (k : ℤ) (hk : k ≠ 0) : sinc (Real.pi * (k : ℝ)) = 0 := by
  unfold sinc
  have hpi : (3 : ℝ) < Real.pi := Real.pi_gt_three
  have hk1 : (1 : ℝ) ≤ |(k : ℝ)| := by
    have : (1 : ℤ) ≤ |k| := Int.one_le_abs hk
    exact_mod_cast this
  have habs : |Real.pi * (k : ℝ)| = Real.pi * |(k : ℝ)| := by
    rw [abs_mul, abs_of_pos Real.pi_pos]
  have hbig : ¬ |Real.pi * (k : ℝ)| < 1e-6 := by
    rw [habs]
    have : (3 : ℝ) ≤ Real.pi * |(k : ℝ)| := by nlinarith
    norm_num
    linarith
  rw [if_neg hbig, mul_comm, Real.sin_int_mul_pi, zero_div]

theorem lanczos_weight_zero : lanczos_weight 0 3 = 1 := by
  unfold lanczos_weight
  simp [sinc_zero]

theorem lanczos_weight_int (k : ℤ) (hk : k ≠ 0) : lanczos_weight (k : ℝ) 3 = 0 := by
  unfold lanczos_weight
  split_ifs with h
  · rfl
  · rw [sinc_int_mul_pi k hk, zero_mul]

theorem center_src_y_same (N y : Nat) (hN : 0 < N) : center_src_y N N y = (y : ℚ) := by
  unfold center_src_y
  have h : (N : ℚ) ≠ 0 := by exact_mod_cast hN.ne'
  field_simp
  ring

theorem src_y_same (N y i : Nat) (hN : 0 < N) : src_y N N y i = (y : Int) + (i : Int) - 3 := by
  unfold src_y base_src_y
  rw [center_src_y_same N y hN, int_radius_upsample N N hN le_rfl]
  have : lrintf ((y : ℕ) : ℚ) = (y : Int) := lrintf_intCast (y : Int)
  rw [this]

theorem weights_w_same (N y i : Nat) (hN : 0 < N) :
    weights_w N N y i = if i = 3 then 1 else 0 := by
  unfold weights_w weight
  rw [radius_scaling_factor_upsample N N hN le_rfl, src_y_same N y i hN,
    center_src_y_same N y hN]
  have e : (((1 : ℚ) * ((((y : Int) + (i : Int) - 3 : Int) : ℚ) - (y : ℚ)) : ℚ) : ℝ)
      = (((i : Int) - 3 : Int) : ℝ) := by
    push_cast
    ring
  have e3 : ((LANCZOS_RADIUS : ℚ) : ℝ) = 3 := by
    unfold LANCZOS_RADIUS
    norm_num
  rw [e, e3]
  by_cases hi : i = 3
  · subst hi
    simp [lanczos_weight_zero]
  · have hne : ((i : Int) - 3 : Int) ≠ 0 := by omega
    rw [lanczos_weight_int _ hne]
    simp [hi]

theorem radius_scaling_factor_8_4 : radius_scaling_factor 8 4 = 1 / 2 := by
  have h := radius_scaling_factor_downsample 4 2 (by decide) (by decide)
  norm_num at h
  exact h

theorem int_radius_8_4 : int_radius 8 4 = 6 :=
  int_radius_downsample 4 2 (by decide) (by decide)

theorem center_src_y_8_4_0 : center_src_y 8 4 0 = 1 / 2 := by
  unfold center_src_y
  norm_num

theorem base_src_y_8_4_0 : base_src_y 8 4 0 = 0 := by
  unfold base_src_y
  rw [center_src_y_8_4_0]
  exact lrintf_tie_even _ 0 (by norm_num) (by decide)

theorem resample_sizes_isSome (p : SingleResamplePassEffect) :
    p.resample_sizes.isSome = true ↔ direction_invariant p := by
  unfold SingleResamplePassEffect.resample_sizes direction_invariant
  have hv : HORIZONTAL ≠ VERTICAL := by decide
  by_cases h1 : p.direction = HORIZONTAL
  · by_cases h2 : p.input_height = p.output_height
    · simp [h1, h2]
    · simp [h1, h2, hv]
  · by_cases h3 : p.direction = VERTICAL
    · by_cases h4 : p.input_width = p.output_width
      · simp [h3, h4, hv.symm]
      · simp [h3, h4, hv.symm]
    · simp [h1, h3]

theorem update_texture_isSome (p : SingleResamplePassEffect) (gl : GLState) :
    (p.update_texture gl).isSome = true ↔ direction_invariant p := by
  unfold SingleResamplePassEffect.update_texture
  rw [Option.isSome_map']
  exact resample_sizes_isSome p

theorem update_texture_some (p : SingleResamplePassEffect) (gl : GLState)
    (hd : direction_invariant p) :
    ∃ n : Int, ∃ h : Nat, p.update_texture gl =
      some ({ p with src_samples := n },
        { gl with tex_uploads := gl.tex_uploads + 1, tex_width := n, tex_height := h }) := by
  have h := (resample_sizes_isSome p).mpr hd
  obtain ⟨sz, hsz⟩ := Option.isSome_iff_exists.mp h
  exact ⟨src_samples_binary32 sz.1 sz.2, sz.2, by
    simp [SingleResamplePassEffect.update_texture, hsz]⟩

theorem set_gl_state_cached (p : SingleResamplePassEffect) (gl : GLState)
    (mem : Nat → Nat) (s : Nat) (hc : cache_current p) :
    p.set_gl_state gl mem s = some (p.publish gl mem s) := by
  obtain ⟨h1, h2, h3, h4⟩ := hc
  unfold SingleResamplePassEffect.set_gl_state
  simp only [ne_eq, h1, h2, h3, h4, not_true_eq_false, or_self, if_false, Option.map_some']

theorem set_gl_state_rebuild (p : SingleResamplePassEffect) (gl : GLState)
    (mem : Nat → Nat) (s : Nat) (hc : ¬ cache_current p) (hd : direction_invariant p) :
    ∃ r, p.set_gl_state gl mem s = some r ∧
      cache_current r.pass ∧
      r.pass.input_width = p.input_width ∧ r.pass.input_height = p.input_height ∧
      r.pass.output_width = p.output_width ∧ r.pass.output_height = p.output_height ∧
      r.pass.direction = p.direction ∧
      r.gl.tex_uploads = gl.tex_uploads + 1 := by
  obtain ⟨n, h, hu⟩ := update_texture_some p gl hd
  have hcond : p.input_width ≠ p.last_input_width ∨ p.input_height ≠ p.last_input_height ∨
      p.output_width ≠ p.last_output_width ∨ p.output_height ≠ p.last_output_height := by
    unfold cache_current at hc
    by_contra hcon
    push_neg at hcon
    exact hc ⟨hcon.1.symm, hcon.2.1.symm, hcon.2.2.1.symm, hcon.2.2.2.symm⟩
  have hs : p.set_gl_state gl mem s = some
      (SingleResamplePassEffect.publish
        { p with
          src_samples := n
          last_input_width := p.input_width
          last_input_height := p.input_height
          last_output_width := p.output_width
          last_output_height := p.output_height }
        { gl with tex_uploads := gl.tex_uploads + 1, tex_width := n, tex_height := h }
        mem s) := by
    unfold SingleResamplePassEffect.set_gl_state
    rw [if_pos hcond, hu]
    rfl
  exact ⟨_, hs, by simp [cache_current, SingleResamplePassEffect.publish]⟩

theorem set_gl_state_abort (p : SingleResamplePassEffect) (gl : GLState)
    (mem : Nat → Nat) (s : Nat) (hc : ¬ cache_current p) (hd : ¬ direction_invariant p) :
    p.set_gl_state gl mem s = none := by
  have hu : p.update_texture gl = none := by
    rw [← Option.not_isSome_iff_eq_none, update_texture_isSome]
    exact hd
  have hcond : p.input_width ≠ p.last_input_width ∨ p.input_height ≠ p.last_input_height ∨
      p.output_width ≠ p.last_output_width ∨ p.output_height ≠ p.last_output_height := by
    unfold cache_current at hc
    by_contra hcon
    push_neg at hcon
    exact hc ⟨hcon.1.symm, hcon.2.1.symm, hcon.2.2.1.symm, hcon.2.2.2.symm⟩
  unfold SingleResamplePassEffect.set_gl_state
  rw [if_pos hcond, hu]
  rfl

/-! ### Kernel sums for downsampling by 2, 3 and 4 -/

open Real in
theorem lanczos_weight_cos (x : ℝ) (h1 : 1 / 8 ≤ |x|) (h3 : |x| ≤ 3) :
    lanczos_weight x 3
      = (cos (2 * x / 3 * π) - cos (4 * x / 3 * π)) * (3 / (2 * x ^ 2)) / π ^ 2 := by
  have hpi : (3 : ℝ) < π := pi_gt_three
  have hx0 : x ≠ 0 := by
    intro h
    rw [h, abs_zero] at h1
    norm_num at h1
  have hb1 : ¬ |π * x| < 1e-6 := by
    rw [abs_mul, abs_of_pos pi_pos]
    have : (3 / 8 : ℝ) ≤ π * |x| := by nlinarith
    norm_num
    linarith
  have hb2 : ¬ |π * x / 3| < 1e-6 := by
    rw [abs_div, abs_mul, abs_of_pos pi_pos, abs_of_pos (by norm_num : (0 : ℝ) < 3)]
    have : (3 / 8 : ℝ) ≤ π * |x| := by nlinarith
    norm_num
    linarith
  have hc : cos (2 * x / 3 * π) - cos (4 * x / 3 * π)
      = 2 * sin (π * x) * sin (π * x / 3) := by
    rw [cos_sub_cos]
    have e1 : (2 * x / 3 * π + 4 * x / 3 * π) / 2 = π * x := by ring
    have e2 : (2 * x / 3 * π - 4 * x / 3 * π) / 2 = -(π * x / 3) := by ring
    rw [e1, e2, sin_neg]
    ring
  unfold lanczos_weight sinc
  rw [if_neg (not_lt.mpr h3), if_neg hb1, if_neg hb2, hc]
  have hpi0 : π ≠ 0 := pi_ne_zero
  field_simp
  ring

theorem lanczos_weight_cutoff (x : ℝ) (h : 3 < x ∨ x < -3) : lanczos_weight x 3 = 0 := by
  have h3 : 3 < |x| := by
    rcases h with h | h
    · exact lt_of_lt_of_le h (le_abs_self x)
    · exact lt_of_lt_of_le (by linarith) (neg_le_abs x)
  unfold lanczos_weight
  rw [if_pos h3]

theorem lanczos_weight_cos_of_mem (x : ℝ) (h1 : 1 / 8 ≤ x ∨ x ≤ -(1 / 8))
    (h3 : -3 ≤ x ∧ x ≤ 3) :
    lanczos_weight x 3
      = (Real.cos (2 * x / 3 * Real.pi) - Real.cos (4 * x / 3 * Real.pi))
          * (3 / (2 * x ^ 2)) / Real.pi ^ 2 := by
  apply lanczos_weight_cos
  · rcases h1 with h | h
    · exact le_trans h (le_abs_self x)
    · exact le_trans (by linarith) (neg_le_abs x)
  · exact abs_le.mpr h3

theorem cos_eq_of_shift (t a : ℝ) (n : ℤ)
    (h : t = a + (n : ℝ) * (2 * Real.pi) ∨ t = -a + (n : ℝ) * (2 * Real.pi)) :
    Real.cos t = Real.cos a := by
  rcases h with h | h
  · rw [h, Real.cos_add_int_mul_two_pi]
  · rw [h, Real.cos_add_int_mul_two_pi, Real.cos_neg]

theorem cos_eq_neg_of_shift (t a : ℝ) (n : ℤ)
    (h : t = (Real.pi - a) + (n : ℝ) * (2 * Real.pi) ∨
      t = (a + Real.pi) + (n : ℝ) * (2 * Real.pi)) :
    Real.cos t = -Real.cos a := by
  rcases h with h | h
  · rw [h, Real.cos_add_int_mul_two_pi, Real.cos_pi_sub]
  · rw [h, Real.cos_add_int_mul_two_pi, Real.cos_add_pi]

theorem sqrt_two_bounds : (1.41421 : ℝ) < √2 ∧ √2 < (1.41422 : ℝ) := by
  constructor
  · rw [Real.lt_sqrt (by norm_num)]
    norm_num
  · rw [Real.sqrt_lt' (by norm_num)]
    norm_num

theorem sqrt_three_bounds : (1.73205 : ℝ) < √3 ∧ √3 < (1.73206 : ℝ) := by
  constructor
  · rw [Real.lt_sqrt (by norm_num)]
    norm_num
  · rw [Real.sqrt_lt' (by norm_num)]
    norm_num

open Real in
theorem cos_pi_div_six_bounds : (0.866025 : ℝ) < cos (π / 6) ∧ cos (π / 6) < (0.86603 : ℝ) := by
  rw [cos_pi_div_six]
  have := sqrt_three_bounds
  constructor <;> linarith [this.1, this.2]

open Real in
theorem cos_pi_div_four_bounds : (0.707105 : ℝ) < cos (π / 4) ∧ cos (π / 4) < (0.70711 : ℝ) := by
  rw [cos_pi_div_four]
  have := sqrt_two_bounds
  constructor <;> linarith [this.1, this.2]

open Real in
theorem cos_pi_div_twelve_bounds :
    (0.9659 : ℝ) < cos (π / 12) ∧ cos (π / 12) < (0.966 : ℝ) := by
  have e : π / 12 = π / 3 - π / 4 := by ring
  rw [e, cos_sub, cos_pi_div_three, cos_pi_div_four, sin_pi_div_three, sin_pi_div_four]
  obtain ⟨a1, a2⟩ := sqrt_two_bounds
  obtain ⟨b1, b2⟩ := sqrt_three_bounds
  constructor <;> nlinarith

open Real in
theorem cos_five_pi_div_twelve_bounds :
    (0.2588 : ℝ) < cos (5 * π / 12) ∧ cos (5 * π / 12) < (0.2589 : ℝ) := by
  have e : 5 * π / 12 = π / 4 + π / 6 := by ring
  rw [e, cos_add, cos_pi_div_six, cos_pi_div_four, sin_pi_div_six, sin_pi_div_four]
  obtain ⟨a1, a2⟩ := sqrt_two_bounds
  obtain ⟨b1, b2⟩ := sqrt_three_bounds
  constructor <;> nlinarith

open Real in
theorem cos_pi_div_nine_bounds :
    (0.9396 : ℝ) < cos (π / 9) ∧ cos (π / 9) < (0.9397 : ℝ) := by
  have h3 : cos (3 * (π / 9)) = 4 * cos (π / 9) ^ 3 - 3 * cos (π / 9) := cos_three_mul _
  have e : 3 * (π / 9) = π / 3 := by ring
  rw [e, cos_pi_div_three] at h3
  have hlow : cos (π / 6) < cos (π / 9) :=
    cos_lt_cos_of_nonneg_of_le_pi_div_two (by positivity) (by linarith [pi_pos])
      (by linarith [pi_pos])
  have h6 := cos_pi_div_six_bounds.1
  set c := cos (π / 9) with hc
  have hc1 : (0.866 : ℝ) < c := by linarith
  constructor
  · by_contra hcon
    push_neg at hcon
    nlinarith [mul_nonneg (sub_nonneg.mpr hcon)
      (by nlinarith : (0 : ℝ) ≤ c ^ 2 + 0.9396 * c + 0.9396 ^ 2 - 3 / 4)]
  · by_contra hcon
    push_neg at hcon
    nlinarith [mul_nonneg (sub_nonneg.mpr hcon)
      (by nlinarith : (0 : ℝ) ≤ c ^ 2 + 0.9397 * c + 0.9397 ^ 2 - 3 / 4)]

open Real in
theorem cos_two_pi_div_nine_bounds :
    (0.766 : ℝ) < cos (2 * π / 9) ∧ cos (2 * π / 9) < (0.7661 : ℝ) := by
  have h3 : cos (3 * (2 * π / 9)) = 4 * cos (2 * π / 9) ^ 3 - 3 * cos (2 * π / 9) :=
    cos_three_mul _
  have e : 3 * (2 * π / 9) = π - π / 3 := by ring
  rw [e, cos_pi_sub, cos_pi_div_three] at h3
  have hlow : cos (π / 3) < cos (2 * π / 9) :=
    cos_lt_cos_of_nonneg_of_le_pi_div_two (by positivity) (by linarith [pi_pos])
      (by linarith [pi_pos])
  rw [cos_pi_div_three] at hlow
  set c := cos (2 * π / 9) with hc
  constructor
  · by_contra hcon
    push_neg at hcon
    nlinarith [mul_nonneg (sub_nonneg.mpr hcon)
      (by nlinarith : (0 : ℝ) ≤ c ^ 2 + 0.766 * c + 0.766 ^ 2 - 3 / 4)]
  · by_contra hcon
    push_neg at hcon
    nlinarith [mul_nonneg (sub_nonneg.mpr hcon)
      (by nlinarith : (0 : ℝ) ≤ c ^ 2 + 0.7661 * c + 0.7661 ^ 2 - 3 / 4)]

open Real in
theorem cos_four_pi_div_nine_bounds :
    (0.1736 : ℝ) < cos (4 * π / 9) ∧ cos (4 * π / 9) < (0.1737 : ℝ) := by
  have h3 : cos (3 * (4 * π / 9)) = 4 * cos (4 * π / 9) ^ 3 - 3 * cos (4 * π / 9) :=
    cos_three_mul _
  have e : 3 * (4 * π / 9) = π / 3 + π := by ring
  rw [e, cos_add_pi, cos_pi_div_three] at h3
  have hup : cos (4 * π / 9) < cos (π / 3) :=
    cos_lt_cos_of_nonneg_of_le_pi_div_two (by positivity) (by linarith [pi_pos])
      (by linarith [pi_pos])
  rw [cos_pi_div_three] at hup
  have hlow : cos (π / 2) < cos (4 * π / 9) :=
    cos_lt_cos_of_nonneg_of_le_pi_div_two (by positivity) (by linarith [pi_pos])
      (by linarith [pi_pos])
  rw [cos_pi_div_two] at hlow
  set c := cos (4 * π / 9) with hc
  constructor
  · by_contra hcon
    push_neg at hcon
    nlinarith [mul_nonneg (sub_nonneg.mpr hcon)
      (by nlinarith : (0 : ℝ) ≤ 3 / 4 - (c ^ 2 + 0.1736 * c + 0.1736 ^ 2))]
  · by_contra hcon
    push_neg at hcon
    nlinarith [mul_nonneg (sub_nonneg.mpr hcon)
      (by nlinarith : (0 : ℝ) ≤ 3 / 4 - (c ^ 2 + 0.1737 * c + 0.1737 ^ 2))]

open Real in
theorem kernel_sum_half :
    |(∑ i in Finset.range 13, lanczos_weight ((2 * (i : ℝ) - 13) / 4) 3 * (1 / 2)) - 1| ≤ 2e-2 := by
  have hP1 : (9.8690 : ℝ) < π ^ 2 := by nlinarith [pi_gt_d4]
  have hP2 : π ^ 2 < (9.8697 : ℝ) := by nlinarith [pi_lt_d4, pi_pos]
  have hpi0 : π ^ 2 ≠ 0 := by positivity
  obtain ⟨a6, b6⟩ := cos_pi_div_six_bounds
  obtain ⟨a4, b4⟩ := cos_pi_div_four_bounds
  obtain ⟨a12, b12⟩ := cos_pi_div_twelve_bounds
  obtain ⟨a512, b512⟩ := cos_five_pi_div_twelve_bounds
  obtain ⟨a9, b9⟩ := cos_pi_div_nine_bounds
  obtain ⟨a29, b29⟩ := cos_two_pi_div_nine_bounds
  obtain ⟨a49, b49⟩ := cos_four_pi_div_nine_bounds
  have t0 : lanczos_weight ((2 * (((0 : ℕ)) : ℝ) - 13) / 4) 3 = 0 := by
    rw [show (2 * (((0 : ℕ)) : ℝ) - 13) / 4 = (-13 / 4 : ℝ) by norm_num]
    exact lanczos_weight_cutoff _ (Or.inr (by norm_num))
  have t1 : lanczos_weight ((2 * (((1 : ℕ)) : ℝ) - 13) / 4) 3
      = (cos (π / 6) - cos (π / 3)) * (24 / 121 : ℝ) / π ^ 2 := by
    rw [show (2 * (((1 : ℕ)) : ℝ) - 13) / 4 = (-11 / 4 : ℝ) by norm_num]
    rw [lanczos_weight_cos_of_mem _ (Or.inr (by norm_num)) ⟨by norm_num, by norm_num⟩]
    rw [cos_eq_of_shift (2 * (-11 / 4 : ℝ) / 3 * π) (π / 6) (-1) (Or.inl (by push_cast; ring)),
      cos_eq_of_shift (4 * (-11 / 4 : ℝ) / 3 * π) (π / 3) (-2) (Or.inl (by push_cast; ring))]
    rw [show (3 : ℝ) / (2 * (-11 / 4 : ℝ) ^ 2) = (24 / 121 : ℝ) by norm_num]
  have t2 : lanczos_weight ((2 * (((2 : ℕ)) : ℝ) - 13) / 4) 3
      = (cos (π / 2) - -cos (0)) * (8 / 27 : ℝ) / π ^ 2 := by
    rw [show (2 * (((2 : ℕ)) : ℝ) - 13) / 4 = (-9 / 4 : ℝ) by norm_num]
    rw [lanczos_weight_cos_of_mem _ (Or.inr (by norm_num)) ⟨by norm_num, by norm_num⟩]
    rw [cos_eq_of_shift (2 * (-9 / 4 : ℝ) / 3 * π) (π / 2) (-1) (Or.inl (by push_cast; ring)),
      cos_eq_neg_of_shift (4 * (-9 / 4 : ℝ) / 3 * π) (0) (-2) (Or.inl (by push_cast; ring))]
    rw [show (3 : ℝ) / (2 * (-9 / 4 : ℝ) ^ 2) = (8 / 27 : ℝ) by norm_num]
  have t3 : lanczos_weight ((2 * (((3 : ℕ)) : ℝ) - 13) / 4) 3
      = (-cos (π / 6) - cos (π / 3)) * (24 / 49 : ℝ) / π ^ 2 := by
    rw [show (2 * (((3 : ℕ)) : ℝ) - 13) / 4 = (-7 / 4 : ℝ) by norm_num]
    rw [lanczos_weight_cos_of_mem _ (Or.inr (by norm_num)) ⟨by norm_num, by norm_num⟩]
    rw [cos_eq_neg_of_shift (2 * (-7 / 4 : ℝ) / 3 * π) (π / 6) (-1) (Or.inl (by push_cast; ring)),
      cos_eq_of_shift (4 * (-7 / 4 : ℝ) / 3 * π) (π / 3) (-1) (Or.inr (by push_cast; ring))]
    rw [show (3 : ℝ) / (2 * (-7 / 4 : ℝ) ^ 2) = (24 / 49 : ℝ) by norm_num]
  have t4 : lanczos_weight ((2 * (((4 : ℕ)) : ℝ) - 13) / 4) 3
      = (-cos (π / 6) - cos (π / 3)) * (24 / 25 : ℝ) / π ^ 2 := by
    rw [show (2 * (((4 : ℕ)) : ℝ) - 13) / 4 = (-5 / 4 : ℝ) by norm_num]
    rw [lanczos_weight_cos_of_mem _ (Or.inr (by norm_num)) ⟨by norm_num, by norm_num⟩]
    rw [cos_eq_neg_of_shift (2 * (-5 / 4 : ℝ) / 3 * π) (π / 6) (-1) (Or.inr (by push_cast; ring)),
      cos_eq_of_shift (4 * (-5 / 4 : ℝ) / 3 * π) (π / 3) (-1) (Or.inl (by push_cast; ring))]
    rw [show (3 : ℝ) / (2 * (-5 / 4 : ℝ) ^ 2) = (24 / 25 : ℝ) by norm_num]
  have t5 : lanczos_weight ((2 * (((5 : ℕ)) : ℝ) - 13) / 4) 3
      = (cos (π / 2) - -cos (0)) * (8 / 3 : ℝ) / π ^ 2 := by
    rw [show (2 * (((5 : ℕ)) : ℝ) - 13) / 4 = (-3 / 4 : ℝ) by norm_num]
    rw [lanczos_weight_cos_of_mem _ (Or.inr (by norm_num)) ⟨by norm_num, by norm_num⟩]
    rw [cos_eq_of_shift (2 * (-3 / 4 : ℝ) / 3 * π) (π / 2) (0) (Or.inr (by push_cast; ring)),
      cos_eq_neg_of_shift (4 * (-3 / 4 : ℝ) / 3 * π) (0) (-1) (Or.inl (by push_cast; ring))]
    rw [show (3 : ℝ) / (2 * (-3 / 4 : ℝ) ^ 2) = (8 / 3 : ℝ) by norm_num]
  have t6 : lanczos_weight ((2 * (((6 : ℕ)) : ℝ) - 13) / 4) 3
      = (cos (π / 6) - cos (π / 3)) * (24 : ℝ) / π ^ 2 := by
    rw [show (2 * (((6 : ℕ)) : ℝ) - 13) / 4 = (-1 / 4 : ℝ) by norm_num]
    rw [lanczos_weight_cos_of_mem _ (Or.inr (by norm_num)) ⟨by norm_num, by norm_num⟩]
    rw [cos_eq_of_shift (2 * (-1 / 4 : ℝ) / 3 * π) (π / 6) (0) (Or.inr (by push_cast; ring)),
      cos_eq_of_shift (4 * (-1 / 4 : ℝ) / 3 * π) (π / 3) (0) (Or.inr (by push_cast; ring))]
    rw [show (3 : ℝ) / (2 * (-1 / 4 : ℝ) ^ 2) = (24 : ℝ) by norm_num]
  have t7 : lanczos_weight ((2 * (((7 : ℕ)) : ℝ) - 13) / 4) 3
      = (cos (π / 6) - cos (π / 3)) * (24 : ℝ) / π ^ 2 := by
    rw [show (2 * (((7 : ℕ)) : ℝ) - 13) / 4 = (1 / 4 : ℝ) by norm_num]
    rw [lanczos_weight_cos_of_mem _ (Or.inl (by norm_num)) ⟨by norm_num, by norm_num⟩]
    rw [cos_eq_of_shift (2 * (1 / 4 : ℝ) / 3 * π) (π / 6) (0) (Or.inl (by push_cast; ring)),
      cos_eq_of_shift (4 * (1 / 4 : ℝ) / 3 * π) (π / 3) (0) (Or.inl (by push_cast; ring))]
    rw [show (3 : ℝ) / (2 * (1 / 4 : ℝ) ^ 2) = (24 : ℝ) by norm_num]
  have t8 : lanczos_weight ((2 * (((8 : ℕ)) : ℝ) - 13) / 4) 3
      = (cos (π / 2) - -cos (0)) * (8 / 3 : ℝ) / π ^ 2 := by
    rw [show (2 * (((8 : ℕ)) : ℝ) - 13) / 4 = (3 / 4 : ℝ) by norm_num]
    rw [lanczos_weight_cos_of_mem _ (Or.inl (by norm_num)) ⟨by norm_num, by norm_num⟩]
    rw [cos_eq_of_shift (2 * (3 / 4 : ℝ) / 3 * π) (π / 2) (0) (Or.inl (by push_cast; ring)),
      cos_eq_neg_of_shift (4 * (3 / 4 : ℝ) / 3 * π) (0) (0) (Or.inl (by push_cast; ring))]
    rw [show (3 : ℝ) / (2 * (3 / 4 : ℝ) ^ 2) = (8 / 3 : ℝ) by norm_num]
  have t9 : lanczos_weight ((2 * (((9 : ℕ)) : ℝ) - 13) / 4) 3
      = (-cos (π / 6) - cos (π / 3)) * (24 / 25 : ℝ) / π ^ 2 := by
    rw [show (2 * (((9 : ℕ)) : ℝ) - 13) / 4 = (5 / 4 : ℝ) by norm_num]
    rw [lanczos_weight_cos_of_mem _ (Or.inl (by norm_num)) ⟨by norm_num, by norm_num⟩]
    rw [cos_eq_neg_of_shift (2 * (5 / 4 : ℝ) / 3 * π) (π / 6) (0) (Or.inl (by push_cast; ring)),
      cos_eq_of_shift (4 * (5 / 4 : ℝ) / 3 * π) (π / 3) (1) (Or.inr (by push_cast; ring))]
    rw [show (3 : ℝ) / (2 * (5 / 4 : ℝ) ^ 2) = (24 / 25 : ℝ) by norm_num]
  have t10 : lanczos_weight ((2 * (((10 : ℕ)) : ℝ) - 13) / 4) 3
      = (-cos (π / 6) - cos (π / 3)) * (24 / 49 : ℝ) / π ^ 2 := by
    rw [show (2 * (((10 : ℕ)) : ℝ) - 13) / 4 = (7 / 4 : ℝ) by norm_num]
    rw [lanczos_weight_cos_of_mem _ (Or.inl (by norm_num)) ⟨by norm_num, by norm_num⟩]
    rw [cos_eq_neg_of_shift (2 * (7 / 4 : ℝ) / 3 * π) (π / 6) (0) (Or.inr (by push_cast; ring)),
      cos_eq_of_shift (4 * (7 / 4 : ℝ) / 3 * π) (π / 3) (1) (Or.inl (by push_cast; ring))]
    rw [show (3 : ℝ) / (2 * (7 / 4 : ℝ) ^ 2) = (24 / 49 : ℝ) by norm_num]
  have t11 : lanczos_weight ((2 * (((11 : ℕ)) : ℝ) - 13) / 4) 3
      = (cos (π / 2) - -cos (0)) * (8 / 27 : ℝ) / π ^ 2 := by
    rw [show (2 * (((11 : ℕ)) : ℝ) - 13) / 4 = (9 / 4 : ℝ) by norm_num]
    rw [lanczos_weight_cos_of_mem _ (Or.inl (by norm_num)) ⟨by norm_num, by norm_num⟩]
    rw [cos_eq_of_shift (2 * (9 / 4 : ℝ) / 3 * π) (π / 2) (1) (Or.inr (by push_cast; ring)),
      cos_eq_neg_of_shift (4 * (9 / 4 : ℝ) / 3 * π) (0) (1) (Or.inl (by push_cast; ring))]
    rw [show (3 : ℝ) / (2 * (9 / 4 : ℝ) ^ 2) = (8 / 27 : ℝ) by norm_num]
  have t12 : lanczos_weight ((2 * (((12 : ℕ)) : ℝ) - 13) / 4) 3
      = (cos (π / 6) - cos (π / 3)) * (24 / 121 : ℝ) / π ^ 2 := by
    rw [show (2 * (((12 : ℕ)) : ℝ) - 13) / 4 = (11 / 4 : ℝ) by norm_num]
    rw [lanczos_weight_cos_of_mem _ (Or.inl (by norm_num)) ⟨by norm_num, by norm_num⟩]
    rw [cos_eq_of_shift (2 * (11 / 4 : ℝ) / 3 * π) (π / 6) (1) (Or.inr (by push_cast; ring)),
      cos_eq_of_shift (4 * (11 / 4 : ℝ) / 3 * π) (π / 3) (2) (Or.inr (by push_cast; ring))]
    rw [show (3 : ℝ) / (2 * (11 / 4 : ℝ) ^ 2) = (24 / 121 : ℝ) by norm_num]
  have hE : (∑ i in Finset.range 13, lanczos_weight ((2 * (i : ℝ) - 13) / 4) 3 * (1 / 2))
      = ((3371904 / 148225 : ℝ) * cos (π / 6) + (-39464896 / 4002075 : ℝ)) / π ^ 2 + (0 : ℝ) := by
    simp only [Finset.sum_range_succ, Finset.sum_range_zero, t0, t1, t2, t3, t4, t5, t6, t7,
      t8, t9, t10, t11, t12,
      cos_zero, cos_pi_div_two, cos_pi_div_three]
    ring
  have hT1 : ((98 / 100 : ℝ) - (0 : ℝ)) * π ^ 2 ≤ (3371904 / 148225 : ℝ) * cos (π / 6) + (-39464896 / 4002075 : ℝ) := by linarith
  have hT2 : (3371904 / 148225 : ℝ) * cos (π / 6) + (-39464896 / 4002075 : ℝ) ≤ ((102 / 100 : ℝ) - (0 : ℝ)) * π ^ 2 := by linarith
  have hPpos : (0 : ℝ) < π ^ 2 := by positivity
  rw [hE, abs_le]
  constructor
  · have := (le_div_iff₀ hPpos).mpr hT1
    norm_num at this ⊢
    linarith
  · have := (div_le_iff₀ hPpos).mpr hT2
    norm_num at this ⊢
    linarith

open Real in
theorem kernel_sum_third :
    |(∑ i in Finset.range 19, lanczos_weight (((i : ℝ) - 9) / 3) 3 * (1 / 3)) - 1| ≤ 2e-2 := by
  have hP1 : (9.8690 : ℝ) < π ^ 2 := by nlinarith [pi_gt_d4]
  have hP2 : π ^ 2 < (9.8697 : ℝ) := by nlinarith [pi_lt_d4, pi_pos]
  have hpi0 : π ^ 2 ≠ 0 := by positivity
  obtain ⟨a6, b6⟩ := cos_pi_div_six_bounds
  obtain ⟨a4, b4⟩ := cos_pi_div_four_bounds
  obtain ⟨a12, b12⟩ := cos_pi_div_twelve_bounds
  obtain ⟨a512, b512⟩ := cos_five_pi_div_twelve_bounds
  obtain ⟨a9, b9⟩ := cos_pi_div_nine_bounds
  obtain ⟨a29, b29⟩ := cos_two_pi_div_nine_bounds
  obtain ⟨a49, b49⟩ := cos_four_pi_div_nine_bounds
  have t0 : lanczos_weight (((((0 : ℕ)) : ℝ) - 9) / 3) 3 = 0 := by
    rw [show ((((0 : ℕ)) : ℝ) - 9) / 3 = ((-3 : ℤ) : ℝ) by norm_num]
    exact lanczos_weight_int _ (by decide)
  have t1 : lanczos_weight (((((1 : ℕ)) : ℝ) - 9) / 3) 3
      = (cos (2 * π / 9) - cos (4 * π / 9)) * (27 / 128 : ℝ) / π ^ 2 := by
    rw [show ((((1 : ℕ)) : ℝ) - 9) / 3 = (-8 / 3 : ℝ) by norm_num]
    rw [lanczos_weight_cos_of_mem _ (Or.inr (by norm_num)) ⟨by norm_num, by norm_num⟩]
    rw [cos_eq_of_shift (2 * (-8 / 3 : ℝ) / 3 * π) (2 * π / 9) (-1) (Or.inl (by push_cast; ring)),
      cos_eq_of_shift (4 * (-8 / 3 : ℝ) / 3 * π) (4 * π / 9) (-2) (Or.inl (by push_cast; ring))]
    rw [show (3 : ℝ) / (2 * (-8 / 3 : ℝ) ^ 2) = (27 / 128 : ℝ) by norm_num]
  have t2 : lanczos_weight (((((2 : ℕ)) : ℝ) - 9) / 3) 3
      = (cos (4 * π / 9) - -cos (π / 9)) * (27 / 98 : ℝ) / π ^ 2 := by
    rw [show ((((2 : ℕ)) : ℝ) - 9) / 3 = (-7 / 3 : ℝ) by norm_num]
    rw [lanczos_weight_cos_of_mem _ (Or.inr (by norm_num)) ⟨by norm_num, by norm_num⟩]
    rw [cos_eq_of_shift (2 * (-7 / 3 : ℝ) / 3 * π) (4 * π / 9) (-1) (Or.inl (by push_cast; ring)),
      cos_eq_neg_of_shift (4 * (-7 / 3 : ℝ) / 3 * π) (π / 9) (-2) (Or.inl (by push_cast; ring))]
    rw [show (3 : ℝ) / (2 * (-7 / 3 : ℝ) ^ 2) = (27 / 98 : ℝ) by norm_num]
  have t3 : lanczos_weight (((((3 : ℕ)) : ℝ) - 9) / 3) 3 = 0 := by
    rw [show ((((3 : ℕ)) : ℝ) - 9) / 3 = ((-2 : ℤ) : ℝ) by norm_num]
    exact lanczos_weight_int _ (by decide)
  have t4 : lanczos_weight (((((4 : ℕ)) : ℝ) - 9) / 3) 3
      = (-cos (π / 9) - cos (2 * π / 9)) * (27 / 50 : ℝ) / π ^ 2 := by
    rw [show ((((4 : ℕ)) : ℝ) - 9) / 3 = (-5 / 3 : ℝ) by norm_num]
    rw [lanczos_weight_cos_of_mem _ (Or.inr (by norm_num)) ⟨by norm_num, by norm_num⟩]
    rw [cos_eq_neg_of_shift (2 * (-5 / 3 : ℝ) / 3 * π) (π / 9) (-1) (Or.inl (by push_cast; ring)),
      cos_eq_of_shift (4 * (-5 / 3 : ℝ) / 3 * π) (2 * π / 9) (-1) (Or.inr (by push_cast; ring))]
    rw [show (3 : ℝ) / (2 * (-5 / 3 : ℝ) ^ 2) = (27 / 50 : ℝ) by norm_num]
  have t5 : lanczos_weight (((((5 : ℕ)) : ℝ) - 9) / 3) 3
      = (-cos (π / 9) - cos (2 * π / 9)) * (27 / 32 : ℝ) / π ^ 2 := by
    rw [show ((((5 : ℕ)) : ℝ) - 9) / 3 = (-4 / 3 : ℝ) by norm_num]
    rw [lanczos_weight_cos_of_mem _ (Or.inr (by norm_num)) ⟨by norm_num, by norm_num⟩]
    rw [cos_eq_neg_of_shift (2 * (-4 / 3 : ℝ) / 3 * π) (π / 9) (-1) (Or.inr (by push_cast; ring)),
      cos_eq_of_shift (4 * (-4 / 3 : ℝ) / 3 * π) (2 * π / 9) (-1) (Or.inl (by push_cast; ring))]
    rw [show (3 : ℝ) / (2 * (-4 / 3 : ℝ) ^ 2) = (27 / 32 : ℝ) by norm_num]
  have t6 : lanczos_weight (((((6 : ℕ)) : ℝ) - 9) / 3) 3 = 0 := by
    rw [show ((((6 : ℕ)) : ℝ) - 9) / 3 = ((-1 : ℤ) : ℝ) by norm_num]
    exact lanczos_weight_int _ (by decide)
  have t7 : lanczos_weight (((((7 : ℕ)) : ℝ) - 9) / 3) 3
      = (cos (4 * π / 9) - -cos (π / 9)) * (27 / 8 : ℝ) / π ^ 2 := by
    rw [show ((((7 : ℕ)) : ℝ) - 9) / 3 = (-2 / 3 : ℝ) by norm_num]
    rw [lanczos_weight_cos_of_mem _ (Or.inr (by norm_num)) ⟨by norm_num, by norm_num⟩]
    rw [cos_eq_of_shift (2 * (-2 / 3 : ℝ) / 3 * π) (4 * π / 9) (0) (Or.inr (by push_cast; ring)),
      cos_eq_neg_of_shift (4 * (-2 / 3 : ℝ) / 3 * π) (π / 9) (-1) (Or.inr (by push_cast; ring))]
    rw [show (3 : ℝ) / (2 * (-2 / 3 : ℝ) ^ 2) = (27 / 8 : ℝ) by norm_num]
  have t8 : lanczos_weight (((((8 : ℕ)) : ℝ) - 9) / 3) 3
      = (cos (2 * π / 9) - cos (4 * π / 9)) * (27 / 2 : ℝ) / π ^ 2 := by
    rw [show ((((8 : ℕ)) : ℝ) - 9) / 3 = (-1 / 3 : ℝ) by norm_num]
    rw [lanczos_weight_cos_of_mem _ (Or.inr (by norm_num)) ⟨by norm_num, by norm_num⟩]
    rw [cos_eq_of_shift (2 * (-1 / 3 : ℝ) / 3 * π) (2 * π / 9) (0) (Or.inr (by push_cast; ring)),
      cos_eq_of_shift (4 * (-1 / 3 : ℝ) / 3 * π) (4 * π / 9) (0) (Or.inr (by push_cast; ring))]
    rw [show (3 : ℝ) / (2 * (-1 / 3 : ℝ) ^ 2) = (27 / 2 : ℝ) by norm_num]
  have t9 : lanczos_weight (((((9 : ℕ)) : ℝ) - 9) / 3) 3 = 1 := by
    rw [show ((((9 : ℕ)) : ℝ) - 9) / 3 = (0 : ℝ) by norm_num]
    exact lanczos_weight_zero
  have t10 : lanczos_weight (((((10 : ℕ)) : ℝ) - 9) / 3) 3
      = (cos (2 * π / 9) - cos (4 * π / 9)) * (27 / 2 : ℝ) / π ^ 2 := by
    rw [show ((((10 : ℕ)) : ℝ) - 9) / 3 = (1 / 3 : ℝ) by norm_num]
    rw [lanczos_weight_cos_of_mem _ (Or.inl (by norm_num)) ⟨by norm_num, by norm_num⟩]
    rw [cos_eq_of_shift (2 * (1 / 3 : ℝ) / 3 * π) (2 * π / 9) (0) (Or.inl (by push_cast; ring)),
      cos_eq_of_shift (4 * (1 / 3 : ℝ) / 3 * π) (4 * π / 9) (0) (Or.inl (by push_cast; ring))]
    rw [show (3 : ℝ) / (2 * (1 / 3 : ℝ) ^ 2) = (27 / 2 : ℝ) by norm_num]
  have t11 : lanczos_weight (((((11 : ℕ)) : ℝ) - 9) / 3) 3
      = (cos (4 * π / 9) - -cos (π / 9)) * (27 / 8 : ℝ) / π ^ 2 := by
    rw [show ((((11 : ℕ)) : ℝ) - 9) / 3 = (2 / 3 : ℝ) by norm_num]
    rw [lanczos_weight_cos_of_mem _ (Or.inl (by norm_num)) ⟨by norm_num, by norm_num⟩]
    rw [cos_eq_of_shift (2 * (2 / 3 : ℝ) / 3 * π) (4 * π / 9) (0) (Or.inl (by push_cast; ring)),
      cos_eq_neg_of_shift (4 * (2 / 3 : ℝ) / 3 * π) (π / 9) (0) (Or.inl (by push_cast; ring))]
    rw [show (3 : ℝ) / (2 * (2 / 3 : ℝ) ^ 2) = (27 / 8 : ℝ) by norm_num]
  have t12 : lanczos_weight (((((12 : ℕ)) : ℝ) - 9) / 3) 3 = 0 := by
    rw [show ((((12 : ℕ)) : ℝ) - 9) / 3 = ((1 : ℤ) : ℝ) by norm_num]
    exact lanczos_weight_int _ (by decide)
  have t13 : lanczos_weight (((((13 : ℕ)) : ℝ) - 9) / 3) 3
      = (-cos (π / 9) - cos (2 * π / 9)) * (27 / 32 : ℝ) / π ^ 2 := by
    rw [show ((((13 : ℕ)) : ℝ) - 9) / 3 = (4 / 3 : ℝ) by norm_num]
    rw [lanczos_weight_cos_of_mem _ (Or.inl (by norm_num)) ⟨by norm_num, by norm_num⟩]
    rw [cos_eq_neg_of_shift (2 * (4 / 3 : ℝ) / 3 * π) (π / 9) (0) (Or.inl (by push_cast; ring)),
      cos_eq_of_shift (4 * (4 / 3 : ℝ) / 3 * π) (2 * π / 9) (1) (Or.inr (by push_cast; ring))]
    rw [show (3 : ℝ) / (2 * (4 / 3 : ℝ) ^ 2) = (27 / 32 : ℝ) by norm_num]
  have t14 : lanczos_weight (((((14 : ℕ)) : ℝ) - 9) / 3) 3
      = (-cos (π / 9) - cos (2 * π / 9)) * (27 / 50 : ℝ) / π ^ 2 := by
    rw [show ((((14 : ℕ)) : ℝ) - 9) / 3 = (5 / 3 : ℝ) by norm_num]
    rw [lanczos_weight_cos_of_mem _ (Or.inl (by norm_num)) ⟨by norm_num, by norm_num⟩]
    rw [cos_eq_neg_of_shift (2 * (5 / 3 : ℝ) / 3 * π) (π / 9) (0) (Or.inr (by push_cast; ring)),
      cos_eq_of_shift (4 * (5 / 3 : ℝ) / 3 * π) (2 * π / 9) (1) (Or.inl (by push_cast; ring))]
    rw [show (3 : ℝ) / (2 * (5 / 3 : ℝ) ^ 2) = (27 / 50 : ℝ) by norm_num]
  have t15 : lanczos_weight (((((15 : ℕ)) : ℝ) - 9) / 3) 3 = 0 := by
    rw [show ((((15 : ℕ)) : ℝ) - 9) / 3 = ((2 : ℤ) : ℝ) by norm_num]
    exact lanczos_weight_int _ (by decide)
  have t16 : lanczos_weight (((((16 : ℕ)) : ℝ) - 9) / 3) 3
      = (cos (4 * π / 9) - -cos (π / 9)) * (27 / 98 : ℝ) / π ^ 2 := by
    rw [show ((((16 : ℕ)) : ℝ) - 9) / 3 = (7 / 3 : ℝ) by norm_num]
    rw [lanczos_weight_cos_of_mem _ (Or.inl (by norm_num)) ⟨by norm_num, by norm_num⟩]
    rw [cos_eq_of_shift (2 * (7 / 3 : ℝ) / 3 * π) (4 * π / 9) (1) (Or.inr (by push_cast; ring)),
      cos_eq_neg_of_shift (4 * (7 / 3 : ℝ) / 3 * π) (π / 9) (1) (Or.inr (by push_cast; ring))]
    rw [show (3 : ℝ) / (2 * (7 / 3 : ℝ) ^ 2) = (27 / 98 : ℝ) by norm_num]
  have t17 : lanczos_weight (((((17 : ℕ)) : ℝ) - 9) / 3) 3
      = (cos (2 * π / 9) - cos (4 * π / 9)) * (27 / 128 : ℝ) / π ^ 2 := by
    rw [show ((((17 : ℕ)) : ℝ) - 9) / 3 = (8 / 3 : ℝ) by norm_num]
    rw [lanczos_weight_cos_of_mem _ (Or.inl (by norm_num)) ⟨by norm_num, by norm_num⟩]
    rw [cos_eq_of_shift (2 * (8 / 3 : ℝ) / 3 * π) (2 * π / 9) (1) (Or.inr (by push_cast; ring)),
      cos_eq_of_shift (4 * (8 / 3 : ℝ) / 3 * π) (4 * π / 9) (2) (Or.inr (by push_cast; ring))]
    rw [show (3 : ℝ) / (2 * (8 / 3 : ℝ) ^ 2) = (27 / 128 : ℝ) by norm_num]
  have t18 : lanczos_weight (((((18 : ℕ)) : ℝ) - 9) / 3) 3 = 0 := by
    rw [show ((((18 : ℕ)) : ℝ) - 9) / 3 = ((3 : ℤ) : ℝ) by norm_num]
    exact lanczos_weight_int _ (by decide)
  have hE : (∑ i in Finset.range 19, lanczos_weight (((i : ℝ) - 9) / 3) 3 * (1 / 3))
      = ((13149 / 1600 : ℝ) * cos (2 * π / 9) + (-21033 / 3136 : ℝ) * cos (4 * π / 9) + (29619 / 19600 : ℝ) * cos (π / 9) + (0 : ℝ)) / π ^ 2 + (1 / 3 : ℝ) := by
    simp only [Finset.sum_range_succ, Finset.sum_range_zero, t0, t1, t2, t3, t4, t5, t6, t7,
      t8, t9, t10, t11, t12, t13, t14, t15, t16, t17, t18,
      cos_zero, cos_pi_div_two, cos_pi_div_three]
    ring
  have hT1 : ((98 / 100 : ℝ) - (1 / 3 : ℝ)) * π ^ 2 ≤ (13149 / 1600 : ℝ) * cos (2 * π / 9) + (-21033 / 3136 : ℝ) * cos (4 * π / 9) + (29619 / 19600 : ℝ) * cos (π / 9) + (0 : ℝ) := by linarith
  have hT2 : (13149 / 1600 : ℝ) * cos (2 * π / 9) + (-21033 / 3136 : ℝ) * cos (4 * π / 9) + (29619 / 19600 : ℝ) * cos (π / 9) + (0 : ℝ) ≤ ((102 / 100 : ℝ) - (1 / 3 : ℝ)) * π ^ 2 := by linarith
  have hPpos : (0 : ℝ) < π ^ 2 := by positivity
  rw [hE, abs_le]
  constructor
  · have := (le_div_iff₀ hPpos).mpr hT1
    norm_num at this ⊢
    linarith
  · have := (div_le_iff₀ hPpos).mpr hT2
    norm_num at this ⊢
    linarith

open Real in
theorem kernel_sum_quarter :
    |(∑ i in Finset.range 25, lanczos_weight ((2 * (i : ℝ) - 23) / 8) 3 * (1 / 4)) - 1| ≤ 2e-2 := by
  have hP1 : (9.8690 : ℝ) < π ^ 2 := by nlinarith [pi_gt_d4]
  have hP2 : π ^ 2 < (9.8697 : ℝ) := by nlinarith [pi_lt_d4, pi_pos]
  have hpi0 : π ^ 2 ≠ 0 := by positivity
  obtain ⟨a6, b6⟩ := cos_pi_div_six_bounds
  obtain ⟨a4, b4⟩ := cos_pi_div_four_bounds
  obtain ⟨a12, b12⟩ := cos_pi_div_twelve_bounds
  obtain ⟨a512, b512⟩ := cos_five_pi_div_twelve_bounds
  obtain ⟨a9, b9⟩ := cos_pi_div_nine_bounds
  obtain ⟨a29, b29⟩ := cos_two_pi_div_nine_bounds
  obtain ⟨a49, b49⟩ := cos_four_pi_div_nine_bounds
  have t0 : lanczos_weight ((2 * (((0 : ℕ)) : ℝ) - 23) / 8) 3
      = (cos (π / 12) - cos (π / 6)) * (96 / 529 : ℝ) / π ^ 2 := by
    rw [show (2 * (((0 : ℕ)) : ℝ) - 23) / 8 = (-23 / 8 : ℝ) by norm_num]
    rw [lanczos_weight_cos_of_mem _ (Or.inr (by norm_num)) ⟨by norm_num, by norm_num⟩]
    rw [cos_eq_of_shift (2 * (-23 / 8 : ℝ) / 3 * π) (π / 12) (-1) (Or.inl (by push_cast; ring)),
      cos_eq_of_shift (4 * (-23 / 8 : ℝ) / 3 * π) (π / 6) (-2) (Or.inl (by push_cast; ring))]
    rw [show (3 : ℝ) / (2 * (-23 / 8 : ℝ) ^ 2) = (96 / 529 : ℝ) by norm_num]
  have t1 : lanczos_weight ((2 * (((1 : ℕ)) : ℝ) - 23) / 8) 3
      = (cos (π / 4) - cos (π / 2)) * (32 / 147 : ℝ) / π ^ 2 := by
    rw [show (2 * (((1 : ℕ)) : ℝ) - 23) / 8 = (-21 / 8 : ℝ) by norm_num]
    rw [lanczos_weight_cos_of_mem _ (Or.inr (by norm_num)) ⟨by norm_num, by norm_num⟩]
    rw [cos_eq_of_shift (2 * (-21 / 8 : ℝ) / 3 * π) (π / 4) (-1) (Or.inl (by push_cast; ring)),
      cos_eq_of_shift (4 * (-21 / 8 : ℝ) / 3 * π) (π / 2) (-2) (Or.inl (by push_cast; ring))]
    rw [show (3 : ℝ) / (2 * (-21 / 8 : ℝ) ^ 2) = (32 / 147 : ℝ) by norm_num]
  have t2 : lanczos_weight ((2 * (((2 : ℕ)) : ℝ) - 23) / 8) 3
      = (cos (5 * π / 12) - -cos (π / 6)) * (96 / 361 : ℝ) / π ^ 2 := by
    rw [show (2 * (((2 : ℕ)) : ℝ) - 23) / 8 = (-19 / 8 : ℝ) by norm_num]
    rw [lanczos_weight_cos_of_mem _ (Or.inr (by norm_num)) ⟨by norm_num, by norm_num⟩]
    rw [cos_eq_of_shift (2 * (-19 / 8 : ℝ) / 3 * π) (5 * π / 12) (-1) (Or.inl (by push_cast; ring)),
      cos_eq_neg_of_shift (4 * (-19 / 8 : ℝ) / 3 * π) (π / 6) (-2) (Or.inl (by push_cast; ring))]
    rw [show (3 : ℝ) / (2 * (-19 / 8 : ℝ) ^ 2) = (96 / 361 : ℝ) by norm_num]
  have t3 : lanczos_weight ((2 * (((3 : ℕ)) : ℝ) - 23) / 8) 3
      = (-cos (5 * π / 12) - -cos (π / 6)) * (96 / 289 : ℝ) / π ^ 2 := by
    rw [show (2 * (((3 : ℕ)) : ℝ) - 23) / 8 = (-17 / 8 : ℝ) by norm_num]
    rw [lanczos_weight_cos_of_mem _ (Or.inr (by norm_num)) ⟨by norm_num, by norm_num⟩]
    rw [cos_eq_neg_of_shift (2 * (-17 / 8 : ℝ) / 3 * π) (5 * π / 12) (-1) (Or.inl (by push_cast; ring)),
      cos_eq_neg_of_shift (4 * (-17 / 8 : ℝ) / 3 * π) (π / 6) (-2) (Or.inr (by push_cast; ring))]
    rw [show (3 : ℝ) / (2 * (-17 / 8 : ℝ) ^ 2) = (96 / 289 : ℝ) by norm_num]
  have t4 : lanczos_weight ((2 * (((4 : ℕ)) : ℝ) - 23) / 8) 3
      = (-cos (π / 4) - cos (π / 2)) * (32 / 75 : ℝ) / π ^ 2 := by
    rw [show (2 * (((4 : ℕ)) : ℝ) - 23) / 8 = (-15 / 8 : ℝ) by norm_num]
    rw [lanczos_weight_cos_of_mem _ (Or.inr (by norm_num)) ⟨by norm_num, by norm_num⟩]
    rw [cos_eq_neg_of_shift (2 * (-15 / 8 : ℝ) / 3 * π) (π / 4) (-1) (Or.inl (by push_cast; ring)),
      cos_eq_of_shift (4 * (-15 / 8 : ℝ) / 3 * π) (π / 2) (-1) (Or.inr (by push_cast; ring))]
    rw [show (3 : ℝ) / (2 * (-15 / 8 : ℝ) ^ 2) = (32 / 75 : ℝ) by norm_num]
  have t5 : lanczos_weight ((2 * (((5 : ℕ)) : ℝ) - 23) / 8) 3
      = (-cos (π / 12) - cos (π / 6)) * (96 / 169 : ℝ) / π ^ 2 := by
    rw [show (2 * (((5 : ℕ)) : ℝ) - 23) / 8 = (-13 / 8 : ℝ) by norm_num]
    rw [lanczos_weight_cos_of_mem _ (Or.inr (by norm_num)) ⟨by norm_num, by norm_num⟩]
    rw [cos_eq_neg_of_shift (2 * (-13 / 8 : ℝ) / 3 * π) (π / 12) (-1) (Or.inl (by push_cast; ring)),
      cos_eq_of_shift (4 * (-13 / 8 : ℝ) / 3 * π) (π / 6) (-1) (Or.inr (by push_cast; ring))]
    rw [show (3 : ℝ) / (2 * (-13 / 8 : ℝ) ^ 2) = (96 / 169 : ℝ) by norm_num]
  have t6 : lanczos_weight ((2 * (((6 : ℕ)) : ℝ) - 23) / 8) 3
      = (-cos (π / 12) - cos (π / 6)) * (96 / 121 : ℝ) / π ^ 2 := by
    rw [show (2 * (((6 : ℕ)) : ℝ) - 23) / 8 = (-11 / 8 : ℝ) by norm_num]
    rw [lanczos_weight_cos_of_mem _ (Or.inr (by norm_num)) ⟨by norm_num, by norm_num⟩]
    rw [cos_eq_neg_of_shift (2 * (-11 / 8 : ℝ) / 3 * π) (π / 12) (-1) (Or.inr (by push_cast; ring)),
      cos_eq_of_shift (4 * (-11 / 8 : ℝ) / 3 * π) (π / 6) (-1) (Or.inl (by push_cast; ring))]
    rw [show (3 : ℝ) / (2 * (-11 / 8 : ℝ) ^ 2) = (96 / 121 : ℝ) by norm_num]
  have t7 : lanczos_weight ((2 * (((7 : ℕ)) : ℝ) - 23) / 8) 3
      = (-cos (π / 4) - cos (π / 2)) * (32 / 27 : ℝ) / π ^ 2 := by
    rw [show (2 * (((7 : ℕ)) : ℝ) - 23) / 8 = (-9 / 8 : ℝ) by norm_num]
    rw [lanczos_weight_cos_of_mem _ (Or.inr (by norm_num)) ⟨by norm_num, by norm_num⟩]
    rw [cos_eq_neg_of_shift (2 * (-9 / 8 : ℝ) / 3 * π) (π / 4) (-1) (Or.inr (by push_cast; ring)),
      cos_eq_of_shift (4 * (-9 / 8 : ℝ) / 3 * π) (π / 2) (-1) (Or.inl (by push_cast; ring))]
    rw [show (3 : ℝ) / (2 * (-9 / 8 : ℝ) ^ 2) = (32 / 27 : ℝ) by norm_num]
  have t8 : lanczos_weight ((2 * (((8 : ℕ)) : ℝ) - 23) / 8) 3
      = (-cos (5 * π / 12) - -cos (π / 6)) * (96 / 49 : ℝ) / π ^ 2 := by
    rw [show (2 * (((8 : ℕ)) : ℝ) - 23) / 8 = (-7 / 8 : ℝ) by norm_num]
    rw [lanczos_weight_cos_of_mem _ (Or.inr (by norm_num)) ⟨by norm_num, by norm_num⟩]
    rw [cos_eq_neg_of_shift (2 * (-7 / 8 : ℝ) / 3 * π) (5 * π / 12) (-1) (Or.inr (by push_cast; ring)),
      cos_eq_neg_of_shift (4 * (-7 / 8 : ℝ) / 3 * π) (π / 6) (-1) (Or.inl (by push_cast; ring))]
    rw [show (3 : ℝ) / (2 * (-7 / 8 : ℝ) ^ 2) = (96 / 49 : ℝ) by norm_num]
  have t9 : lanczos_weight ((2 * (((9 : ℕ)) : ℝ) - 23) / 8) 3
      = (cos (5 * π / 12) - -cos (π / 6)) * (96 / 25 : ℝ) / π ^ 2 := by
    rw [show (2 * (((9 : ℕ)) : ℝ) - 23) / 8 = (-5 / 8 : ℝ) by norm_num]
    rw [lanczos_weight_cos_of_mem _ (Or.inr (by norm_num)) ⟨by norm_num, by norm_num⟩]
    rw [cos_eq_of_shift (2 * (-5 / 8 : ℝ) / 3 * π) (5 * π / 12) (0) (Or.inr (by push_cast; ring)),
      cos_eq_neg_of_shift (4 * (-5 / 8 : ℝ) / 3 * π) (π / 6) (-1) (Or.inr (by push_cast; ring))]
    rw [show (3 : ℝ) / (2 * (-5 / 8 : ℝ) ^ 2) = (96 / 25 : ℝ) by norm_num]
  have t10 : lanczos_weight ((2 * (((10 : ℕ)) : ℝ) - 23) / 8) 3
      = (cos (π / 4) - cos (π / 2)) * (32 / 3 : ℝ) / π ^ 2 := by
    rw [show (2 * (((10 : ℕ)) : ℝ) - 23) / 8 = (-3 / 8 : ℝ) by norm_num]
    rw [lanczos_weight_cos_of_mem _ (Or.inr (by norm_num)) ⟨by norm_num, by norm_num⟩]
    rw [cos_eq_of_shift (2 * (-3 / 8 : ℝ) / 3 * π) (π / 4) (0) (Or.inr (by push_cast; ring)),
      cos_eq_of_shift (4 * (-3 / 8 : ℝ) / 3 * π) (π / 2) (0) (Or.inr (by push_cast; ring))]
    rw [show (3 : ℝ) / (2 * (-3 / 8 : ℝ) ^ 2) = (32 / 3 : ℝ) by norm_num]
  have t11 : lanczos_weight ((2 * (((11 : ℕ)) : ℝ) - 23) / 8) 3
      = (cos (π / 12) - cos (π / 6)) * (96 : ℝ) / π ^ 2 := by
    rw [show (2 * (((11 : ℕ)) : ℝ) - 23) / 8 = (-1 / 8 : ℝ) by norm_num]
    rw [lanczos_weight_cos_of_mem _ (Or.inr (by norm_num)) ⟨by norm_num, by norm_num⟩]
    rw [cos_eq_of_shift (2 * (-1 / 8 : ℝ) / 3 * π) (π / 12) (0) (Or.inr (by push_cast; ring)),
      cos_eq_of_shift (4 * (-1 / 8 : ℝ) / 3 * π) (π / 6) (0) (Or.inr (by push_cast; ring))]
    rw [show (3 : ℝ) / (2 * (-1 / 8 : ℝ) ^ 2) = (96 : ℝ) by norm_num]
  have t12 : lanczos_weight ((2 * (((12 : ℕ)) : ℝ) - 23) / 8) 3
      = (cos (π / 12) - cos (π / 6)) * (96 : ℝ) / π ^ 2 := by
    rw [show (2 * (((12 : ℕ)) : ℝ) - 23) / 8 = (1 / 8 : ℝ) by norm_num]
    rw [lanczos_weight_cos_of_mem _ (Or.inl (by norm_num)) ⟨by norm_num, by norm_num⟩]
    rw [cos_eq_of_shift (2 * (1 / 8 : ℝ) / 3 * π) (π / 12) (0) (Or.inl (by push_cast; ring)),
      cos_eq_of_shift (4 * (1 / 8 : ℝ) / 3 * π) (π / 6) (0) (Or.inl (by push_cast; ring))]
    rw [show (3 : ℝ) / (2 * (1 / 8 : ℝ) ^ 2) = (96 : ℝ) by norm_num]
  have t13 : lanczos_weight ((2 * (((13 : ℕ)) : ℝ) - 23) / 8) 3
      = (cos (π / 4) - cos (π / 2)) * (32 / 3 : ℝ) / π ^ 2 := by
    rw [show (2 * (((13 : ℕ)) : ℝ) - 23) / 8 = (3 / 8 : ℝ) by norm_num]
    rw [lanczos_weight_cos_of_mem _ (Or.inl (by norm_num)) ⟨by norm_num, by norm_num⟩]
    rw [cos_eq_of_shift (2 * (3 / 8 : ℝ) / 3 * π) (π / 4) (0) (Or.inl (by push_cast; ring)),
      cos_eq_of_shift (4 * (3 / 8 : ℝ) / 3 * π) (π / 2) (0) (Or.inl (by push_cast; ring))]
    rw [show (3 : ℝ) / (2 * (3 / 8 : ℝ) ^ 2) = (32 / 3 : ℝ) by norm_num]
  have t14 : lanczos_weight ((2 * (((14 : ℕ)) : ℝ) - 23) / 8) 3
      = (cos (5 * π / 12) - -cos (π / 6)) * (96 / 25 : ℝ) / π ^ 2 := by
    rw [show (2 * (((14 : ℕ)) : ℝ) - 23) / 8 = (5 / 8 : ℝ) by norm_num]
    rw [lanczos_weight_cos_of_mem _ (Or.inl (by norm_num)) ⟨by norm_num, by norm_num⟩]
    rw [cos_eq_of_shift (2 * (5 / 8 : ℝ) / 3 * π) (5 * π / 12) (0) (Or.inl (by push_cast; ring)),
      cos_eq_neg_of_shift (4 * (5 / 8 : ℝ) / 3 * π) (π / 6) (0) (Or.inl (by push_cast; ring))]
    rw [show (3 : ℝ) / (2 * (5 / 8 : ℝ) ^ 2) = (96 / 25 : ℝ) by norm_num]
  have t15 : lanczos_weight ((2 * (((15 : ℕ)) : ℝ) - 23) / 8) 3
      = (-cos (5 * π / 12) - -cos (π / 6)) * (96 / 49 : ℝ) / π ^ 2 := by
    rw [show (2 * (((15 : ℕ)) : ℝ) - 23) / 8 = (7 / 8 : ℝ) by norm_num]
    rw [lanczos_weight_cos_of_mem _ (Or.inl (by norm_num)) ⟨by norm_num, by norm_num⟩]
    rw [cos_eq_neg_of_shift (2 * (7 / 8 : ℝ) / 3 * π) (5 * π / 12) (0) (Or.inl (by push_cast; ring)),
      cos_eq_neg_of_shift (4 * (7 / 8 : ℝ) / 3 * π) (π / 6) (0) (Or.inr (by push_cast; ring))]
    rw [show (3 : ℝ) / (2 * (7 / 8 : ℝ) ^ 2) = (96 / 49 : ℝ) by norm_num]
  have t16 : lanczos_weight ((2 * (((16 : ℕ)) : ℝ) - 23) / 8) 3
      = (-cos (π / 4) - cos (π / 2)) * (32 / 27 : ℝ) / π ^ 2 := by
    rw [show (2 * (((16 : ℕ)) : ℝ) - 23) / 8 = (9 / 8 : ℝ) by norm_num]
    rw [lanczos_weight_cos_of_mem _ (Or.inl (by norm_num)) ⟨by norm_num, by norm_num⟩]
    rw [cos_eq_neg_of_shift (2 * (9 / 8 : ℝ) / 3 * π) (π / 4) (0) (Or.inl (by push_cast; ring)),
      cos_eq_of_shift (4 * (9 / 8 : ℝ) / 3 * π) (π / 2) (1) (Or.inr (by push_cast; ring))]
    rw [show (3 : ℝ) / (2 * (9 / 8 : ℝ) ^ 2) = (32 / 27 : ℝ) by norm_num]
  have t17 : lanczos_weight ((2 * (((17 : ℕ)) : ℝ) - 23) / 8) 3
      = (-cos (π / 12) - cos (π / 6)) * (96 / 121 : ℝ) / π ^ 2 := by
    rw [show (2 * (((17 : ℕ)) : ℝ) - 23) / 8 = (11 / 8 : ℝ) by norm_num]
    rw [lanczos_weight_cos_of_mem _ (Or.inl (by norm_num)) ⟨by norm_num, by norm_num⟩]
    rw [cos_eq_neg_of_shift (2 * (11 / 8 : ℝ) / 3 * π) (π / 12) (0) (Or.inl (by push_cast; ring)),
      cos_eq_of_shift (4 * (11 / 8 : ℝ) / 3 * π) (π / 6) (1) (Or.inr (by push_cast; ring))]
    rw [show (3 : ℝ) / (2 * (11 / 8 : ℝ) ^ 2) = (96 / 121 : ℝ) by norm_num]
  have t18 : lanczos_weight ((2 * (((18 : ℕ)) : ℝ) - 23) / 8) 3
      = (-cos (π / 12) - cos (π / 6)) * (96 / 169 : ℝ) / π ^ 2 := by
    rw [show (2 * (((18 : ℕ)) : ℝ) - 23) / 8 = (13 / 8 : ℝ) by norm_num]
    rw [lanczos_weight_cos_of_mem _ (Or.inl (by norm_num)) ⟨by norm_num, by norm_num⟩]
    rw [cos_eq_neg_of_shift (2 * (13 / 8 : ℝ) / 3 * π) (π / 12) (0) (Or.inr (by push_cast; ring)),
      cos_eq_of_shift (4 * (13 / 8 : ℝ) / 3 * π) (π / 6) (1) (Or.inl (by push_cast; ring))]
    rw [show (3 : ℝ) / (2 * (13 / 8 : ℝ) ^ 2) = (96 / 169 : ℝ) by norm_num]
  have t19 : lanczos_weight ((2 * (((19 : ℕ)) : ℝ) - 23) / 8) 3
      = (-cos (π / 4) - cos (π / 2)) * (32 / 75 : ℝ) / π ^ 2 := by
    rw [show (2 * (((19 : ℕ)) : ℝ) - 23) / 8 = (15 / 8 : ℝ) by norm_num]
    rw [lanczos_weight_cos_of_mem _ (Or.inl (by norm_num)) ⟨by norm_num, by norm_num⟩]
    rw [cos_eq_neg_of_shift (2 * (15 / 8 : ℝ) / 3 * π) (π / 4) (0) (Or.inr (by push_cast; ring)),
      cos_eq_of_shift (4 * (15 / 8 : ℝ) / 3 * π) (π / 2) (1) (Or.inl (by push_cast; ring))]
    rw [show (3 : ℝ) / (2 * (15 / 8 : ℝ) ^ 2) = (32 / 75 : ℝ) by norm_num]
  have t20 : lanczos_weight ((2 * (((20 : ℕ)) : ℝ) - 23) / 8) 3
      = (-cos (5 * π / 12) - -cos (π / 6)) * (96 / 289 : ℝ) / π ^ 2 := by
    rw [show (2 * (((20 : ℕ)) : ℝ) - 23) / 8 = (17 / 8 : ℝ) by norm_num]
    rw [lanczos_weight_cos_of_mem _ (Or.inl (by norm_num)) ⟨by norm_num, by norm_num⟩]
    rw [cos_eq_neg_of_shift (2 * (17 / 8 : ℝ) / 3 * π) (5 * π / 12) (0) (Or.inr (by push_cast; ring)),
      cos_eq_neg_of_shift (4 * (17 / 8 : ℝ) / 3 * π) (π / 6) (1) (Or.inl (by push_cast; ring))]
    rw [show (3 : ℝ) / (2 * (17 / 8 : ℝ) ^ 2) = (96 / 289 : ℝ) by norm_num]
  have t21 : lanczos_weight ((2 * (((21 : ℕ)) : ℝ) - 23) / 8) 3
      = (cos (5 * π / 12) - -cos (π / 6)) * (96 / 361 : ℝ) / π ^ 2 := by
    rw [show (2 * (((21 : ℕ)) : ℝ) - 23) / 8 = (19 / 8 : ℝ) by norm_num]
    rw [lanczos_weight_cos_of_mem _ (Or.inl (by norm_num)) ⟨by norm_num, by norm_num⟩]
    rw [cos_eq_of_shift (2 * (19 / 8 : ℝ) / 3 * π) (5 * π / 12) (1) (Or.inr (by push_cast; ring)),
      cos_eq_neg_of_shift (4 * (19 / 8 : ℝ) / 3 * π) (π / 6) (1) (Or.inr (by push_cast; ring))]
    rw [show (3 : ℝ) / (2 * (19 / 8 : ℝ) ^ 2) = (96 / 361 : ℝ) by norm_num]
  have t22 : lanczos_weight ((2 * (((22 : ℕ)) : ℝ) - 23) / 8) 3
      = (cos (π / 4) - cos (π / 2)) * (32 / 147 : ℝ) / π ^ 2 := by
    rw [show (2 * (((22 : ℕ)) : ℝ) - 23) / 8 = (21 / 8 : ℝ) by norm_num]
    rw [lanczos_weight_cos_of_mem _ (Or.inl (by norm_num)) ⟨by norm_num, by norm_num⟩]
    rw [cos_eq_of_shift (2 * (21 / 8 : ℝ) / 3 * π) (π / 4) (1) (Or.inr (by push_cast; ring)),
      cos_eq_of_shift (4 * (21 / 8 : ℝ) / 3 * π) (π / 2) (2) (Or.inr (by push_cast; ring))]
    rw [show (3 : ℝ) / (2 * (21 / 8 : ℝ) ^ 2) = (32 / 147 : ℝ) by norm_num]
  have t23 : lanczos_weight ((2 * (((23 : ℕ)) : ℝ) - 23) / 8) 3
      = (cos (π / 12) - cos (π / 6)) * (96 / 529 : ℝ) / π ^ 2 := by
    rw [show (2 * (((23 : ℕ)) : ℝ) - 23) / 8 = (23 / 8 : ℝ) by norm_num]
    rw [lanczos_weight_cos_of_mem _ (Or.inl (by norm_num)) ⟨by norm_num, by norm_num⟩]
    rw [cos_eq_of_shift (2 * (23 / 8 : ℝ) / 3 * π) (π / 12) (1) (Or.inr (by push_cast; ring)),
      cos_eq_of_shift (4 * (23 / 8 : ℝ) / 3 * π) (π / 6) (2) (Or.inr (by push_cast; ring))]
    rw [show (3 : ℝ) / (2 * (23 / 8 : ℝ) ^ 2) = (96 / 529 : ℝ) by norm_num]
  have t24 : lanczos_weight ((2 * (((24 : ℕ)) : ℝ) - 23) / 8) 3 = 0 := by
    rw [show (2 * (((24 : ℕ)) : ℝ) - 23) / 8 = (25 / 8 : ℝ) by norm_num]
    exact lanczos_weight_cutoff _ (Or.inl (by norm_num))
  have hE : (∑ i in Finset.range 25, lanczos_weight ((2 * (i : ℝ) - 23) / 8) 3 * (1 / 4))
      = ((512858880 / 10817521 : ℝ) * cos (π / 12) + (-63004951528607232 / 1382511906801025 : ℝ) * cos (π / 6) + (153344 / 33075 : ℝ) * cos (π / 4) + (115953408 / 127803025 : ℝ) * cos (5 * π / 12) + (0 : ℝ)) / π ^ 2 + (0 : ℝ) := by
    simp only [Finset.sum_range_succ, Finset.sum_range_zero, t0, t1, t2, t3, t4, t5, t6, t7,
      t8, t9, t10, t11, t12, t13, t14, t15, t16, t17, t18, t19, t20, t21, t22, t23, t24,
      cos_zero, cos_pi_div_two, cos_pi_div_three]
    ring
  have hT1 : ((98 / 100 : ℝ) - (0 : ℝ)) * π ^ 2 ≤ (512858880 / 10817521 : ℝ) * cos (π / 12) + (-63004951528607232 / 1382511906801025 : ℝ) * cos (π / 6) + (153344 / 33075 : ℝ) * cos (π / 4) + (115953408 / 127803025 : ℝ) * cos (5 * π / 12) + (0 : ℝ) := by linarith
  have hT2 : (512858880 / 10817521 : ℝ) * cos (π / 12) + (-63004951528607232 / 1382511906801025 : ℝ) * cos (π / 6) + (153344 / 33075 : ℝ) * cos (π / 4) + (115953408 / 127803025 : ℝ) * cos (5 * π / 12) + (0 : ℝ) ≤ ((102 / 100 : ℝ) - (0 : ℝ)) * π ^ 2 := by linarith
  have hPpos : (0 : ℝ) < π ^ 2 := by positivity
  rw [hE, abs_le]
  constructor
  · have := (le_div_iff₀ hPpos).mpr hT1
    norm_num at this ⊢
    linarith
  · have := (div_le_iff₀ hPpos).mpr hT2
    norm_num at this ⊢
    linarith

theorem center_src_y_downsample (dst_size k y : Nat) (hd : 0 < dst_size) :
    center_src_y (k * dst_size) dst_size y = (k : ℚ) * ((y : ℚ) + 1 / 2) - 1 / 2 := by
  unfold center_src_y
  have h : (dst_size : ℚ) ≠ 0 := by exact_mod_cast hd.ne'
  push_cast
  field_simp
  ring

theorem base_src_y_half (dst_size y : Nat) (hd : 0 < dst_size) :
    base_src_y (2 * dst_size) dst_size y = 2 * (y : Int) := by
  unfold base_src_y
  rw [center_src_y_downsample dst_size 2 y hd]
  exact lrintf_tie_even _ (2 * (y : Int)) (by push_cast; ring) (by omega)

theorem base_src_y_third (dst_size y : Nat) (hd : 0 < dst_size) :
    base_src_y (3 * dst_size) dst_size y = 3 * (y : Int) + 1 := by
  unfold base_src_y
  rw [center_src_y_downsample dst_size 3 y hd]
  have e : ((3 : ℕ) : ℚ) * ((y : ℚ) + 1 / 2) - 1 / 2 = ((3 * (y : Int) + 1 : Int) : ℚ) := by
    push_cast
    ring
  rw [e]
  exact lrintf_intCast _

theorem base_src_y_quarter (dst_size y : Nat) (hd : 0 < dst_size) :
    base_src_y (4 * dst_size) dst_size y = 4 * (y : Int) + 2 := by
  unfold base_src_y
  rw [center_src_y_downsample dst_size 4 y hd]
  have h := lrintf_tie_odd (((4 : ℕ) : ℚ) * ((y : ℚ) + 1 / 2) - 1 / 2) (4 * (y : Int) + 1)
    (by push_cast; ring) (by omega)
  rw [h]
  ring

theorem weights_w_half (dst_size y i : Nat) (hd : 0 < dst_size) :
    weights_w (2 * dst_size) dst_size y i
      = lanczos_weight ((2 * (i : ℝ) - 13) / 4) 3 * (1 / 2) := by
  unfold weights_w weight src_y
  rw [radius_scaling_factor_downsample dst_size 2 hd (by decide),
    base_src_y_half dst_size y hd, int_radius_downsample dst_size 2 hd (by decide),
    center_src_y_downsample dst_size 2 y hd]
  have e3 : ((LANCZOS_RADIUS : ℚ) : ℝ) = 3 := by
    unfold LANCZOS_RADIUS
    norm_num
  rw [e3]
  congr 1
  · congr 1
    push_cast
    ring
  · push_cast
    norm_num

theorem weights_w_third (dst_size y i : Nat) (hd : 0 < dst_size) :
    weights_w (3 * dst_size) dst_size y i
      = lanczos_weight (((i : ℝ) - 9) / 3) 3 * (1 / 3) := by
  unfold weights_w weight src_y
  rw [radius_scaling_factor_downsample dst_size 3 hd (by decide),
    base_src_y_third dst_size y hd, int_radius_downsample dst_size 3 hd (by decide),
    center_src_y_downsample dst_size 3 y hd]
  have e3 : ((LANCZOS_RADIUS : ℚ) : ℝ) = 3 := by
    unfold LANCZOS_RADIUS
    norm_num
  rw [e3]
  congr 1
  · congr 1
    push_cast
    ring
  · push_cast
    norm_num

theorem weights_w_quarter (dst_size y i : Nat) (hd : 0 < dst_size) :
    weights_w (4 * dst_size) dst_size y i
      = lanczos_weight ((2 * (i : ℝ) - 23) / 8) 3 * (1 / 4) := by
  unfold weights_w weight src_y
  rw [radius_scaling_factor_downsample dst_size 4 hd (by decide),
    base_src_y_quarter dst_size y hd, int_radius_downsample dst_size 4 hd (by decide),
    center_src_y_downsample dst_size 4 y hd]
  have e3 : ((LANCZOS_RADIUS : ℚ) : ℝ) = 3 := by
    unfold LANCZOS_RADIUS
    norm_num
  rw [e3]
  congr 1
  · congr 1
    push_cast
    ring
  · push_cast
    norm_num

theorem src_samples_downsample (dst_size k : Nat) (hd : 0 < dst_size) (hk : 0 < k) :
    (src_samples (k * dst_size) dst_size).toNat = 6 * k + 1 := by
  unfold src_samples
  rw [int_radius_downsample dst_size k hd hk]
  omega

/-! ### Binary floating-point evaluation of lines 212-214 -/

theorem two_zpow_pos (e : Int) : (0 : ℚ) < 2 ^ e := zpow_pos (by norm_num) e

theorem log_two_bounds (x : ℚ) (hx : 0 < x) :
    (2 : ℚ) ^ Int.log 2 x ≤ x ∧ x < (2 : ℚ) ^ (Int.log 2 x + 1) := by
  have h1 := Int.zpow_log_le_self (b := 2) (r := x) (by norm_num) hx
  have h2 := Int.lt_zpow_succ_log_self (b := 2) (by norm_num) x
  simp only [Nat.cast_ofNat] at h1 h2
  exact ⟨h1, h2⟩

theorem log_two_eq (x : ℚ) (a : Int) (h1 : (2 : ℚ) ^ a ≤ x) (h2 : x < (2 : ℚ) ^ (a + 1)) :
    Int.log 2 x = a := by
  have hx : 0 < x := lt_of_lt_of_le (two_zpow_pos a) h1
  have h3 : a ≤ Int.log 2 x := by
    rw [← Int.zpow_le_iff_le_log (by norm_num) hx]
    simpa using h1
  have h4 : Int.log 2 x < a + 1 := by
    rw [← Int.lt_zpow_iff_log_lt (by norm_num) hx]
    simpa using h2
  omega

theorem round_binary_eval (p : Nat) (x : ℚ) (a N : Int)
    (h1 : (2 : ℚ) ^ a ≤ x) (h2 : x < (2 : ℚ) ^ (a + 1))
    (h3 : (N : ℚ) - 1 / 2 < x / 2 ^ (a - ((p : Int) - 1)))
    (h4 : x / 2 ^ (a - ((p : Int) - 1)) < (N : ℚ) + 1 / 2) :
    round_binary p x = (N : ℚ) * 2 ^ (a - ((p : Int) - 1)) := by
  have hx : 0 < x := lt_of_lt_of_le (two_zpow_pos a) h1
  unfold round_binary
  rw [if_neg hx.ne', abs_of_pos hx, log_two_eq x a h1 h2, lrintf_of_lt _ N h3 h4]

theorem round_binary_error (p : Nat) (x : ℚ) (hx : 0 < x) :
    |round_binary p x - x| ≤ x / 2 ^ p := by
  unfold round_binary
  rw [if_neg hx.ne', abs_of_pos hx]
  obtain ⟨hl, _⟩ := log_two_bounds x hx
  set e : Int := Int.log 2 x - ((p : Int) - 1) with he
  have hpos : (0 : ℚ) < 2 ^ e := two_zpow_pos e
  have hn := lrintf_nearest (x / 2 ^ e)
  have e1 : (lrintf (x / 2 ^ e) : ℚ) * 2 ^ e - x
      = ((lrintf (x / 2 ^ e) : ℚ) - x / 2 ^ e) * 2 ^ e := by
    field_simp
  rw [e1, abs_mul, abs_of_pos hpos]
  have e2 : (2 : ℚ) ^ e = 2 ^ Int.log 2 x * 2 / 2 ^ p := by
    rw [he, show Int.log 2 x - ((p : Int) - 1) = Int.log 2 x + 1 - (p : Int) by ring,
      zpow_sub₀ (by norm_num), zpow_add₀ (by norm_num), zpow_one, zpow_natCast]
  have hpp : (0 : ℚ) < 2 ^ p := by positivity
  calc |(lrintf (x / 2 ^ e) : ℚ) - x / 2 ^ e| * 2 ^ e
      ≤ 1 / 2 * 2 ^ e := mul_le_mul_of_nonneg_right hn hpos.le
    _ = 2 ^ Int.log 2 x / 2 ^ p := by rw [e2]; ring
    _ ≤ x / 2 ^ p := div_le_div_of_nonneg_right hl hpp.le

theorem lrintf_ge_of_le (x : ℚ) (n : Int) (h : (n : ℚ) ≤ x) : n ≤ lrintf x := by
  have hn := lrintf_nearest x
  rw [abs_le] at hn
  have h1 : (n : ℚ) - 1 < (lrintf x : ℚ) := by linarith [hn.1]
  have h2 : n - 1 < lrintf x := by exact_mod_cast h1
  omega

theorem round_binary_ge_one (p : Nat) (hp : 1 ≤ p) (x : ℚ) (hx : 1 ≤ x) :
    1 ≤ round_binary p x := by
  have hx0 : 0 < x := lt_of_lt_of_le one_pos hx
  unfold round_binary
  rw [if_neg hx0.ne', abs_of_pos hx0]
  obtain ⟨hl, _⟩ := log_two_bounds x hx0
  have hlog : 0 ≤ Int.log 2 x := by
    rw [← Int.zpow_le_iff_le_log (by norm_num) hx0]
    simpa using hx
  set e : Int := Int.log 2 x - ((p : Int) - 1) with he
  have hpos : (0 : ℚ) < 2 ^ e := two_zpow_pos e
  obtain ⟨k, hk⟩ : ∃ k : Nat, (p : Int) - 1 = k := ⟨p - 1, by omega⟩
  have hz : (((2 ^ k : Nat) : Int) : ℚ) ≤ x / 2 ^ e := by
    rw [le_div_iff₀ hpos]
    have : (((2 ^ k : Nat) : Int) : ℚ) * 2 ^ e = 2 ^ Int.log 2 x := by
      rw [he, hk, zpow_sub₀ (by norm_num), zpow_natCast]
      push_cast
      field_simp
    rw [this]
    exact hl
  have hr := lrintf_ge_of_le _ _ hz
  have hrq : (((2 ^ k : Nat) : Int) : ℚ) ≤ (lrintf (x / 2 ^ e) : ℚ) := by exact_mod_cast hr
  have hone : (1 : ℚ) ≤ 2 ^ Int.log 2 x := one_le_zpow₀ (by norm_num) hlog
  calc (1 : ℚ) ≤ 2 ^ Int.log 2 x := hone
    _ = (((2 ^ k : Nat) : Int) : ℚ) * 2 ^ e := by
      rw [he, hk, zpow_sub₀ (by norm_num), zpow_natCast]
      push_cast
      field_simp
    _ ≤ (lrintf (x / 2 ^ e) : ℚ) * 2 ^ e := mul_le_mul_of_nonneg_right hrq hpos.le

theorem round_binary_natCast (p : Nat) (n : Nat) (hn : n < 2 ^ p) :
    round_binary p (n : ℚ) = (n : ℚ) := by
  rcases Nat.eq_zero_or_pos n with h0 | hpos
  · subst h0
    simp [round_binary]
  have hx : (0 : ℚ) < (n : ℚ) := by exact_mod_cast hpos
  unfold round_binary
  rw [if_neg hx.ne', abs_of_pos hx]
  have hlog : Int.log 2 (n : ℚ) < (p : Int) := by
    rw [← Int.lt_zpow_iff_log_lt (by norm_num) hx]
    have : (n : ℚ) < 2 ^ p := by exact_mod_cast hn
    simpa using this
  obtain ⟨k, hk⟩ : ∃ k : Nat, Int.log 2 (n : ℚ) - ((p : Int) - 1) = -(k : Int) :=
    ⟨((p : Int) - 1 - Int.log 2 (n : ℚ)).toNat, by omega⟩
  rw [hk, zpow_neg, zpow_natCast]
  have hz : (n : ℚ) / (2 ^ k)⁻¹ = (((n * 2 ^ k : Nat) : Int) : ℚ) := by
    push_cast
    field_simp
  rw [hz, lrintf_intCast]
  push_cast
  field_simp

theorem to_float_natCast (n : Nat) (hn : n < 2 ^ 24) : to_float (n : ℚ) = (n : ℚ) :=
  round_binary_natCast 24 n hn

theorem radius_scaling_factor_binary32_upsample (src_size dst_size : Nat)
    (hs : 0 < src_size) (hd : dst_size < 2 ^ 24) (h : src_size ≤ dst_size) :
    radius_scaling_factor_binary32 src_size dst_size = 1 := by
  unfold radius_scaling_factor_binary32
  rw [to_float_natCast dst_size hd, to_float_natCast src_size (by omega)]
  have h1 : (0 : ℚ) < src_size := by exact_mod_cast hs
  have h2 : (src_size : ℚ) ≤ dst_size := by exact_mod_cast h
  exact min_eq_right (round_binary_ge_one 24 (by norm_num) _ ((one_le_div h1).mpr h2))

theorem int_radius_binary32_upsample (src_size dst_size : Nat)
    (hs : 0 < src_size) (hd : dst_size < 2 ^ 24) (h : src_size ≤ dst_size) :
    int_radius_binary32 src_size dst_size = 3 := by
  unfold int_radius_binary32
  rw [radius_scaling_factor_binary32_upsample src_size dst_size hs hd h]
  have e : LANCZOS_RADIUS / 1 = ((3 : Nat) : ℚ) := by
    unfold LANCZOS_RADIUS
    norm_num
  have e3 : (((3 : Nat) : ℚ)) = (((3 : Int)) : ℚ) := by norm_num
  rw [e]
  unfold to_double to_float
  rw [round_binary_natCast 53 3 (by norm_num), round_binary_natCast 24 3 (by norm_num), e3]
  exact lrintf_intCast 3

theorem nearest_of_close (R : Int) (v : ℚ) (s d : Nat) (hd : 0 < d)
    (hR : |(R : ℚ) - v| ≤ 1 / 2)
    (hv : |v - 3 * (s : ℚ) / (d : ℚ)| < 1 / (2 * (d : ℚ))) :
    |(R : ℚ) - 3 * (s : ℚ) / (d : ℚ)| ≤ 1 / 2 := by
  have hdq : (0 : ℚ) < d := by exact_mod_cast hd
  rw [abs_le] at hR
  rw [abs_lt] at hv
  rw [abs_le]
  constructor
  · by_contra hcon
    push_neg at hcon
    -- R + 1/2 < q
    have hpos : (0 : ℚ) < 6 * (s : ℚ) - (2 * (R : ℚ) + 1) * (d : ℚ) := by
      have : (R : ℚ) + 1 / 2 < 3 * (s : ℚ) / (d : ℚ) := by linarith
      rw [lt_div_iff₀ hdq] at this
      linarith
    have hint : (0 : Int) < 6 * (s : Int) - (2 * R + 1) * (d : Int) := by exact_mod_cast hpos
    have hone : (1 : Int) ≤ 6 * (s : Int) - (2 * R + 1) * (d : Int) := by omega
    have honeq : (1 : ℚ) ≤ 6 * (s : ℚ) - (2 * (R : ℚ) + 1) * (d : ℚ) := by exact_mod_cast hone
    have hgap : 1 / (2 * (d : ℚ)) ≤ 3 * (s : ℚ) / (d : ℚ) - ((R : ℚ) + 1 / 2) := by
      rw [div_le_iff₀ (by positivity)]
      have e : (3 * (s : ℚ) / (d : ℚ) - ((R : ℚ) + 1 / 2)) * (2 * (d : ℚ))
          = 6 * (s : ℚ) - (2 * (R : ℚ) + 1) * (d : ℚ) := by
        field_simp
        ring
      rw [e]
      exact honeq
    linarith [hR.1, hv.1]
  · by_contra hcon
    push_neg at hcon
    have hpos : (0 : ℚ) < (2 * (R : ℚ) - 1) * (d : ℚ) - 6 * (s : ℚ) := by
      have : 3 * (s : ℚ) / (d : ℚ) < (R : ℚ) - 1 / 2 := by linarith
      rw [div_lt_iff₀ hdq] at this
      linarith
    have hint : (0 : Int) < (2 * R - 1) * (d : Int) - 6 * (s : Int) := by exact_mod_cast hpos
    have hone : (1 : Int) ≤ (2 * R - 1) * (d : Int) - 6 * (s : Int) := by omega
    have honeq : (1 : ℚ) ≤ (2 * (R : ℚ) - 1) * (d : ℚ) - 6 * (s : ℚ) := by exact_mod_cast hone
    have hgap : 1 / (2 * (d : ℚ)) ≤ ((R : ℚ) - 1 / 2) - 3 * (s : ℚ) / (d : ℚ) := by
      rw [div_le_iff₀ (by positivity)]
      have e : (((R : ℚ) - 1 / 2) - 3 * (s : ℚ) / (d : ℚ)) * (2 * (d : ℚ))
          = (2 * (R : ℚ) - 1) * (d : ℚ) - 6 * (s : ℚ) := by
        field_simp
        ring
      rw [e]
      exact honeq
    linarith [hR.2, hv.2]

theorem binary32_quotient_close (s d : Nat) (hd : 0 < d) (hds : d < s) (hs : s < 2 ^ 20) :
    |to_float (to_double (LANCZOS_RADIUS / radius_scaling_factor_binary32 s d))
        - 3 * (s : ℚ) / (d : ℚ)| < 1 / (2 * (d : ℚ)) := by
  have hdq : (0 : ℚ) < d := by exact_mod_cast hd
  have hsq : (0 : ℚ) < s := by exact_mod_cast (lt_trans hd hds)
  have hsB : (s : ℚ) < 2 ^ 20 := by exact_mod_cast hs
  have hr0 : (0 : ℚ) < (d : ℚ) / (s : ℚ) := div_pos hdq hsq
  have hr1 : (d : ℚ) / (s : ℚ) ≤ 1 := by
    rw [div_le_one hsq]
    exact_mod_cast hds.le
  set r0 : ℚ := (d : ℚ) / (s : ℚ) with hr0def
  set q : ℚ := 3 * (s : ℚ) / (d : ℚ) with hqdef
  have hq0 : 0 < q := by positivity
  have hqr : q = 3 / r0 := by
    rw [hqdef, hr0def]
    field_simp
  -- the rounded quotient
  have hrm : radius_scaling_factor_binary32 s d = min (to_float r0) 1 := by
    unfold radius_scaling_factor_binary32
    rw [to_float_natCast d (by omega), to_float_natCast s (by omega)]
  have hrf := round_binary_error 24 r0 hr0
  rw [abs_le] at hrf
  have hlo : r0 * (1 - 1 / 2 ^ 24) ≤ min (to_float r0) 1 := by
    apply le_min
    · unfold to_float
      linarith [hrf.1]
    · have : r0 * (1 - 1 / 2 ^ 24) ≤ r0 := by
        apply mul_le_of_le_one_right hr0.le
        norm_num
      linarith
  have hhi : min (to_float r0) 1 ≤ r0 * (1 + 1 / 2 ^ 24) := by
    apply le_trans (min_le_left _ _)
    unfold to_float
    linarith [hrf.2]
  have hlopos : 0 < r0 * (1 - 1 / 2 ^ 24) := mul_pos hr0 (by norm_num)
  have hrmpos : 0 < min (to_float r0) 1 := lt_of_lt_of_le hlopos hlo
  -- the double quotient
  set v1 : ℚ := LANCZOS_RADIUS / radius_scaling_factor_binary32 s d with hv1def
  have hv1eq : v1 = 3 / min (to_float r0) 1 := by
    rw [hv1def, hrm]
    unfold LANCZOS_RADIUS
    ring
  have hv1hi : v1 ≤ q * (2 ^ 24 / (2 ^ 24 - 1)) := by
    rw [hv1eq]
    calc 3 / min (to_float r0) 1 ≤ 3 / (r0 * (1 - 1 / 2 ^ 24)) :=
          div_le_div_of_nonneg_left (by norm_num) hlopos hlo
      _ = q * (2 ^ 24 / (2 ^ 24 - 1)) := by
          rw [hqr]
          field_simp
  have hv1lo : q * (2 ^ 24 / (2 ^ 24 + 1)) ≤ v1 := by
    rw [hv1eq]
    calc q * (2 ^ 24 / (2 ^ 24 + 1)) = 3 / (r0 * (1 + 1 / 2 ^ 24)) := by
          rw [hqr]
          field_simp
      _ ≤ 3 / min (to_float r0) 1 :=
          div_le_div_of_nonneg_left (by norm_num) hrmpos hhi
  have hv1pos : 0 < v1 := lt_of_lt_of_le (by positivity) hv1lo
  have hv2 := round_binary_error 53 v1 hv1pos
  rw [abs_le] at hv2
  have hv2lo : v1 * (1 - 1 / 2 ^ 53) ≤ to_double v1 := by
    unfold to_double
    linarith [hv2.1]
  have hv2hi : to_double v1 ≤ v1 * (1 + 1 / 2 ^ 53) := by
    unfold to_double
    linarith [hv2.2]
  have hv2pos : 0 < to_double v1 :=
    lt_of_lt_of_le (mul_pos hv1pos (by norm_num)) hv2lo
  have hv3 := round_binary_error 24 (to_double v1) hv2pos
  rw [abs_le] at hv3
  have hv3lo : to_double v1 * (1 - 1 / 2 ^ 24) ≤ to_float (to_double v1) := by
    unfold to_float
    linarith [hv3.1]
  have hv3hi : to_float (to_double v1) ≤ to_double v1 * (1 + 1 / 2 ^ 24) := by
    unfold to_float
    linarith [hv3.2]
  -- assemble
  have hup : to_float (to_double v1) ≤ q * (1 + 1 / (6 * 2 ^ 20)) := by
    calc to_float (to_double v1) ≤ to_double v1 * (1 + 1 / 2 ^ 24) := hv3hi
      _ ≤ v1 * (1 + 1 / 2 ^ 53) * (1 + 1 / 2 ^ 24) :=
          mul_le_mul_of_nonneg_right hv2hi (by norm_num)
      _ ≤ q * (2 ^ 24 / (2 ^ 24 - 1)) * (1 + 1 / 2 ^ 53) * (1 + 1 / 2 ^ 24) := by
          apply mul_le_mul_of_nonneg_right _ (by norm_num)
          exact mul_le_mul_of_nonneg_right hv1hi (by norm_num)
      _ = q * ((2 ^ 24 / (2 ^ 24 - 1)) * (1 + 1 / 2 ^ 53) * (1 + 1 / 2 ^ 24)) := by ring
      _ ≤ q * (1 + 1 / (6 * 2 ^ 20)) := by
          apply mul_le_mul_of_nonneg_left _ hq0.le
          norm_num
  have hdown : q * (1 - 1 / (6 * 2 ^ 20)) ≤ to_float (to_double v1) := by
    calc q * (1 - 1 / (6 * 2 ^ 20))
        ≤ q * ((2 ^ 24 / (2 ^ 24 + 1)) * (1 - 1 / 2 ^ 53) * (1 - 1 / 2 ^ 24)) := by
          apply mul_le_mul_of_nonneg_left _ hq0.le
          norm_num
      _ = q * (2 ^ 24 / (2 ^ 24 + 1)) * (1 - 1 / 2 ^ 53) * (1 - 1 / 2 ^ 24) := by ring
      _ ≤ v1 * (1 - 1 / 2 ^ 53) * (1 - 1 / 2 ^ 24) := by
          apply mul_le_mul_of_nonneg_right _ (by norm_num)
          exact mul_le_mul_of_nonneg_right hv1lo (by norm_num)
      _ ≤ to_double v1 * (1 - 1 / 2 ^ 24) :=
          mul_le_mul_of_nonneg_right hv2lo (by norm_num)
      _ ≤ to_float (to_double v1) := hv3lo
  have hqd : q * (1 / (6 * 2 ^ 20)) < 1 / (2 * (d : ℚ)) := by
    have e : q * (1 / (6 * 2 ^ 20)) = (s : ℚ) / 2 ^ 20 * (1 / (2 * (d : ℚ))) := by
      rw [hqdef]
      field_simp
      ring
    rw [e]
    apply mul_lt_of_lt_one_left (by positivity)
    rw [div_lt_one (by positivity)]
    exact hsB
  have e1 : q * (1 + 1 / (6 * 2 ^ 20)) = q + q * (1 / (6 * 2 ^ 20)) := by ring
  have e2 : q * (1 - 1 / (6 * 2 ^ 20)) = q - q * (1 / (6 * 2 ^ 20)) := by ring
  rw [e1] at hup
  rw [e2] at hdown
  rw [abs_lt]
  constructor <;> linarith

theorem int_radius_binary32_nearest (src_size dst_size : Nat) (hs : 0 < src_size)
    (hd : 0 < dst_size) (hsb : src_size < 2 ^ 20) (hdb : dst_size < 2 ^ 24) :
    |(int_radius_binary32 src_size dst_size : ℚ)
        - 3 / min ((dst_size : ℚ) / (src_size : ℚ)) 1| ≤ 1 / 2 := by
  have hsq : (0 : ℚ) < src_size := by exact_mod_cast hs
  have hdq : (0 : ℚ) < dst_size := by exact_mod_cast hd
  by_cases h : src_size ≤ dst_size
  · rw [int_radius_binary32_upsample src_size dst_size hs hdb h]
    have h2 : (src_size : ℚ) ≤ dst_size := by exact_mod_cast h
    rw [min_eq_right ((one_le_div hsq).mpr h2)]
    norm_num
  · have hlt : dst_size < src_size := Nat.lt_of_not_le h
    have hltq : (dst_size : ℚ) < src_size := by exact_mod_cast hlt
    rw [min_eq_left ((div_le_one hsq).mpr hltq.le)]
    have e : (3 : ℚ) / ((dst_size : ℚ) / (src_size : ℚ))
        = 3 * (src_size : ℚ) / (dst_size : ℚ) := by
      field_simp
    rw [e]
    exact nearest_of_close _ _ src_size dst_size hd (lrintf_nearest _)
      (binary32_quotient_close src_size dst_size hd hlt hsb)

theorem lrintf_eq_of_nearest (x : ℚ) (R : Int) (h : |(R : ℚ) - x| ≤ 1 / 2)
    (hx : ∀ k : Int, x ≠ (k : ℚ) + 1 / 2) : lrintf x = R := by
  rw [abs_le] at h
  apply lrintf_of_lt
  · rcases eq_or_lt_of_le h.2 with h1 | h1
    · exfalso
      apply hx (R - 1)
      push_cast
      linarith
    · linarith
  · rcases eq_or_lt_of_le h.1 with h1 | h1
    · exfalso
      apply hx R
      linarith
    · linarith

theorem int_radius_binary32_eq_int_radius (src_size dst_size : Nat) (hs : 0 < src_size)
    (hd : 0 < dst_size) (hsb : src_size < 2 ^ 20) (hdb : dst_size < 2 ^ 24)
    (hx : ∀ k : Int, 3 / min ((dst_size : ℚ) / (src_size : ℚ)) 1 ≠ (k : ℚ) + 1 / 2) :
    int_radius_binary32 src_size dst_size = int_radius src_size dst_size := by
  have h := int_radius_binary32_nearest src_size dst_size hs hd hsb hdb
  have e := lrintf_eq_of_nearest _ _ h hx
  unfold int_radius radius_scaling_factor LANCZOS_RADIUS
  exact e.symm

theorem not_tie_of_intCast (x : ℚ) (n : Int) (h : x = (n : ℚ)) :
    ∀ k : Int, x ≠ (k : ℚ) + 1 / 2 := by
  intro k hk
  rw [h] at hk
  have h2 : (2 * n : ℚ) = 2 * (k : ℚ) + 1 := by linarith
  have h3 : 2 * n = 2 * k + 1 := by exact_mod_cast h2
  omega

theorem int_radius_binary32_downsample (dst_size k : Nat) (hd : 0 < dst_size) (hk : 0 < k)
    (hb : k * dst_size < 2 ^ 20) :
    int_radius_binary32 (k * dst_size) dst_size = 3 * (k : Int) := by
  have hkd : 0 < k * dst_size := Nat.mul_pos hk hd
  have hdb : dst_size < 2 ^ 24 := by
    have : dst_size ≤ k * dst_size := Nat.le_mul_of_pos_left _ hk
    omega
  rw [int_radius_binary32_eq_int_radius (k * dst_size) dst_size hkd hd hb hdb,
    int_radius_downsample dst_size k hd hk]
  apply not_tie_of_intCast _ (3 * (k : Int))
  have h1 : (0 : ℚ) < dst_size := by exact_mod_cast hd
  have h2 : (1 : ℚ) ≤ k := by exact_mod_cast hk
  have e : (dst_size : ℚ) / ((k * dst_size : ℕ) : ℚ) = 1 / (k : ℚ) := by
    push_cast
    field_simp
    ring
  rw [e, min_eq_left (by rw [div_le_one (by linarith)]; exact h2)]
  push_cast
  field_simp

/-- The tie `43 -> 6` (exact quotient 21.5): the machine value is 21. -/
theorem int_radius_binary32_43_6 : int_radius_binary32 43 6 = 21 := by
  have hrf : to_float (((6 : ℕ) : ℚ) / ((43 : ℕ) : ℚ)) = (2341007 / 16777216 : ℚ) := by
    unfold to_float
    rw [round_binary_eval 24 _ (-3) 9364028 (by norm_num) (by norm_num) (by norm_num)
      (by norm_num)]
    norm_num
  have hr : radius_scaling_factor_binary32 43 6 = (2341007 / 16777216 : ℚ) := by
    unfold radius_scaling_factor_binary32
    rw [to_float_natCast 6 (by norm_num), to_float_natCast 43 (by norm_num), hrf]
    exact min_eq_left (by norm_num)
  have hv1 : LANCZOS_RADIUS / radius_scaling_factor_binary32 43 6 = (50331648 / 2341007 : ℚ) := by
    rw [hr]
    unfold LANCZOS_RADIUS
    norm_num
  have hv2 := round_binary_error 53 (50331648 / 2341007 : ℚ) (by norm_num)
  rw [abs_le] at hv2
  obtain ⟨hv2l, hv2u⟩ := hv2
  have hv3 : to_float (to_double (50331648 / 2341007 : ℚ)) = (11272191 / 524288 : ℚ) := by
    unfold to_float to_double
    rw [round_binary_eval 24 _ (4) 11272191 (by norm_num; linarith) (by norm_num; linarith)
      (by norm_num; linarith) (by norm_num; linarith)]
    norm_num
  unfold int_radius_binary32
  rw [hv1, hv3]
  exact lrintf_of_lt _ 21 (by norm_num) (by norm_num)

/-- The tie `83 -> 2` (exact quotient 124.5, which `lrintf` would round to the even 124):
the machine value is 125, so a tie can go either way. -/
theorem int_radius_binary32_83_2 : int_radius_binary32 83 2 = 125 := by
  have hrf : to_float (((2 : ℕ) : ℚ) / ((83 : ℕ) : ℚ)) = (1617081 / 67108864 : ℚ) := by
    unfold to_float
    rw [round_binary_eval 24 _ (-6) 12936648 (by norm_num) (by norm_num) (by norm_num)
      (by norm_num)]
    norm_num
  have hr : radius_scaling_factor_binary32 83 2 = (1617081 / 67108864 : ℚ) := by
    unfold radius_scaling_factor_binary32
    rw [to_float_natCast 2 (by norm_num), to_float_natCast 83 (by norm_num), hrf]
    exact min_eq_left (by norm_num)
  have hv1 : LANCZOS_RADIUS / radius_scaling_factor_binary32 83 2 = (67108864 / 539027 : ℚ) := by
    rw [hr]
    unfold LANCZOS_RADIUS
    norm_num
  have hv2 := round_binary_error 53 (67108864 / 539027 : ℚ) (by norm_num)
  rw [abs_le] at hv2
  obtain ⟨hv2l, hv2u⟩ := hv2
  have hv3 : to_float (to_double (67108864 / 539027 : ℚ)) = (16318465 / 131072 : ℚ) := by
    unfold to_float to_double
    rw [round_binary_eval 24 _ (6) 16318465 (by norm_num; linarith) (by norm_num; linarith)
      (by norm_num; linarith) (by norm_num; linarith)]
    norm_num
  unfold int_radius_binary32
  rw [hv1, hv3]
  exact lrintf_of_lt _ 125 (by norm_num) (by norm_num)

/-- Beyond the size bound of `int_radius_binary32_nearest` the machine value need not be
a nearest integer: `12692971 -> 5` has exact quotient 7615782.6 and machine value
7615782. -/
theorem int_radius_binary32_12692971_5 : int_radius_binary32 12692971 5 = 7615782 := by
  have hrf : to_float (((5 : ℕ) : ℚ) / ((12692971 : ℕ) : ℚ)) = (6929893 / 17592186044416 : ℚ) := by
    unfold to_float
    rw [round_binary_eval 24 _ (-22) 13859786 (by norm_num) (by norm_num) (by norm_num)
      (by norm_num)]
    norm_num
  have hr : radius_scaling_factor_binary32 12692971 5 = (6929893 / 17592186044416 : ℚ) := by
    unfold radius_scaling_factor_binary32
    rw [to_float_natCast 5 (by norm_num), to_float_natCast 12692971 (by norm_num), hrf]
    exact min_eq_left (by norm_num)
  have hv1 : LANCZOS_RADIUS / radius_scaling_factor_binary32 12692971 5 = (52776558133248 / 6929893 : ℚ) := by
    rw [hr]
    unfold LANCZOS_RADIUS
    norm_num
  have hv2 := round_binary_error 53 (52776558133248 / 6929893 : ℚ) (by norm_num)
  rw [abs_le] at hv2
  obtain ⟨hv2l, hv2u⟩ := hv2
  have hv3 : to_float (to_double (52776558133248 / 6929893 : ℚ)) = (15231565 / 2 : ℚ) := by
    unfold to_float to_double
    rw [round_binary_eval 24 _ (22) 15231565 (by norm_num; linarith) (by norm_num; linarith)
      (by norm_num; linarith) (by norm_num; linarith)]
    norm_num
  unfold int_radius_binary32
  rw [hv1, hv3]
  exact lrintf_tie_even _ 7615782 (by norm_num) (by decide)

/-! ## Claims -/

/-- C1: from a freshly constructed `ResampleEffect` (whatever values its uninitialised
members hold), every finite sequence of `set_float("width", v)`, `set_float("height", v)`
and `inform_input_size(0, Wi, Hi)` calls with `Wi, Hi > 0` runs without assertion failure
and ends in a state where `hpass.input = (input_width, input_height)`,
`hpass.output = (output_width, input_height)`, `vpass.input = (output_width, input_height)`
and `vpass.output = (output_width, output_height)`. -/
theorem C1_size_propagation (output_width output_height : Int) (uh uv : Indeterminate)
    (calls : List Call) (hcalls : ∀ c ∈ calls, c.admissible) :
    ∃ e0 e, ResampleEffect.new output_width output_height uh uv = some e0 ∧
      e0.run calls = some e ∧ size_propagated e := by
  have h0 := update_size_eq
    { input_width := 1280
      input_height := 720
      output_width := output_width
      output_height := output_height
      hpass := ((SingleResamplePassEffect.new uh).set_int "direction" HORIZONTAL).2
      vpass := ((SingleResamplePassEffect.new uv).set_int "direction" VERTICAL).2 }
  obtain ⟨e, he, hp⟩ :=
    run_admissible_propagated calls _ (update_size_propagated _ _ h0) hcalls
  exact ⟨_, e, h0, he, hp⟩

theorem C1_size_propagation_witness :
    (∀ c ∈ [Call.set_float "width" 640, Call.inform_input_size 0 1920 1080,
        Call.set_float "height" (721 / 2)], c.admissible) ∧
    ∃ e0 e, ResampleEffect.new 0 0 ⟨0, 0, 0⟩ ⟨0, 0, 0⟩ = some e0 ∧
      e0.run [Call.set_float "width" 640, Call.inform_input_size 0 1920 1080,
        Call.set_float "height" (721 / 2)] = some e ∧ size_propagated e :=
  ⟨by simp [Call.admissible],
    C1_size_propagation 0 0 ⟨0, 0, 0⟩ ⟨0, 0, 0⟩ _ (by simp [Call.admissible])⟩

/-- C2 (counterexample): for `src_size = 43`, `dst_size = 6` the exact quotient
`3 / min(6/43, 1)` is `21.5`, which `lrintf` would round to the even 22, giving 45
samples; the machine rounds `6.0f / 43.0f` up to a `float`, so `lrintf` receives a value
just below `21.5` and returns 21: `src_samples` is 43, not 45. -/
theorem C2_tie_counterexample :
    3 / min ((6 : ℚ) / 43) 1 = 21 + 1 / 2 ∧
      2 * lrintf (3 / min ((6 : ℚ) / 43) 1) + 1 = 45 ∧
      int_radius_binary32 43 6 = 21 ∧
      src_samples_binary32 43 6 = 43 ∧
      ¬ (src_samples_binary32 43 6 = 2 * lrintf (3 / min ((6 : ℚ) / 43) 1) + 1) := by
  have hq : 3 / min ((6 : ℚ) / 43) 1 = 21 + 1 / 2 := by
    rw [min_eq_left (by norm_num)]
    norm_num
  have hl : lrintf (3 / min ((6 : ℚ) / 43) 1) = 22 := by
    have h := lrintf_tie_odd (3 / min ((6 : ℚ) / 43) 1) 21 (by rw [hq]; norm_num) (by decide)
    rw [h]
    norm_num
  have hs : src_samples_binary32 43 6 = 43 := by
    unfold src_samples_binary32
    rw [int_radius_binary32_43_6]
    norm_num
  refine ⟨hq, ?_, int_radius_binary32_43_6, hs, ?_⟩
  · rw [hl]
    norm_num
  · rw [hs, hl]
    norm_num

/-- C2 (amended): `src_samples = 2 * int_radius + 1`, where `int_radius` is `lrintf` of the
`float` value of `3.0 / min(float(dst_size) / float(src_size), 1.0f)`.  For
`0 < src_size < 2^20` and `0 < dst_size < 2^24` this `int_radius` is a nearest integer to
`3 / min(dst_size/src_size, 1)`, so `src_samples = 2 * round(3 / min(dst_size/src_size, 1))
+ 1` with `round` as computed by `lrintf` whenever that quotient is not exactly halfway
between two integers; upsampling and identity sizes give 7 samples; `(100 -> 50)` gives
`int_radius = 6` and 13 samples, `(100 -> 100)` and `(100 -> 200)` give 7, and
`(1000 -> 100)` gives 61. -/
theorem C2_sample_count (src_size dst_size : Nat) (hs : 0 < src_size) (hd : 0 < dst_size)
    (hsb : src_size < 2 ^ 20) (hdb : dst_size < 2 ^ 24) :
    src_samples_binary32 src_size dst_size = 2 * int_radius_binary32 src_size dst_size + 1 ∧
      |(int_radius_binary32 src_size dst_size : ℚ)
          - 3 / min ((dst_size : ℚ) / (src_size : ℚ)) 1| ≤ 1 / 2 ∧
      ((∀ k : Int, 3 / min ((dst_size : ℚ) / (src_size : ℚ)) 1 ≠ (k : ℚ) + 1 / 2) →
        src_samples_binary32 src_size dst_size
          = 2 * lrintf (3 / min ((dst_size : ℚ) / (src_size : ℚ)) 1) + 1) ∧
      (src_size ≤ dst_size → src_samples_binary32 src_size dst_size = 7) ∧
      int_radius_binary32 100 50 = 6 ∧ src_samples_binary32 100 50 = 13 ∧
      src_samples_binary32 100 100 = 7 ∧ src_samples_binary32 100 200 = 7 ∧
      src_samples_binary32 1000 100 = 61 := by
  have hnear := int_radius_binary32_nearest src_size dst_size hs hd hsb hdb
  refine ⟨?_, hnear, ?_, ?_, ?_, ?_, ?_, ?_, ?_⟩
  · unfold src_samples_binary32
    ring
  · intro hx
    unfold src_samples_binary32
    rw [lrintf_eq_of_nearest _ _ hnear hx]
    ring
  · intro h
    unfold src_samples_binary32
    rw [int_radius_binary32_upsample src_size dst_size hs hdb h]
    norm_num
  · exact int_radius_binary32_downsample 50 2 (by decide) (by decide) (by norm_num)
  · unfold src_samples_binary32
    rw [int_radius_binary32_downsample 50 2 (by decide) (by decide) (by norm_num)]
    norm_num
  · unfold src_samples_binary32
    rw [int_radius_binary32_upsample 100 100 (by decide) (by norm_num) (by decide)]
    norm_num
  · unfold src_samples_binary32
    rw [int_radius_binary32_upsample 100 200 (by decide) (by norm_num) (by decide)]
    norm_num
  · unfold src_samples_binary32
    rw [int_radius_binary32_downsample 100 10 (by decide) (by decide) (by norm_num)]
    norm_num

theorem C2_sample_count_witness :
    (0 < 1000 ∧ 0 < 100 ∧ 1000 < 2 ^ 20 ∧ 100 < 2 ^ 24) ∧
    (src_samples_binary32 1000 100 = 2 * int_radius_binary32 1000 100 + 1 ∧
      |(int_radius_binary32 1000 100 : ℚ)
          - 3 / min (((100 : ℕ) : ℚ) / ((1000 : ℕ) : ℚ)) 1| ≤ 1 / 2 ∧
      ((∀ k : Int, 3 / min (((100 : ℕ) : ℚ) / ((1000 : ℕ) : ℚ)) 1 ≠ (k : ℚ) + 1 / 2) →
        src_samples_binary32 1000 100
          = 2 * lrintf (3 / min (((100 : ℕ) : ℚ) / ((1000 : ℕ) : ℚ)) 1) + 1) ∧
      (1000 ≤ 100 → src_samples_binary32 1000 100 = 7) ∧
      int_radius_binary32 100 50 = 6 ∧ src_samples_binary32 100 50 = 13 ∧
      src_samples_binary32 100 100 = 7 ∧ src_samples_binary32 100 200 = 7 ∧
      src_samples_binary32 1000 100 = 61) :=
  ⟨⟨by decide, by decide, by norm_num, by norm_num⟩,
    C2_sample_count 1000 100 (by decide) (by decide) (by norm_num) (by norm_num)⟩

/-- C3: for `src_size = dst_size = N > 0` and every destination index `y < N` the row has
7 samples, sample `i = 3` has weight 1 and normalised source coordinate `(y + 0.5)/N`
and addresses source pixel `y`, the other six samples have weight 0, the weights of the
row sum to 1, and the weighted source indices sum to `y`.  In `build(1, 1)` only
`i = 3` has a non-zero weight, with coordinate `0.5`. -/
theorem C3_identity_resample (N y : Nat) (hN : 0 < N) (hy : y < N) :
    src_samples N N = 7 ∧
      weights_w N N y 3 = 1 ∧
      weights_u N N y 3 = ((y : ℚ) + 0.5) / (N : ℚ) ∧
      (0 < weights_u N N y 3 ∧ weights_u N N y 3 < 1) ∧
      src_y N N y 3 = (y : Int) ∧
      (∀ i : Nat, i < 7 → i ≠ 3 → weights_w N N y i = 0) ∧
      row_weight_sum N N y = 1 ∧
      row_ramp_sum N N y = (y : ℝ) ∧
      (∀ i : Nat, i < 7 → (weights_w 1 1 0 i ≠ 0 ↔ i = 3)) ∧
      weights_u 1 1 0 3 = 0.5 := by
  have hs : src_samples N N = 7 := by
    simp [src_samples, int_radius_upsample N N hN le_rfl]
  have hu : weights_u N N y 3 = ((y : ℚ) + 0.5) / (N : ℚ) := by
    unfold weights_u
    rw [src_y_same N y 3 hN]
    push_cast
    norm_num
  have hNq : (0 : ℚ) < N := by exact_mod_cast hN
  have hyq : (y : ℚ) + 1 ≤ N := by exact_mod_cast hy
  have hy0 : (0 : ℚ) ≤ y := by exact_mod_cast Nat.zero_le y
  refine ⟨hs, ?_, hu, ?_, ?_, ?_, ?_, ?_, ?_, ?_⟩
  · simp [weights_w_same N y 3 hN]
  · rw [hu]
    constructor
    · apply div_pos _ hNq
      norm_num
      linarith
    · rw [div_lt_one hNq]
      norm_num
      linarith
  · rw [src_y_same N y 3 hN]
    omega
  · intro i _ hi
    simp [weights_w_same N y i hN, hi]
  · unfold row_weight_sum
    rw [hs]
    simp [Finset.sum_range_succ, weights_w_same N y _ hN]
  · unfold row_ramp_sum
    rw [hs]
    simp [Finset.sum_range_succ, weights_w_same N y _ hN, src_y_same N y _ hN]
  · intro i _
    simp [weights_w_same 1 0 i Nat.one_pos]
  · unfold weights_u
    rw [src_y_same 1 0 3 Nat.one_pos]
    norm_num

theorem C3_identity_resample_witness :
    (0 < 1 ∧ 0 < 1) ∧
    (src_samples 1 1 = 7 ∧
      weights_w 1 1 0 3 = 1 ∧
      weights_u 1 1 0 3 = (((0 : ℕ) : ℚ) + 0.5) / ((1 : ℕ) : ℚ) ∧
      (0 < weights_u 1 1 0 3 ∧ weights_u 1 1 0 3 < 1) ∧
      src_y 1 1 0 3 = ((0 : ℕ) : Int) ∧
      (∀ i : Nat, i < 7 → i ≠ 3 → weights_w 1 1 0 i = 0) ∧
      row_weight_sum 1 1 0 = 1 ∧
      row_ramp_sum 1 1 0 = ((0 : ℕ) : ℝ) ∧
      (∀ i : Nat, i < 7 → (weights_w 1 1 0 i ≠ 0 ↔ i = 3)) ∧
      weights_u 1 1 0 3 = 0.5) :=
  ⟨⟨by decide, by decide⟩, C3_identity_resample 1 0 (by decide) (by decide)⟩

/-- C4: for `k` in `{2, 3, 4}`, every `dst_size > 0` with `src_size = k * dst_size` and
every destination index `y < dst_size`, the stored weights of row `y` sum to 1 within
`2e-2`, so a constant image of value `c` is mapped to `c` within `2e-2 * |c|`. -/
theorem C4_energy_preservation (k dst_size y : Nat) (hk : k = 2 ∨ k = 3 ∨ k = 4)
    (hd : 0 < dst_size) (_hy : y < dst_size) :
    |row_weight_sum (k * dst_size) dst_size y - 1| ≤ 2e-2 ∧
      ∀ c : ℝ,
        |(∑ i in Finset.range (src_samples (k * dst_size) dst_size).toNat,
            weights_w (k * dst_size) dst_size y i * c) - c| ≤ 2e-2 * |c| := by
  have hsum : |row_weight_sum (k * dst_size) dst_size y - 1| ≤ 2e-2 := by
    unfold row_weight_sum
    rcases hk with h | h | h
    · subst h
      rw [src_samples_downsample dst_size 2 hd (by decide)]
      simp only [weights_w_half dst_size y _ hd]
      exact kernel_sum_half
    · subst h
      rw [src_samples_downsample dst_size 3 hd (by decide)]
      simp only [weights_w_third dst_size y _ hd]
      exact kernel_sum_third
    · subst h
      rw [src_samples_downsample dst_size 4 hd (by decide)]
      simp only [weights_w_quarter dst_size y _ hd]
      exact kernel_sum_quarter
  refine ⟨hsum, ?_⟩
  intro c
  rw [← Finset.sum_mul]
  have e : (∑ i in Finset.range (src_samples (k * dst_size) dst_size).toNat,
      weights_w (k * dst_size) dst_size y i) * c - c
      = (row_weight_sum (k * dst_size) dst_size y - 1) * c := by
    unfold row_weight_sum
    ring
  rw [e, abs_mul]
  exact mul_le_mul_of_nonneg_right hsum (abs_nonneg c)

theorem C4_energy_preservation_witness :
    ((2 : ℕ) = 2 ∨ (2 : ℕ) = 3 ∨ (2 : ℕ) = 4) ∧ 0 < 4 ∧ 0 < 4 ∧
    (|row_weight_sum (2 * 4) 4 0 - 1| ≤ 2e-2 ∧
      ∀ c : ℝ,
        |(∑ i in Finset.range (src_samples (2 * 4) 4).toNat,
            weights_w (2 * 4) 4 0 i * c) - c| ≤ 2e-2 * |c|) :=
  ⟨by decide, by decide, by decide,
    C4_energy_preservation 2 4 0 (by decide) (by decide) (by decide)⟩

/-- C6 (counterexample): for `src_size = 4`, `dst_size = 8` the centre computed for
`y = 7` is `(7 + 0.5) * 4 / 8 - 0.5 = 3.25`, not `3.75`. -/
theorem C6_center_seven_counterexample :
    center_src_y 4 8 7 = 3.25 ∧ ¬ (center_src_y 4 8 7 = 3.75) := by
  unfold center_src_y
  norm_num

/-- C6 (amended): `center_src_y` is `(y + 0.5) * src_size / dst_size - 0.5`, and for
`src_size = 4`, `dst_size = 8` it is `-0.25` at `y = 0`, `0.25` at `y = 1` and `3.25` at
`y = 7`. -/
theorem C6_center_pixel_convention :
    (∀ src_size dst_size y : Nat,
      center_src_y src_size dst_size y
        = ((y : ℚ) + 0.5) * (src_size : ℚ) / (dst_size : ℚ) - 0.5) ∧
    center_src_y 4 8 0 = -0.25 ∧ center_src_y 4 8 1 = 0.25 ∧ center_src_y 4 8 7 = 3.25 := by
  refine ⟨?_, ?_, ?_, ?_⟩
  · intro s d y
    unfold center_src_y
    norm_num
  all_goals
    unfold center_src_y
    norm_num

/-- C7 (counterexample): in `build(8, 4)` the centre of row `y = 0` is `0.5`, a tie, which
`lrintf` rounds to the even neighbour: `base_src_y` is 0, not 1, and the first sample is
source pixel `-6`, not `-5`. -/
theorem C7_base_counterexample :
    center_src_y 8 4 0 = 0.5 ∧ base_src_y 8 4 0 = 0 ∧ ¬ (base_src_y 8 4 0 = 1) ∧
      ¬ (src_y 8 4 0 0 = 1 - 6) := by
  refine ⟨?_, base_src_y_8_4_0, ?_, ?_⟩
  · rw [center_src_y_8_4_0]
    norm_num
  · rw [base_src_y_8_4_0]
    decide
  · unfold src_y
    rw [base_src_y_8_4_0, int_radius_8_4]
    decide

/-- C7 (amended): `build(8, 4)` has `radius_scaling_factor = 0.5`, `int_radius = 6` and
`src_samples = 13`; for `y = 0` the centre is `0.5` and `base_src_y = 0`, so the 13
samples are the source pixels `0-6 .. 0+6`, and each stored weight is
`lanczos_weight(0.5 * (src_y - 0.5), 3) * 0.5`. -/
theorem C7_build_8_4 (i : Nat) (hi : i < 13) :
    radius_scaling_factor 8 4 = 0.5 ∧ int_radius 8 4 = 6 ∧ src_samples 8 4 = 13 ∧
      center_src_y 8 4 0 = 0.5 ∧ base_src_y 8 4 0 = 0 ∧
      src_y 8 4 0 i = 0 + (i : Int) - 6 ∧
      (-6 ≤ src_y 8 4 0 i ∧ src_y 8 4 0 i ≤ 6) ∧
      weights_w 8 4 0 i
        = lanczos_weight (0.5 * (((src_y 8 4 0 i : ℤ) : ℝ) - 0.5)) 3 * 0.5 := by
  have hsy : src_y 8 4 0 i = 0 + (i : Int) - 6 := by
    unfold src_y
    rw [base_src_y_8_4_0, int_radius_8_4]
  refine ⟨?_, int_radius_8_4, ?_, ?_, base_src_y_8_4_0, hsy, ?_, ?_⟩
  · rw [radius_scaling_factor_8_4]
    norm_num
  · simp [src_samples, int_radius_8_4]
  · rw [center_src_y_8_4_0]
    norm_num
  · rw [hsy]
    omega
  · unfold weights_w weight
    rw [radius_scaling_factor_8_4, center_src_y_8_4_0]
    have e3 : ((LANCZOS_RADIUS : ℚ) : ℝ) = 3 := by
      unfold LANCZOS_RADIUS
      norm_num
    rw [e3]
    push_cast
    norm_num

theorem C7_build_8_4_witness :
    (12 < 13) ∧
    (radius_scaling_factor 8 4 = 0.5 ∧ int_radius 8 4 = 6 ∧ src_samples 8 4 = 13 ∧
      center_src_y 8 4 0 = 0.5 ∧ base_src_y 8 4 0 = 0 ∧
      src_y 8 4 0 12 = 0 + ((12 : ℕ) : Int) - 6 ∧
      (-6 ≤ src_y 8 4 0 12 ∧ src_y 8 4 0 12 ≤ 6) ∧
      weights_w 8 4 0 12
        = lanczos_weight (0.5 * (((src_y 8 4 0 12 : ℤ) : ℝ) - 0.5)) 3 * 0.5) :=
  ⟨by decide, C7_build_8_4 12 (by decide)⟩

/-- C8 (counterexample): a horizontal pass with `input_width = 0` (so `src_size = 0`) and
equal heights passes the assertions of `update_texture`, which goes on to build and
upload the table; the build succeeds although a size is zero. -/
theorem C8_zero_size_counterexample :
    SingleResamplePassEffect.resample_sizes
        { direction := HORIZONTAL, input_width := 0, input_height := 720,
          output_width := 1280, output_height := 720,
          last_input_width := -1, last_input_height := -1,
          last_output_width := -1, last_output_height := -1, src_samples := 0 }
      = some (0, 1280) ∧
    (SingleResamplePassEffect.update_texture
        { direction := HORIZONTAL, input_width := 0, input_height := 720,
          output_width := 1280, output_height := 720,
          last_input_width := -1, last_input_height := -1,
          last_output_width := -1, last_output_height := -1, src_samples := 0 }
        { tex_uploads := 0, tex_width := 0, tex_height := 0, sample_tex := 0,
          num_samples := 0, sample_x_scale := 0, sample_x_offset := 0 }).isSome = true := by
  constructor
  · decide
  · rw [update_texture_isSome]
    decide

/-- C8 (amended): `update_texture` has no zero-size check.  It succeeds exactly when the
direction invariant holds (horizontal pass with `input_height == output_height`, or
vertical pass with `input_width == output_width`) and fails its assertion otherwise,
whatever the values of `src_size` and `dst_size`, zero included. -/
theorem C8_update_texture_assertions (p : SingleResamplePassEffect) (gl : GLState) :
    ((p.update_texture gl).isSome = true ↔ direction_invariant p) ∧
      (p.update_texture gl = none ↔ ¬ direction_invariant p) := by
  refine ⟨update_texture_isSome p gl, ?_⟩
  rw [← Option.not_isSome_iff_eq_none, update_texture_isSome]

/-- C9 (counterexample): a horizontal pass 1280x720 -> 640x720 is drawn once (one
rebuild); then `input_height` alone is changed to 1080, which breaks
`input_height == output_height`, and the next `set_gl_state` fails the assertion in
`update_texture` instead of rebuilding. -/
theorem C9_single_change_counterexample :
    ∃ r, SingleResamplePassEffect.set_gl_state
        { direction := HORIZONTAL, input_width := 1280, input_height := 720,
          output_width := 640, output_height := 720,
          last_input_width := -1, last_input_height := -1,
          last_output_width := -1, last_output_height := -1, src_samples := 0 }
        { tex_uploads := 0, tex_width := 0, tex_height := 0, sample_tex := 0,
          num_samples := 0, sample_x_scale := 0, sample_x_offset := 0 }
        (fun _ => 0) 0 = some r ∧
      r.gl.tex_uploads = 1 ∧
      r.pass.input_height = 720 ∧
      (r.pass.set_int "input_height" 1080).2.set_gl_state r.gl r.mem 0 = none := by
  obtain ⟨r, hr, hcur, h1, h2, h3, h4, h5, h6⟩ := set_gl_state_rebuild
    { direction := HORIZONTAL, input_width := 1280, input_height := 720,
      output_width := 640, output_height := 720,
      last_input_width := -1, last_input_height := -1,
      last_output_width := -1, last_output_height := -1, src_samples := 0 }
    { tex_uploads := 0, tex_width := 0, tex_height := 0, sample_tex := 0,
      num_samples := 0, sample_x_scale := 0, sample_x_offset := 0 }
    (fun _ => 0) 0 (by decide) (by decide)
  refine ⟨r, hr, by simpa using h6, h2, ?_⟩
  obtain ⟨c1, c2, c3, c4⟩ := hcur
  apply set_gl_state_abort
  · simp [cache_current, SingleResamplePassEffect.set_int, c2, h2]
  · simp [direction_invariant, SingleResamplePassEffect.set_int, h5, h4, HORIZONTAL, VERTICAL]

/-- C9 (amended): for a pass with positive sizes, satisfying its direction invariant and
with the cache as constructed (`last_* = -1`): the first `set_gl_state` uploads the weight
texture once and leaves `last_*` equal to the sizes; a second `set_gl_state` with the same
sizes uploads nothing and leaves the pass unchanged; and after the sizes are changed so
that at least one of the four differs, the next `set_gl_state` uploads exactly once and
leaves `last_*` equal to the new sizes when the new sizes satisfy the direction
invariant, and fails the assertion of `update_texture` when they do not. -/
theorem C9_lazy_rebuild (p : SingleResamplePassEffect) (gl : GLState) (mem : Nat → Nat)
    (s : Nat)
    (hpos : 0 < p.input_width ∧ 0 < p.input_height ∧ 0 < p.output_width ∧
      0 < p.output_height)
    (hinv : direction_invariant p)
    (hnew : p.last_input_width = -1 ∧ p.last_input_height = -1 ∧
      p.last_output_width = -1 ∧ p.last_output_height = -1) :
    ∃ r1 r2,
      p.set_gl_state gl mem s = some r1 ∧
      r1.gl.tex_uploads = gl.tex_uploads + 1 ∧ cache_current r1.pass ∧
      r1.pass.direction = p.direction ∧
      (r1.pass.input_width = p.input_width ∧ r1.pass.input_height = p.input_height ∧
        r1.pass.output_width = p.output_width ∧ r1.pass.output_height = p.output_height) ∧
      r1.pass.set_gl_state r1.gl mem s = some r2 ∧
      r2.gl.tex_uploads = r1.gl.tex_uploads ∧ r2.pass = r1.pass ∧
      ∀ iw ih ow oh : Int,
        (iw ≠ r2.pass.input_width ∨ ih ≠ r2.pass.input_height ∨
          ow ≠ r2.pass.output_width ∨ oh ≠ r2.pass.output_height) →
        (direction_invariant (r2.pass.with_sizes iw ih ow oh) →
          ∃ r3, (r2.pass.with_sizes iw ih ow oh).set_gl_state r2.gl mem s = some r3 ∧
            r3.gl.tex_uploads = r2.gl.tex_uploads + 1 ∧ cache_current r3.pass ∧
            (r3.pass.input_width = iw ∧ r3.pass.input_height = ih ∧
              r3.pass.output_width = ow ∧ r3.pass.output_height = oh)) ∧
        (¬ direction_invariant (r2.pass.with_sizes iw ih ow oh) →
          (r2.pass.with_sizes iw ih ow oh).set_gl_state r2.gl mem s = none) := by
  obtain ⟨p1, p2, p3, p4⟩ := hpos
  obtain ⟨n1, n2, n3, n4⟩ := hnew
  have hc : ¬ cache_current p := by
    intro h
    have := h.1
    omega
  obtain ⟨r1, hr1, hcur1, a1, a2, a3, a4, a5, a6⟩ := set_gl_state_rebuild p gl mem s hc hinv
  have hr2 := set_gl_state_cached r1.pass r1.gl mem s hcur1
  refine ⟨r1, _, hr1, a6, hcur1, a5, ⟨a1, a2, a3, a4⟩, hr2, rfl, rfl, ?_⟩
  intro iw ih ow oh hdiff
  have hq : ¬ cache_current ((r1.pass.publish r1.gl mem s).pass.with_sizes iw ih ow oh) := by
    obtain ⟨c1, c2, c3, c4⟩ := hcur1
    intro h
    obtain ⟨d1, d2, d3, d4⟩ := h
    simp only [SingleResamplePassEffect.publish, SingleResamplePassEffect.with_sizes] at d1 d2 d3 d4 hdiff
    rcases hdiff with h | h | h | h
    · exact h (by rw [← d1, c1])
    · exact h (by rw [← d2, c2])
    · exact h (by rw [← d3, c3])
    · exact h (by rw [← d4, c4])
  constructor
  · intro hd
    obtain ⟨r3, hr3, hcur3, b1, b2, b3, b4, _, b6⟩ :=
      set_gl_state_rebuild _ (r1.pass.publish r1.gl mem s).gl mem s hq hd
    exact ⟨r3, hr3, b6, hcur3, b1, b2, b3, b4⟩
  · intro hd
    exact set_gl_state_abort _ _ mem s hq hd

theorem C9_lazy_rebuild_witness :
    ((0 : Int) < 1280 ∧ (0 : Int) < 720 ∧ (0 : Int) < 640 ∧ (0 : Int) < 720) ∧
    direction_invariant hpass_fixture ∧
    ∃ r1 r2,
      hpass_fixture.set_gl_state gl_fixture (fun _ => 0) 0 = some r1 ∧
      r1.gl.tex_uploads = gl_fixture.tex_uploads + 1 ∧ cache_current r1.pass ∧
      r1.pass.direction = hpass_fixture.direction ∧
      (r1.pass.input_width = hpass_fixture.input_width ∧
        r1.pass.input_height = hpass_fixture.input_height ∧
        r1.pass.output_width = hpass_fixture.output_width ∧
        r1.pass.output_height = hpass_fixture.output_height) ∧
      r1.pass.set_gl_state r1.gl (fun _ => 0) 0 = some r2 ∧
      r2.gl.tex_uploads = r1.gl.tex_uploads ∧ r2.pass = r1.pass ∧
      ∀ iw ih ow oh : Int,
        (iw ≠ r2.pass.input_width ∨ ih ≠ r2.pass.input_height ∨
          ow ≠ r2.pass.output_width ∨ oh ≠ r2.pass.output_height) →
        (direction_invariant (r2.pass.with_sizes iw ih ow oh) →
          ∃ r3, (r2.pass.with_sizes iw ih ow oh).set_gl_state r2.gl (fun _ => 0) 0 = some r3 ∧
            r3.gl.tex_uploads = r2.gl.tex_uploads + 1 ∧ cache_current r3.pass ∧
            (r3.pass.input_width = iw ∧ r3.pass.input_height = ih ∧
              r3.pass.output_width = ow ∧ r3.pass.output_height = oh)) ∧
        (¬ direction_invariant (r2.pass.with_sizes iw ih ow oh) →
          (r2.pass.with_sizes iw ih ow oh).set_gl_state r2.gl (fun _ => 0) 0 = none) :=
  ⟨by decide, by decide,
    C9_lazy_rebuild hpass_fixture gl_fixture (fun _ => 0) 0 (by decide) (by decide)
      (by decide)⟩

/-- C10 (code at the failing input): whenever `set_gl_state` returns, the memory cell
that `sampler_num` points to holds the value it held before the call, not that value plus
one: the statement `++sampler_num` only advances the local pointer.  The uniform
`sample_tex` is published with that (old and unchanged) value. -/
theorem C10_sampler_slot_unchanged (p : SingleResamplePassEffect) (gl : GLState)
    (mem : Nat → Nat) (sampler_num : Nat) (r : GLCall)
    (h : p.set_gl_state gl mem sampler_num = some r) :
    r.mem sampler_num = mem sampler_num ∧ r.mem sampler_num ≠ mem sampler_num + 1 ∧
      r.mem = mem ∧ r.sampler_num = sampler_num + 1 ∧
      r.gl.sample_tex = mem sampler_num := by
  unfold SingleResamplePassEffect.set_gl_state at h
  simp only [Option.map_eq_some'] at h
  obtain ⟨a, _, ha⟩ := h
  subst ha
  simp [SingleResamplePassEffect.publish]

theorem C10_sampler_slot_unchanged_witness :
    ∃ r, hpass_fixture.set_gl_state gl_fixture (fun _ => 4) 0 = some r ∧
      (r.mem 0 = 4 ∧ r.mem 0 ≠ 4 + 1 ∧
        r.mem = (fun _ => 4) ∧ r.sampler_num = 0 + 1 ∧ r.gl.sample_tex = 4) := by
  obtain ⟨r, hr, _⟩ := set_gl_state_rebuild hpass_fixture gl_fixture (fun _ => 4) 0
    (by decide) (by decide)
  exact ⟨r, hr, C10_sampler_slot_unchanged hpass_fixture gl_fixture (fun _ => 4) 0 r hr⟩

/-! ## Helper lemmas for the second group of claims -/

theorem inform_input_size_eq (e : ResampleEffect) (width height : Nat)
    (hw : width ≠ 0) (hh : height ≠ 0) :
    e.inform_input_size 0 width height = ResampleEffect.update_size
      { e with input_width := unsigned_to_int width, input_height := unsigned_to_int height } := by
  simp [ResampleEffect.inform_input_size, hw, hh]

theorem unsigned_to_int_small (n : Nat) (h : n < 2 ^ 31) : unsigned_to_int n = (n : Int) := by
  unfold unsigned_to_int
  have h1 : n % 2 ^ 32 = n := Nat.mod_eq_of_lt (by omega)
  rw [h1, if_pos h]

theorem update_size_directions (e e1 : ResampleEffect) (h : e.update_size = some e1) :
    e1.hpass.direction = e.hpass.direction ∧ e1.vpass.direction = e.vpass.direction := by
  rw [update_size_eq] at h
  cases h
  simp

theorem call_admissible_consistent (e : ResampleEffect) (c : Call) (hc : c.admissible)
    (he : owned_passes_consistent e) :
    ∃ e1, e.call c = some e1 ∧ owned_passes_consistent e1 := by
  obtain ⟨_, hh, hv⟩ := he
  cases c with
  | set_float key value =>
    rcases hc with hk | hk
    · subst hk
      have h := update_size_eq { e with output_width := float_to_int value }
      have hd := update_size_directions _ _ h
      exact ⟨_, by simp [ResampleEffect.call, ResampleEffect.set_float, h],
        update_size_propagated _ _ h, by rw [hd.1]; exact hh, by rw [hd.2]; exact hv⟩
    · subst hk
      have h := update_size_eq { e with output_height := float_to_int value }
      have hd := update_size_directions _ _ h
      exact ⟨_, by simp [ResampleEffect.call, ResampleEffect.set_float, h],
        update_size_propagated _ _ h, by rw [hd.1]; exact hh, by rw [hd.2]; exact hv⟩
  | inform_input_size input_num width height =>
    obtain ⟨h0, hw, hht⟩ := hc
    subst h0
    have h := update_size_eq
      { e with input_width := unsigned_to_int width, input_height := unsigned_to_int height }
    have hd := update_size_directions _ _ h
    exact ⟨_, by simp [ResampleEffect.call, ResampleEffect.inform_input_size, h,
        Nat.pos_iff_ne_zero.mp hw, Nat.pos_iff_ne_zero.mp hht],
      update_size_propagated _ _ h, by rw [hd.1]; exact hh, by rw [hd.2]; exact hv⟩

theorem run_admissible_consistent (calls : List Call) :
    ∀ e : ResampleEffect, owned_passes_consistent e → (∀ c ∈ calls, c.admissible) →
      ∃ e1, e.run calls = some e1 ∧ owned_passes_consistent e1 := by
  induction calls with
  | nil => intro e he _; exact ⟨e, rfl, he⟩
  | cons c cs ih =>
    intro e he hall
    obtain ⟨e1, h1, hp1⟩ :=
      call_admissible_consistent e c (hall c (List.mem_cons_self _ _)) he
    obtain ⟨e2, h2, hp2⟩ := ih e1 hp1 (fun d hd => hall d (List.mem_cons_of_mem _ hd))
    exact ⟨e2, by simp [ResampleEffect.run, h1, h2], hp2⟩

theorem new_eq (output_width output_height : Int) (uh uv : Indeterminate) :
    ResampleEffect.new output_width output_height uh uv = some
      { input_width := 1280
        input_height := 720
        output_width := output_width
        output_height := output_height
        hpass :=
          { direction := HORIZONTAL
            input_width := 1280
            input_height := 720
            output_width := output_width
            output_height := 720
            last_input_width := -1
            last_input_height := -1
            last_output_width := -1
            last_output_height := -1
            src_samples := uh.src_samples }
        vpass :=
          { direction := VERTICAL
            input_width := output_width
            input_height := 720
            output_width := output_width
            output_height := output_height
            last_input_width := -1
            last_input_height := -1
            last_output_width := -1
            last_output_height := -1
            src_samples := uv.src_samples } } := by
  unfold ResampleEffect.new
  rw [update_size_eq]
  simp [SingleResamplePassEffect.new, SingleResamplePassEffect.set_int]

theorem new_consistent (output_width output_height : Int) (uh uv : Indeterminate) :
    ∃ e0, ResampleEffect.new output_width output_height uh uv = some e0 ∧
      owned_passes_consistent e0 :=
  ⟨_, new_eq output_width output_height uh uv, by
    simp [owned_passes_consistent, size_propagated]⟩

/-! ## Claims C11 to C20 -/

/-- C11: `inform_input_size(input_num, width, height)` fails its assertions if and only
if `input_num != 0` or `width == 0` or `height == 0`; otherwise it stores `width` and
`height` (converted to `int`) in `input_width` and `input_height`, leaves `output_width`
and `output_height` unchanged, and re-propagates the sizes to both passes. -/
theorem C11_inform_input_size (e : ResampleEffect) (input_num width height : Nat) :
    (e.inform_input_size input_num width height = none ↔
      input_num ≠ 0 ∨ width = 0 ∨ height = 0) ∧
    (input_num = 0 ∧ width ≠ 0 ∧ height ≠ 0 →
      ∃ e1, e.inform_input_size input_num width height = some e1 ∧
        e1.input_width = unsigned_to_int width ∧
        e1.input_height = unsigned_to_int height ∧
        (width < 2 ^ 31 → e1.input_width = (width : Int)) ∧
        (height < 2 ^ 31 → e1.input_height = (height : Int)) ∧
        e1.output_width = e.output_width ∧ e1.output_height = e.output_height ∧
        size_propagated e1) := by
  constructor
  · unfold ResampleEffect.inform_input_size
    by_cases h0 : input_num = 0
    · by_cases hw : width = 0
      · simp [h0, hw]
      · by_cases hh : height = 0
        · simp [h0, hw, hh]
        · simp [h0, hw, hh, update_size_eq]
    · simp [h0]
  · rintro ⟨h0, hw, hh⟩
    subst h0
    have h := update_size_eq
      { e with input_width := unsigned_to_int width, input_height := unsigned_to_int height }
    refine ⟨_, (inform_input_size_eq e width height hw hh).trans h, rfl, rfl, ?_, ?_, rfl, rfl,
      update_size_propagated _ _ h⟩
    · intro hlt
      exact unsigned_to_int_small width hlt
    · intro hlt
      exact unsigned_to_int_small height hlt

theorem C11_inform_input_size_witness :
    ((0 : ℕ) = 0 ∧ (1920 : ℕ) ≠ 0 ∧ (1080 : ℕ) ≠ 0) ∧
    ∃ e1, ResampleEffect.inform_input_size
        { input_width := 1280, input_height := 720, output_width := 640, output_height := 360,
          hpass := hpass_fixture, vpass := hpass_fixture } 0 1920 1080 = some e1 ∧
      e1.input_width = unsigned_to_int 1920 ∧
      e1.input_height = unsigned_to_int 1080 ∧
      (1920 < 2 ^ 31 → e1.input_width = ((1920 : ℕ) : Int)) ∧
      (1080 < 2 ^ 31 → e1.input_height = ((1080 : ℕ) : Int)) ∧
      e1.output_width = 640 ∧ e1.output_height = 360 ∧
      size_propagated e1 :=
  ⟨by decide,
    (C11_inform_input_size
      { input_width := 1280, input_height := 720, output_width := 640, output_height := 360,
        hpass := hpass_fixture, vpass := hpass_fixture } 0 1920 1080).2 (by decide)⟩
theorem rewrite_graph_edges (graph : EffectChain) (self : Nat) :
    (ResampleEffect.rewrite_graph graph self).graph.edges
      = (graph.edges ++ [(graph.nodes.length, graph.nodes.length + 1)]).map
          (retarget self graph.nodes.length (graph.nodes.length + 1)) := by
  simp [ResampleEffect.rewrite_graph, EffectChain.add_node, EffectChain.connect_nodes,
    EffectChain.replace_receiver, EffectChain.replace_sender, retarget, Function.comp_def]

theorem get?_append_pair (l : List EffectRef) (a b : EffectRef) :
    (l ++ [a, b]).get? l.length = some a ∧ (l ++ [a, b]).get? (l.length + 1) = some b := by
  induction l with
  | nil => simp
  | cons x xs ih => simpa using ih

theorem rewrite_graph_nodes (graph : EffectChain) (self : Nat) :
    (ResampleEffect.rewrite_graph graph self).graph.nodes
      = graph.nodes ++ [EffectRef.hpass, EffectRef.vpass] := by
  simp [ResampleEffect.rewrite_graph, EffectChain.add_node, EffectChain.connect_nodes,
    EffectChain.replace_receiver, EffectChain.replace_sender]

/-- C12: in the graph model where `add_node` creates a fresh node, `connect_nodes` adds
an edge and `replace_receiver` / `replace_sender` retarget every edge into / out of the
old node, `rewrite_graph(graph, self)` for a node `self` of the graph creates nodes
wrapping `hpass` and `vpass`, maps every earlier edge by replacing `self` as receiver
with the `hpass` node and `self` as sender with the `vpass` node, so that every edge that
targeted `self` targets the `hpass` node, every edge sourced from `self` is sourced from
the `vpass` node, no edge is incident to `self`, the edge `hpass -> vpass` exists, and
`self` is disabled. -/
theorem C12_rewrite_graph (graph : EffectChain) (self : Nat)
    (hself : self < graph.nodes.length) :
    let r := ResampleEffect.rewrite_graph graph self
    r.graph.nodes.get? r.hpass_node = some EffectRef.hpass ∧
    r.graph.nodes.get? r.vpass_node = some EffectRef.vpass ∧
    r.graph.edges
      = graph.edges.map (retarget self r.hpass_node r.vpass_node)
          ++ [(r.hpass_node, r.vpass_node)] ∧
    (∀ e ∈ graph.edges, e.2 = self →
      retarget self r.hpass_node r.vpass_node e ∈ r.graph.edges ∧
      (retarget self r.hpass_node r.vpass_node e).2 = r.hpass_node) ∧
    (∀ e ∈ graph.edges, e.1 = self →
      retarget self r.hpass_node r.vpass_node e ∈ r.graph.edges ∧
      (retarget self r.hpass_node r.vpass_node e).1 = r.vpass_node) ∧
    (∀ e ∈ r.graph.edges, e.1 ≠ self ∧ e.2 ≠ self) ∧
    (r.hpass_node, r.vpass_node) ∈ r.graph.edges ∧
    self ∈ r.graph.disabled := by
  intro r
  have hh : r.hpass_node = graph.nodes.length := rfl
  have hv : r.vpass_node = graph.nodes.length + 1 := by
    simp [r, ResampleEffect.rewrite_graph, EffectChain.add_node]
  have hedges : r.graph.edges
      = graph.edges.map (retarget self r.hpass_node r.vpass_node)
          ++ [(r.hpass_node, r.vpass_node)] := by
    rw [hh, hv]
    show (ResampleEffect.rewrite_graph graph self).graph.edges = _
    rw [rewrite_graph_edges, List.map_append]
    have h1 : graph.nodes.length ≠ self := by omega
    have h2 : graph.nodes.length + 1 ≠ self := by omega
    simp [retarget, h1, h2]
  have hnodes : r.graph.nodes = graph.nodes ++ [EffectRef.hpass, EffectRef.vpass] :=
    rewrite_graph_nodes graph self
  refine ⟨?_, ?_, hedges, ?_, ?_, ?_, ?_, ?_⟩
  · rw [hnodes, hh]
    exact (get?_append_pair graph.nodes _ _).1
  · rw [hnodes, hv]
    exact (get?_append_pair graph.nodes _ _).2
  · intro e he h2
    constructor
    · rw [hedges]
      exact List.mem_append_left _ (List.mem_map_of_mem _ he)
    · simp [retarget, h2]
  · intro e he h1
    constructor
    · rw [hedges]
      exact List.mem_append_left _ (List.mem_map_of_mem _ he)
    · simp [retarget, h1]
  · intro e he
    rw [hedges, List.mem_append] at he
    rcases he with he | he
    · obtain ⟨e0, _, rfl⟩ := List.mem_map.mp he
      constructor
      · unfold retarget
        by_cases h : e0.1 = self
        · simp only [h, if_true]
          omega
        · simp only [h, if_false]
          exact h
      · unfold retarget
        by_cases h : e0.2 = self
        · simp only [h, if_true]
          omega
        · simp only [h, if_false]
          exact h
    · simp only [List.mem_singleton] at he
      rw [he]
      constructor
      · show r.hpass_node ≠ self
        omega
      · show r.vpass_node ≠ self
        omega
  · rw [hedges]
    simp
  · simp [r, ResampleEffect.rewrite_graph]

theorem C12_rewrite_graph_witness :
    (1 < [EffectRef.other 0, EffectRef.other 1, EffectRef.other 2].length) ∧
    (let r := ResampleEffect.rewrite_graph
        { nodes := [EffectRef.other 0, EffectRef.other 1, EffectRef.other 2]
          edges := [(0, 1), (1, 2)]
          disabled := [] } 1
    r.graph.nodes.get? r.hpass_node = some EffectRef.hpass ∧
    r.graph.nodes.get? r.vpass_node = some EffectRef.vpass ∧
    r.graph.edges
      = [(0, 1), (1, 2)].map (retarget 1 r.hpass_node r.vpass_node)
          ++ [(r.hpass_node, r.vpass_node)] ∧
    (∀ e ∈ [(0, 1), (1, 2)], e.2 = 1 →
      retarget 1 r.hpass_node r.vpass_node e ∈ r.graph.edges ∧
      (retarget 1 r.hpass_node r.vpass_node e).2 = r.hpass_node) ∧
    (∀ e ∈ [(0, 1), (1, 2)], e.1 = 1 →
      retarget 1 r.hpass_node r.vpass_node e ∈ r.graph.edges ∧
      (retarget 1 r.hpass_node r.vpass_node e).1 = r.vpass_node) ∧
    (∀ e ∈ r.graph.edges, e.1 ≠ 1 ∧ e.2 ≠ 1) ∧
    (r.hpass_node, r.vpass_node) ∈ r.graph.edges ∧
    1 ∈ r.graph.disabled) :=
  ⟨by decide,
    C12_rewrite_graph
      { nodes := [EffectRef.other 0, EffectRef.other 1, EffectRef.other 2]
        edges := [(0, 1), (1, 2)]
        disabled := [] } 1 (by decide)⟩

/-- C13 (counterexample): constructed in memory whose indeterminate words are 0, the
`ResampleEffect` has `output_width = 0` and `output_height = 0`, not 1280 and 720; these
are the output values the constructor propagates to the passes. -/
theorem C13_default_output_counterexample :
    ∃ e, ResampleEffect.new 0 0 ⟨0, 0, 0⟩ ⟨0, 0, 0⟩ = some e ∧
      e.input_width = 1280 ∧ e.input_height = 720 ∧
      e.output_width = 0 ∧ e.output_height = 0 ∧
      ¬ (e.output_width = 1280 ∧ e.output_height = 720) ∧
      e.hpass.output_width = 0 ∧ e.vpass.output_height = 0 :=
  ⟨_, new_eq 0 0 ⟨0, 0, 0⟩ ⟨0, 0, 0⟩, rfl, rfl, rfl, rfl, by decide, rfl, rfl⟩

/-- C13 (amended): a freshly constructed `ResampleEffect` has input size `(1280, 720)`;
its `output_width` and `output_height` are whatever the uninitialised members hold, and
the constructor's `update_size` call propagates exactly these values:
`hpass` is horizontal with input `(1280, 720)` and output `(output_width, 720)`, `vpass`
is vertical with input `(output_width, 720)` and output `(output_width, output_height)`;
both passes have `last_* = -1`. -/
theorem C13_default_construction (output_width output_height : Int)
    (uh uv : Indeterminate) :
    ∃ e, ResampleEffect.new output_width output_height uh uv = some e ∧
      (e.input_width = 1280 ∧ e.input_height = 720) ∧
      (e.output_width = output_width ∧ e.output_height = output_height) ∧
      (e.hpass.direction = HORIZONTAL ∧ e.vpass.direction = VERTICAL) ∧
      (e.hpass.input_width = 1280 ∧ e.hpass.input_height = 720) ∧
      (e.hpass.output_width = output_width ∧ e.hpass.output_height = 720) ∧
      (e.vpass.input_width = output_width ∧ e.vpass.input_height = 720) ∧
      (e.vpass.output_width = output_width ∧ e.vpass.output_height = output_height) ∧
      (e.hpass.last_input_width = -1 ∧ e.hpass.last_input_height = -1 ∧
        e.hpass.last_output_width = -1 ∧ e.hpass.last_output_height = -1) ∧
      (e.vpass.last_input_width = -1 ∧ e.vpass.last_input_height = -1 ∧
        e.vpass.last_output_width = -1 ∧ e.vpass.last_output_height = -1) :=
  ⟨_, new_eq output_width output_height uh uv,
    ⟨rfl, rfl⟩, ⟨rfl, rfl⟩, ⟨rfl, rfl⟩, ⟨rfl, rfl⟩, ⟨rfl, rfl⟩, ⟨rfl, rfl⟩, ⟨rfl, rfl⟩,
    ⟨rfl, rfl, rfl, rfl⟩, ⟨rfl, rfl, rfl, rfl⟩⟩

theorem resample_sizes_horizontal (p : SingleResamplePassEffect)
    (hd : p.direction = HORIZONTAL) (h : p.input_height = p.output_height) :
    p.resample_sizes = some (int_to_unsigned p.input_width, int_to_unsigned p.output_width) := by
  simp [SingleResamplePassEffect.resample_sizes, hd, h]

theorem resample_sizes_vertical (p : SingleResamplePassEffect)
    (hd : p.direction = VERTICAL) (h : p.input_width = p.output_width) :
    p.resample_sizes = some (int_to_unsigned p.input_height, int_to_unsigned p.output_height) := by
  have hv : VERTICAL ≠ HORIZONTAL := by decide
  simp [SingleResamplePassEffect.resample_sizes, hd, h, hv]

/-- C15: in every state reached from a constructed `ResampleEffect` by `set_float` on
`"width"` / `"height"` and valid `inform_input_size` calls, `hpass` is horizontal with
`input_height == output_height` and `vpass` is vertical with
`input_width == output_width`; hence `update_texture` passes its direction assertions on
both, taking `(src_size, dst_size) = (input_width, output_width)` for `hpass` and
`(input_height, output_height)` for `vpass`. -/
theorem C15_direction_assertions (output_width output_height : Int) (uh uv : Indeterminate)
    (calls : List Call) (hcalls : ∀ c ∈ calls, c.admissible) :
    ∃ e0 e, ResampleEffect.new output_width output_height uh uv = some e0 ∧
      e0.run calls = some e ∧
      (e.hpass.direction = HORIZONTAL ∧ e.hpass.input_height = e.hpass.output_height) ∧
      (e.vpass.direction = VERTICAL ∧ e.vpass.input_width = e.vpass.output_width) ∧
      e.hpass.resample_sizes
        = some (int_to_unsigned e.hpass.input_width, int_to_unsigned e.hpass.output_width) ∧
      e.vpass.resample_sizes
        = some (int_to_unsigned e.vpass.input_height, int_to_unsigned e.vpass.output_height) ∧
      (e.hpass.input_width = e.input_width ∧ e.hpass.output_width = e.output_width ∧
        e.vpass.input_height = e.input_height ∧ e.vpass.output_height = e.output_height) ∧
      ∀ gl : GLState,
        (e.hpass.update_texture gl).isSome = true ∧
        (e.vpass.update_texture gl).isSome = true := by
  obtain ⟨e0, h0, hc0⟩ := new_consistent output_width output_height uh uv
  obtain ⟨e, he, hc⟩ := run_admissible_consistent calls e0 hc0 hcalls
  obtain ⟨⟨⟨a1, a2⟩, ⟨a3, a4⟩, ⟨a5, a6⟩, ⟨a7, a8⟩⟩, dh, dv⟩ := hc
  have ih : e.hpass.input_height = e.hpass.output_height := by rw [a2, a4]
  have iv : e.vpass.input_width = e.vpass.output_width := by rw [a5, a7]
  refine ⟨e0, e, h0, he, ⟨dh, ih⟩, ⟨dv, iv⟩, resample_sizes_horizontal _ dh ih,
    resample_sizes_vertical _ dv iv, ⟨a1, a3, a6, a8⟩, ?_⟩
  intro gl
  exact ⟨(update_texture_isSome _ gl).mpr (Or.inl ⟨dh, ih⟩),
    (update_texture_isSome _ gl).mpr (Or.inr ⟨dv, iv⟩)⟩

theorem C15_direction_assertions_witness :
    (∀ c ∈ [Call.inform_input_size 0 1920 1080, Call.set_float "width" 960,
        Call.set_float "height" 540], c.admissible) ∧
    ∃ e0 e, ResampleEffect.new 0 0 ⟨0, 0, 0⟩ ⟨0, 0, 0⟩ = some e0 ∧
      e0.run [Call.inform_input_size 0 1920 1080, Call.set_float "width" 960,
        Call.set_float "height" 540] = some e ∧
      (e.hpass.direction = HORIZONTAL ∧ e.hpass.input_height = e.hpass.output_height) ∧
      (e.vpass.direction = VERTICAL ∧ e.vpass.input_width = e.vpass.output_width) ∧
      e.hpass.resample_sizes
        = some (int_to_unsigned e.hpass.input_width, int_to_unsigned e.hpass.output_width) ∧
      e.vpass.resample_sizes
        = some (int_to_unsigned e.vpass.input_height, int_to_unsigned e.vpass.output_height) ∧
      (e.hpass.input_width = e.input_width ∧ e.hpass.output_width = e.output_width ∧
        e.vpass.input_height = e.input_height ∧ e.vpass.output_height = e.output_height) ∧
      ∀ gl : GLState,
        (e.hpass.update_texture gl).isSome = true ∧
        (e.vpass.update_texture gl).isSome = true :=
  ⟨by simp [Call.admissible],
    C15_direction_assertions 0 0 ⟨0, 0, 0⟩ ⟨0, 0, 0⟩ _ (by simp [Call.admissible])⟩

theorem set_gl_state_publishes (p : SingleResamplePassEffect) (gl : GLState)
    (mem : Nat → Nat) (s : Nat) (r : GLCall) (h : p.set_gl_state gl mem s = some r) :
    r.gl.num_samples = r.pass.src_samples ∧
      r.gl.sample_x_scale = 1 / (r.pass.src_samples : ℚ) ∧
      r.gl.sample_x_offset = (1 / 2) / (r.pass.src_samples : ℚ) := by
  unfold SingleResamplePassEffect.set_gl_state at h
  simp only [Option.map_eq_some'] at h
  obtain ⟨a, _, ha⟩ := h
  subst ha
  simp [SingleResamplePassEffect.publish]

theorem set_gl_state_tex_width (p : SingleResamplePassEffect) (gl : GLState)
    (mem : Nat → Nat) (s : Nat) (r : GLCall) (h : p.set_gl_state gl mem s = some r)
    (hw : ¬ cache_current p ∨ gl.tex_width = p.src_samples) :
    r.gl.tex_width = r.pass.src_samples := by
  by_cases hc : cache_current p
  · rw [set_gl_state_cached p gl mem s hc] at h
    cases h
    rcases hw with hw | hw
    · exact absurd hc hw
    · simpa [SingleResamplePassEffect.publish] using hw
  · have hcond : p.input_width ≠ p.last_input_width ∨
        p.input_height ≠ p.last_input_height ∨
        p.output_width ≠ p.last_output_width ∨ p.output_height ≠ p.last_output_height := by
      unfold cache_current at hc
      by_contra hcon
      push_neg at hcon
      exact hc ⟨hcon.1.symm, hcon.2.1.symm, hcon.2.2.1.symm, hcon.2.2.2.symm⟩
    unfold SingleResamplePassEffect.set_gl_state at h
    rw [if_pos hcond] at h
    unfold SingleResamplePassEffect.update_texture at h
    simp only [Option.map_eq_some', Option.map_map] at h
    obtain ⟨a, _, ha⟩ := h
    subst ha
    simp [SingleResamplePassEffect.publish]
/-- C16: after `set_gl_state`, with `src_samples >= 1` and a sample index
`0 <= i < src_samples`, the texture x-coordinate `i * sample_x_scale + sample_x_offset`
computed from the published uniforms is `(i + 0.5) / src_samples`, lies strictly between
`i / src_samples` and `(i + 1) / src_samples`, hence strictly inside `(0, 1)`;
`num_samples` is `src_samples`, which is the width of the weight texture whenever this
call uploaded it or the texture at hand had that width. -/
theorem C16_weight_texture_lookups (p : SingleResamplePassEffect) (gl : GLState)
    (mem : Nat → Nat) (s : Nat) (r : GLCall) (i : Nat)
    (h : p.set_gl_state gl mem s = some r)
    (hn : 1 ≤ r.pass.src_samples) (hi : (i : Int) < r.pass.src_samples) :
    sample_x r.gl i = ((i : ℚ) + 0.5) / (r.pass.src_samples : ℚ) ∧
      ((i : ℚ) / (r.pass.src_samples : ℚ) < sample_x r.gl i ∧
        sample_x r.gl i < ((i : ℚ) + 1) / (r.pass.src_samples : ℚ)) ∧
      (0 < sample_x r.gl i ∧ sample_x r.gl i < 1) ∧
      r.gl.num_samples = r.pass.src_samples ∧
      (¬ cache_current p ∨ gl.tex_width = p.src_samples →
        r.gl.num_samples = r.gl.tex_width) := by
  obtain ⟨h1, h2, h3⟩ := set_gl_state_publishes p gl mem s r h
  have hpos : (0 : ℚ) < (r.pass.src_samples : ℚ) := by
    have : (0 : Int) < r.pass.src_samples := by omega
    exact_mod_cast this
  have hiq : (i : ℚ) + 1 ≤ (r.pass.src_samples : ℚ) := by
    have : (i : Int) + 1 ≤ r.pass.src_samples := by omega
    exact_mod_cast this
  have hi0 : (0 : ℚ) ≤ (i : ℚ) := by exact_mod_cast Nat.zero_le i
  have hx : sample_x r.gl i = ((i : ℚ) + 0.5) / (r.pass.src_samples : ℚ) := by
    unfold sample_x
    rw [h2, h3]
    field_simp
    norm_num
    ring
  refine ⟨hx, ⟨?_, ?_⟩, ⟨?_, ?_⟩, h1, ?_⟩
  · rw [hx]
    apply div_lt_div_of_pos_right _ hpos
    norm_num
  · rw [hx]
    apply div_lt_div_of_pos_right _ hpos
    norm_num
  · rw [hx]
    apply div_pos _ hpos
    norm_num
    linarith
  · rw [hx, div_lt_one hpos]
    norm_num
    linarith
  · intro hw
    rw [h1, set_gl_state_tex_width p gl mem s r h hw]

theorem C16_weight_texture_lookups_witness :
    ∃ r, hpass_fixture.set_gl_state gl_fixture (fun _ => 0) 0 = some r ∧
      (1 ≤ r.pass.src_samples) ∧ (((6 : ℕ) : Int) < r.pass.src_samples) ∧
      (sample_x r.gl 6 = (((6 : ℕ) : ℚ) + 0.5) / (r.pass.src_samples : ℚ) ∧
      (((6 : ℕ) : ℚ) / (r.pass.src_samples : ℚ) < sample_x r.gl 6 ∧
        sample_x r.gl 6 < (((6 : ℕ) : ℚ) + 1) / (r.pass.src_samples : ℚ)) ∧
      (0 < sample_x r.gl 6 ∧ sample_x r.gl 6 < 1) ∧
      r.gl.num_samples = r.pass.src_samples ∧
      (¬ cache_current hpass_fixture ∨ gl_fixture.tex_width = hpass_fixture.src_samples →
        r.gl.num_samples = r.gl.tex_width)) := by
  have hss : src_samples_binary32 1280 640 = 13 := by
    unfold src_samples_binary32
    rw [int_radius_binary32_downsample 640 2 (by decide) (by decide) (by norm_num)]
    norm_num
  have hr : hpass_fixture.set_gl_state gl_fixture (fun _ => 0) 0 = some
      (SingleResamplePassEffect.publish
        { hpass_fixture with
          src_samples := 13
          last_input_width := 1280
          last_input_height := 720
          last_output_width := 640
          last_output_height := 720 }
        { gl_fixture with tex_uploads := 1, tex_width := 13, tex_height := 640 }
        (fun _ => 0) 0) := by
    have hsz : hpass_fixture.resample_sizes = some (1280, 640) := by decide
    unfold SingleResamplePassEffect.set_gl_state SingleResamplePassEffect.update_texture
    rw [hsz]
    simp [hpass_fixture, gl_fixture, hss]
  exact ⟨_, hr, by simp [SingleResamplePassEffect.publish],
    by simp [SingleResamplePassEffect.publish],
    C16_weight_texture_lookups hpass_fixture gl_fixture (fun _ => 0) 0 _ 6 hr
      (by simp [SingleResamplePassEffect.publish])
      (by simp [SingleResamplePassEffect.publish])⟩

/-- C17: whatever the eight `set_int` calls of `update_size` return, the accumulated flag
`ok` is true and `assert(ok)` passes: `ok` starts as `true` and is only ever or-ed.  In
particular a setter that fails on every call (and stores nothing) still lets
`update_size` return normally, with the passes left as they were. -/
theorem C17_failure_masking
    (setter : SingleResamplePassEffect → String → Int → Bool × SingleResamplePassEffect)
    (e : ResampleEffect) (b1 b2 b3 b4 b5 b6 b7 b8 : Bool) :
    ((((((((true || b1) || b2) || b3) || b4) || b5) || b6) || b7) || b8) = true ∧
      (e.update_size_with setter).isSome = true ∧
      e.update_size = e.update_size_with SingleResamplePassEffect.set_int ∧
      (e.update_size).isSome = true ∧
      e.update_size_with (fun p _ _ => (false, p)) = some e := by
  refine ⟨by simp, by simp [ResampleEffect.update_size_with], rfl, ?_, ?_⟩
  · rw [update_size_eq]
    rfl
  · simp [ResampleEffect.update_size_with]
theorem lanczos_weight_of_three_le (x : ℚ) (h : 3 ≤ x ∨ x ≤ -3) :
    lanczos_weight ((x : ℚ) : ℝ) ((LANCZOS_RADIUS : ℚ) : ℝ) = 0 := by
  have e3 : ((LANCZOS_RADIUS : ℚ) : ℝ) = 3 := by
    unfold LANCZOS_RADIUS
    norm_num
  rw [e3]
  rcases h with h | h
  · rcases eq_or_lt_of_le h with h1 | h1
    · have : ((x : ℚ) : ℝ) = ((3 : ℤ) : ℝ) := by
        rw [← h1]
        norm_num
      rw [this]
      exact lanczos_weight_int 3 (by decide)
    · apply lanczos_weight_cutoff
      left
      exact_mod_cast h1
  · rcases eq_or_lt_of_le h with h1 | h1
    · have : ((x : ℚ) : ℝ) = ((-3 : ℤ) : ℝ) := by
        rw [h1]
        norm_num
      rw [this]
      exact lanczos_weight_int (-3) (by decide)
    · apply lanczos_weight_cutoff
      right
      exact_mod_cast h1

theorem window_covers_support (r c : ℚ) (B R s : Int) (hr : 0 < r)
    (hB : |(B : ℚ) - c| ≤ 1 / 2) (hR : |(R : ℚ) - 3 / r| ≤ 1 / 2)
    (hout : s < B - R ∨ B + R < s) :
    3 ≤ r * ((s : ℚ) - c) ∨ r * ((s : ℚ) - c) ≤ -3 := by
  rw [abs_le] at hB hR
  have h3 : r * (3 / r) = 3 := by field_simp
  rcases hout with h | h
  · right
    have hs : (s : ℚ) ≤ (B : ℚ) - (R : ℚ) - 1 := by
      have : s ≤ B - R - 1 := by omega
      exact_mod_cast this
    have hle : (s : ℚ) - c ≤ -(3 / r) := by linarith [hB.2, hR.1]
    calc r * ((s : ℚ) - c) ≤ r * (-(3 / r)) := mul_le_mul_of_nonneg_left hle hr.le
      _ = -3 := by rw [mul_neg, h3]
  · left
    have hs : (B : ℚ) + (R : ℚ) + 1 ≤ (s : ℚ) := by
      have : B + R + 1 ≤ s := by omega
      exact_mod_cast this
    have hle : 3 / r ≤ (s : ℚ) - c := by linarith [hB.1, hR.2]
    calc (3 : ℚ) = r * (3 / r) := h3.symm
      _ ≤ r * ((s : ℚ) - c) := mul_le_mul_of_nonneg_left hle hr.le

/-- C18: for positive sizes, a destination index `y < dst_size`, and rounding to a nearest
integer under any tie rule (`rnd` with `|rnd x - x| <= 1/2`, of which `lrintf` is one),
every integer source index `s` outside the window
`[base_src_y - int_radius, base_src_y + int_radius]` has
`lanczos_weight(radius_scaling_factor * (s - center_src_y), 3) = 0`; the taps of a row
are exactly the kernel values at the source indices inside the window. -/
theorem C18_window_covers_support (src_size dst_size y : Nat) (s : Int) (rnd : ℚ → Int)
    (hs : 0 < src_size) (hd : 0 < dst_size) (_hy : y < dst_size)
    (hrnd : ∀ x : ℚ, |(rnd x : ℚ) - x| ≤ 1 / 2) :
    (s < rnd (center_src_y src_size dst_size y)
          - rnd (LANCZOS_RADIUS / radius_scaling_factor src_size dst_size) ∨
        rnd (center_src_y src_size dst_size y)
          + rnd (LANCZOS_RADIUS / radius_scaling_factor src_size dst_size) < s →
      weight_of_src src_size dst_size y s = 0) ∧
    (s < base_src_y src_size dst_size y - int_radius src_size dst_size ∨
        base_src_y src_size dst_size y + int_radius src_size dst_size < s →
      weight_of_src src_size dst_size y s = 0) ∧
    (∀ i : Nat, weight src_size dst_size y i
        = weight_of_src src_size dst_size y (src_y src_size dst_size y i)) ∧
    (∀ i : Nat, (i : Int) < src_samples src_size dst_size →
      base_src_y src_size dst_size y - int_radius src_size dst_size
          ≤ src_y src_size dst_size y i ∧
        src_y src_size dst_size y i
          ≤ base_src_y src_size dst_size y + int_radius src_size dst_size) := by
  have hr := radius_scaling_factor_pos src_size dst_size hs hd
  refine ⟨?_, ?_, fun i => rfl, ?_⟩
  · intro hout
    unfold weight_of_src
    apply lanczos_weight_of_three_le
    exact window_covers_support _ _ _ _ s hr (hrnd _)
      (by have := hrnd (LANCZOS_RADIUS / radius_scaling_factor src_size dst_size)
          simpa [LANCZOS_RADIUS] using this) hout
  · intro hout
    unfold weight_of_src
    apply lanczos_weight_of_three_le
    exact window_covers_support _ _ _ _ s hr (lrintf_nearest _)
      (by have := lrintf_nearest (LANCZOS_RADIUS / radius_scaling_factor src_size dst_size)
          simpa [LANCZOS_RADIUS, int_radius] using this) hout
  · intro i hi
    unfold src_y
    unfold src_samples at hi
    constructor <;> omega

theorem C18_window_covers_support_witness :
    (0 < 8 ∧ 0 < 4 ∧ 0 < 4 ∧ ∀ x : ℚ, |(lrintf x : ℚ) - x| ≤ 1 / 2) ∧
    ((7 < lrintf (center_src_y 8 4 0)
          - lrintf (LANCZOS_RADIUS / radius_scaling_factor 8 4) ∨
        lrintf (center_src_y 8 4 0)
          + lrintf (LANCZOS_RADIUS / radius_scaling_factor 8 4) < 7 →
      weight_of_src 8 4 0 7 = 0) ∧
    (7 < base_src_y 8 4 0 - int_radius 8 4 ∨
        base_src_y 8 4 0 + int_radius 8 4 < 7 →
      weight_of_src 8 4 0 7 = 0) ∧
    (∀ i : Nat, weight 8 4 0 i = weight_of_src 8 4 0 (src_y 8 4 0 i)) ∧
    (∀ i : Nat, (i : Int) < src_samples 8 4 →
      base_src_y 8 4 0 - int_radius 8 4 ≤ src_y 8 4 0 i ∧
        src_y 8 4 0 i ≤ base_src_y 8 4 0 + int_radius 8 4)) ∧
    weight_of_src 8 4 0 7 = 0 :=
  ⟨⟨by decide, by decide, by decide, lrintf_nearest⟩,
    C18_window_covers_support 8 4 0 7 lrintf (by decide) (by decide) (by decide)
      lrintf_nearest,
    (C18_window_covers_support 8 4 0 7 lrintf (by decide) (by decide) (by decide)
      lrintf_nearest).2.1 (Or.inr (by rw [base_src_y_8_4_0, int_radius_8_4]; decide))⟩
theorem three_div_radius_scaling_factor (src_size dst_size : Nat) (hs : 0 < src_size)
    (hd : 0 < dst_size) :
    5 / 2 * ((src_size : ℚ) / (dst_size : ℚ)) + 1 / 2
        ≤ LANCZOS_RADIUS / radius_scaling_factor src_size dst_size ∧
      3 ≤ LANCZOS_RADIUS / radius_scaling_factor src_size dst_size := by
  have h1 : (0 : ℚ) < src_size := by exact_mod_cast hs
  have h2 : (0 : ℚ) < dst_size := by exact_mod_cast hd
  have hq : (0 : ℚ) < (src_size : ℚ) / (dst_size : ℚ) := div_pos h1 h2
  unfold LANCZOS_RADIUS
  by_cases h : src_size ≤ dst_size
  · rw [radius_scaling_factor_upsample src_size dst_size hs h]
    have hle : (src_size : ℚ) / (dst_size : ℚ) ≤ 1 := by
      rw [div_le_one h2]
      exact_mod_cast h
    constructor
    · linarith
    · norm_num
  · have hlt : (dst_size : ℚ) < src_size := by
      have : dst_size < src_size := Nat.lt_of_not_le h
      exact_mod_cast this
    have hr : radius_scaling_factor src_size dst_size = (dst_size : ℚ) / (src_size : ℚ) := by
      unfold radius_scaling_factor
      exact min_eq_left ((div_le_one h1).mpr hlt.le)
    have e : (3 : ℚ) / ((dst_size : ℚ) / (src_size : ℚ))
        = 3 * ((src_size : ℚ) / (dst_size : ℚ)) := by
      field_simp
    have hgt : 1 < (src_size : ℚ) / (dst_size : ℚ) := by
      rw [one_lt_div h2]
      exact hlt
    rw [hr, e]
    constructor <;> linarith

theorem int_radius_ge (src_size dst_size : Nat) (hs : 0 < src_size) (hd : 0 < dst_size) :
    5 / 2 * ((src_size : ℚ) / (dst_size : ℚ)) ≤ (int_radius src_size dst_size : ℚ) ∧
      3 ≤ int_radius src_size dst_size := by
  have h := lrintf_nearest (LANCZOS_RADIUS / radius_scaling_factor src_size dst_size)
  rw [abs_le] at h
  obtain ⟨a, b⟩ := three_div_radius_scaling_factor src_size dst_size hs hd
  have hR : (int_radius src_size dst_size : ℚ)
      = (lrintf (LANCZOS_RADIUS / radius_scaling_factor src_size dst_size) : ℚ) := rfl
  constructor
  · rw [hR]
    linarith [h.1]
  · have h2 : (2 : ℚ) < (int_radius src_size dst_size : ℚ) := by
      rw [hR]
      linarith [h.1]
    have : (2 : Int) < int_radius src_size dst_size := by exact_mod_cast h2
    omega

/-- C19: for positive sizes the table holds out-of-range source coordinates: the entry
`(y = 0, i = 0)` has normalised source coordinate `(src_y + 0.5)/src_size` strictly below
0, and the entry `(y = dst_size - 1, i = src_samples - 1)` has normalised source
coordinate at least 1. -/
theorem C19_out_of_range_coordinates (src_size dst_size : Nat) (hs : 0 < src_size)
    (hd : 0 < dst_size) :
    weights_u src_size dst_size 0 0 < 0 ∧
      1 ≤ weights_u src_size dst_size (dst_size - 1)
        (src_samples src_size dst_size - 1).toNat ∧
      (((src_samples src_size dst_size - 1).toNat : Int)
        = src_samples src_size dst_size - 1) := by
  have h1 : (0 : ℚ) < src_size := by exact_mod_cast hs
  have h2 : (0 : ℚ) < dst_size := by exact_mod_cast hd
  have hq : (0 : ℚ) < (src_size : ℚ) / (dst_size : ℚ) := div_pos h1 h2
  obtain ⟨hR, hR3⟩ := int_radius_ge src_size dst_size hs hd
  have hidx : (((src_samples src_size dst_size - 1).toNat : Int)
      = src_samples src_size dst_size - 1) := by
    unfold src_samples
    omega
  refine ⟨?_, ?_, hidx⟩
  · unfold weights_u
    apply div_neg_of_neg_of_pos _ h1
    have hB := lrintf_nearest (center_src_y src_size dst_size 0)
    rw [abs_le] at hB
    have hc : center_src_y src_size dst_size 0
        = 1 / 2 * ((src_size : ℚ) / (dst_size : ℚ)) - 1 / 2 := by
      unfold center_src_y
      push_cast
      ring
    have hsy : (src_y src_size dst_size 0 0 : ℚ)
        = (lrintf (center_src_y src_size dst_size 0) : ℚ)
          - (int_radius src_size dst_size : ℚ) := by
      unfold src_y base_src_y
      push_cast
      ring
    rw [hsy]
    rw [hc] at hB
    rw [hc]
    have hone : 1 ≤ (src_size : ℚ) / (dst_size : ℚ) ∨ (src_size : ℚ) / (dst_size : ℚ) < 1 :=
      le_or_lt _ _
    have hR3q : (3 : ℚ) ≤ (int_radius src_size dst_size : ℚ) := by exact_mod_cast hR3
    rcases hone with h | h
    · linarith [hB.2]
    · linarith [hB.2]
  · unfold weights_u
    rw [le_div_iff₀ h1, one_mul]
    have hB := lrintf_nearest (center_src_y src_size dst_size (dst_size - 1))
    rw [abs_le] at hB
    have hdq : ((dst_size - 1 : ℕ) : ℚ) = (dst_size : ℚ) - 1 := by
      rw [Nat.cast_sub hd]
      norm_num
    have hc : center_src_y src_size dst_size (dst_size - 1)
        = (src_size : ℚ) - 1 / 2 * ((src_size : ℚ) / (dst_size : ℚ)) - 1 / 2 := by
      unfold center_src_y
      rw [hdq]
      field_simp
      ring
    have hsy : (src_y src_size dst_size (dst_size - 1)
          (src_samples src_size dst_size - 1).toNat : ℚ)
        = (lrintf (center_src_y src_size dst_size (dst_size - 1)) : ℚ)
          + (int_radius src_size dst_size : ℚ) := by
      unfold src_y base_src_y
      rw [hidx]
      unfold src_samples
      push_cast
      ring
    rw [hsy]
    rw [hc] at hB
    rw [hc]
    have hR3q : (3 : ℚ) ≤ (int_radius src_size dst_size : ℚ) := by exact_mod_cast hR3
    have hone : 1 ≤ (src_size : ℚ) / (dst_size : ℚ) ∨ (src_size : ℚ) / (dst_size : ℚ) < 1 :=
      le_or_lt _ _
    rcases hone with h | h
    · linarith [hB.1]
    · linarith [hB.1]

theorem C19_out_of_range_coordinates_witness :
    (0 < 4 ∧ 0 < 8) ∧
    (weights_u 4 8 0 0 < 0 ∧
      1 ≤ weights_u 4 8 (8 - 1) (src_samples 4 8 - 1).toNat ∧
      (((src_samples 4 8 - 1).toNat : Int) = src_samples 4 8 - 1)) :=
  ⟨⟨by decide, by decide⟩, C19_out_of_range_coordinates 4 8 (by decide) (by decide)⟩

theorem abs_sinc_le_one (x : ℝ) : |sinc x| ≤ 1 := by
  unfold sinc
  split_ifs with h
  · have h0 : 0 ≤ |x| := abs_nonneg x
    rw [abs_le]
    constructor
    · have : |x| < 1 := lt_trans h (by norm_num)
      linarith
    · linarith
  · have hx : x ≠ 0 := by
      intro h0
      apply h
      rw [h0, abs_zero]
      norm_num
    rw [abs_div, div_le_one (abs_pos.mpr hx)]
    exact Real.abs_sin_le_abs

theorem abs_lanczos_weight_le_one (x a : ℝ) : |lanczos_weight x a| ≤ 1 := by
  unfold lanczos_weight
  split_ifs with h
  · simp
  · rw [abs_mul]
    calc |sinc (Real.pi * x)| * |sinc (Real.pi * x / a)| ≤ 1 * 1 :=
          mul_le_mul (abs_sinc_le_one _) (abs_sinc_le_one _) (abs_nonneg _) zero_le_one
      _ = 1 := one_mul 1

/-- C20: `|sinc(t)| <= 1` on both branches of `sinc`, hence `|lanczos_weight(x, 3)| <= 1`
for every real `x`, and for positive sizes every stored weight satisfies
`|weights[y][i].w| <= radius_scaling_factor <= 1`. -/
theorem C20_weight_magnitude (x : ℝ) (src_size dst_size y i : Nat) (hs : 0 < src_size)
    (hd : 0 < dst_size) :
    |sinc x| ≤ 1 ∧ |lanczos_weight x 3| ≤ 1 ∧
      |weights_w src_size dst_size y i|
        ≤ ((radius_scaling_factor src_size dst_size : ℚ) : ℝ) ∧
      radius_scaling_factor src_size dst_size ≤ 1 ∧
      |weights_w src_size dst_size y i| ≤ 1 := by
  have hr0 : (0 : ℚ) < radius_scaling_factor src_size dst_size :=
    radius_scaling_factor_pos src_size dst_size hs hd
  have hr1 : radius_scaling_factor src_size dst_size ≤ 1 := by
    unfold radius_scaling_factor
    exact min_le_right _ _
  have hr0r : (0 : ℝ) ≤ ((radius_scaling_factor src_size dst_size : ℚ) : ℝ) := by
    exact_mod_cast hr0.le
  have hr1r : ((radius_scaling_factor src_size dst_size : ℚ) : ℝ) ≤ 1 := by
    exact_mod_cast hr1
  have hw : |weights_w src_size dst_size y i|
      ≤ ((radius_scaling_factor src_size dst_size : ℚ) : ℝ) := by
    unfold weights_w weight
    rw [abs_mul, abs_of_nonneg hr0r]
    calc |lanczos_weight _ _| * ((radius_scaling_factor src_size dst_size : ℚ) : ℝ)
        ≤ 1 * ((radius_scaling_factor src_size dst_size : ℚ) : ℝ) :=
          mul_le_mul_of_nonneg_right (abs_lanczos_weight_le_one _ _) hr0r
      _ = ((radius_scaling_factor src_size dst_size : ℚ) : ℝ) := one_mul _
  exact ⟨abs_sinc_le_one x, abs_lanczos_weight_le_one x 3, hw, hr1, le_trans hw hr1r⟩

theorem C20_weight_magnitude_witness :
    (0 < 8 ∧ 0 < 4) ∧
    (|sinc (1 / 2)| ≤ 1 ∧ |lanczos_weight (1 / 2) 3| ≤ 1 ∧
      |weights_w 8 4 0 6| ≤ ((radius_scaling_factor 8 4 : ℚ) : ℝ) ∧
      radius_scaling_factor 8 4 ≤ 1 ∧
      |weights_w 8 4 0 6| ≤ 1) :=
  ⟨⟨by decide, by decide⟩, C20_weight_magnitude (1 / 2) 8 4 0 6 (by decide) (by decide)⟩

end Movit
